import Mathlib

/-!
# Coyote `12_perf_tcp_client`: the `inst_client` driver

A shallow embedding of the HLS state machine `inst_client` of
`examples/12_perf_tcp_client/hw/src/hls/tcp_perf_client/tcp_perf_client.cpp`.

* The `static` locals of `inst_client` and the six `hls::stream` arguments are
  the fields of `ClientState`; one call of `inst_client` is one tick.
* An `ap_uint<w>` register is a `Nat` that is reduced `% 2^w` whenever it is
  assigned.  Binary `ap_uint` operators widen, so `totalSendTarget -
  numConnections` is the exact (possibly negative) integer and the comparisons
  against it are comparisons in `Int`.
* An input stream is the list of values waiting in it (head = next value read);
  an output stream is the list of all values written to it so far (newest last);
  a write never blocks, as in C simulation of `hls::stream`.
* Between two calls the surroundings may append values to the two input
  streams (`TickInput`); a call together with these arrivals is a tick.
-/

namespace TcpPerfClient

/-- The `enum iperfFsmStateType` of `inst_client`. -/
inductive iperfFsmStateType where
  | IDLE
  | INIT_CON
  | WAIT_CON
  | CONSTRUCT_HEADER
  | INIT_RUN
  | START_PKG
  | CHECK_REQ
  | WRITE_PKG
  | CHECK_SIZE
  deriving DecidableEq, Repr

/-- Modelled from the spec: `tcp_perf_client.hpp` is not among the sources; an
OpenRequest is the pair destination address, destination port. -/
structure ipTuple where
  ip_address : Nat
  ip_port : Nat
  deriving DecidableEq, Repr

/-- Modelled from the spec: `tcp_perf_client.hpp` is not among the sources; an
OpenResult is the pair session id, success flag. -/
structure openStatus where
  sessionID : Nat
  success : Bool
  deriving DecidableEq, Repr

/-- Modelled from the spec: `tcp_perf_client.hpp` is not among the sources; a
SendRequest is the pair session id, byte length, built by the two-argument
constructor `appTxMeta(id, len)`. -/
structure appTxMeta where
  sessionID : Nat
  length : Nat
  deriving DecidableEq, Repr

/-- Modelled from the spec: `tcp_perf_client.hpp` is not among the sources; a
SendCompletion carries the session id and an error code
(0 = ok, 1 = fatal, 2 = transient). -/
structure appTxRsp where
  sessionID : Nat
  error : Nat
  deriving DecidableEq, Repr

/-- Modelled from the spec: `tcp_perf_client.hpp` is not among the sources; a
data word `net_axis<WIDTH>` with the three members the driver assigns. -/
structure net_axis where
  data : Nat
  keep : Nat
  last : Bool
  deriving DecidableEq, Repr

/-- The statics of `inst_client` followed by its six stream arguments. -/
structure ClientState where
  iperfFsmState : iperfFsmStateType
  currentSessionID : Nat
  numConnections : Nat
  wordCount : Nat
  totalPkgCounter : Nat
  totalSendTarget : Nat
  openConnection : List ipTuple
  openConStatusBuffer : List openStatus
  closeConnection : List Nat
  txMetaDataBuffer : List appTxMeta
  txDataBuffer : List net_axis
  txStatus : List appTxRsp
  deriving DecidableEq, Repr

/-- The unrolled loop `for (i = 0; i < WIDTH/64; i++)` of `START_PKG` and
`WRITE_PKG`: every 64-bit lane of `data` is `0x3736353433323130`, every 8-bit
lane of `keep` is `0xff`; `last` is set by the caller. -/
def payloadWord (WIDTH : Nat) (last : Bool) : net_axis :=
  { data := (List.range (WIDTH / 64)).foldl
      (fun acc i => acc + 0x3736353433323130 * 2 ^ (i * 64)) 0
    keep := (List.range (WIDTH / 64)).foldl
      (fun acc i => acc + 0xff * 2 ^ (i * 8)) 0
    last := last }

/-- The decrement `x--` / `--x` of an `ap_uint<16>` register holding `x < 2^16`:
it wraps from 0 to 65535. -/
def dec16 (x : Nat) : Nat :=
  if x = 0 then 65535 else x - 1

/-- One call of `inst_client<WIDTH>`: the `switch (iperfFsmState)`. -/
def inst_client (WIDTH : Nat) (s : ClientState)
    (runTx numSessions pkgWordCount serverIpAddress TotalPkgPerConn : Nat) : ClientState :=
  match s.iperfFsmState with
  | .IDLE =>
    if runTx ≠ 0 then
      { s with
        currentSessionID := 0
        numConnections := 0
        totalPkgCounter := 0
        totalSendTarget := 0
        iperfFsmState := .INIT_CON }
    else s
  | .INIT_CON =>
    if (s.currentSessionID + 1) % 65536 = numSessions then
      { s with
        openConnection := s.openConnection ++ [⟨serverIpAddress, 5001⟩]
        currentSessionID := 0
        iperfFsmState := .WAIT_CON }
    else
      { s with
        openConnection := s.openConnection ++ [⟨serverIpAddress, 5001⟩]
        currentSessionID := (s.currentSessionID + 1) % 65536 }
  | .WAIT_CON =>
    if s.currentSessionID = numSessions then
      if 0 < s.numConnections then
        { s with
          totalSendTarget := (s.numConnections * TotalPkgPerConn) % 65536
          iperfFsmState := .CHECK_REQ }
      else
        { s with iperfFsmState := .IDLE }
    else
      match s.openConStatusBuffer with
      | [] => s
      | status :: rest =>
        if status.success then
          { s with
            openConStatusBuffer := rest
            txMetaDataBuffer :=
              s.txMetaDataBuffer ++ [⟨status.sessionID, pkgWordCount * (WIDTH / 8)⟩]
            numConnections := (s.numConnections + 1) % 65536
            currentSessionID := (s.currentSessionID + 1) % 65536 }
        else
          { s with
            openConStatusBuffer := rest
            currentSessionID := (s.currentSessionID + 1) % 65536 }
  | .CHECK_REQ =>
    match s.txStatus with
    | [] => s
    | resp :: rest =>
      if resp.error = 0 then
        { s with
          txStatus := rest
          currentSessionID := resp.sessionID % 65536
          iperfFsmState := .START_PKG }
      else if resp.error = 1 then
        { s with
          txStatus := rest
          numConnections := dec16 s.numConnections }
      else
        { s with
          txStatus := rest
          txMetaDataBuffer :=
            s.txMetaDataBuffer ++ [⟨resp.sessionID, pkgWordCount * (WIDTH / 8)⟩] }
  | .START_PKG =>
    let metaBuf :=
      if (s.totalPkgCounter : Int) < (s.totalSendTarget : Int) - (s.numConnections : Int) then
        s.txMetaDataBuffer ++ [⟨s.currentSessionID, pkgWordCount * (WIDTH / 8)⟩]
      else s.txMetaDataBuffer
    if 1 = pkgWordCount then
      { s with
        txMetaDataBuffer := metaBuf
        txDataBuffer := s.txDataBuffer ++ [payloadWord WIDTH true]
        wordCount := 0
        totalPkgCounter := (s.totalPkgCounter + 1) % 65536
        iperfFsmState := .CHECK_SIZE }
    else
      { s with
        txMetaDataBuffer := metaBuf
        txDataBuffer := s.txDataBuffer ++ [payloadWord WIDTH false]
        wordCount := 1
        iperfFsmState := .WRITE_PKG }
  | .WRITE_PKG =>
    if (s.wordCount + 1) % 256 = pkgWordCount then
      { s with
        txDataBuffer := s.txDataBuffer ++ [payloadWord WIDTH true]
        wordCount := 0
        totalPkgCounter := (s.totalPkgCounter + 1) % 65536
        iperfFsmState := .CHECK_SIZE }
    else
      { s with
        txDataBuffer := s.txDataBuffer ++ [payloadWord WIDTH false]
        wordCount := (s.wordCount + 1) % 256 }
  | .CHECK_SIZE =>
    if (s.totalPkgCounter : Int) ≥ (s.totalSendTarget : Int) - (s.numConnections : Int) then
      if dec16 s.numConnections = 0 then
        { s with
          closeConnection := s.closeConnection ++ [s.currentSessionID]
          numConnections := dec16 s.numConnections
          iperfFsmState := .IDLE }
      else
        { s with
          closeConnection := s.closeConnection ++ [s.currentSessionID]
          numConnections := dec16 s.numConnections
          iperfFsmState := .CHECK_REQ }
    else
      { s with iperfFsmState := .CHECK_REQ }
  | .CONSTRUCT_HEADER => s
  | .INIT_RUN => s

/-- What the surroundings present to one call of `inst_client`: the five scalar
ports, and the values that have arrived on the two input streams since the
previous call. -/
structure TickInput where
  runTx : Nat
  numSessions : Nat
  pkgWordCount : Nat
  serverIpAddress : Nat
  TotalPkgPerConn : Nat
  openArrivals : List openStatus
  txArrivals : List appTxRsp
  deriving DecidableEq, Repr

/-- The arrivals of a tick are appended to the two input streams. -/
def deliver (s : ClientState) (os : List openStatus) (rs : List appTxRsp) : ClientState :=
  { s with
    openConStatusBuffer := s.openConStatusBuffer ++ os
    txStatus := s.txStatus ++ rs }

/-- One tick: the arrivals are enqueued, then `inst_client` is called once. -/
def tick (WIDTH : Nat) (s : ClientState) (i : TickInput) : ClientState :=
  inst_client WIDTH (deliver s i.openArrivals i.txArrivals)
    i.runTx i.numSessions i.pkgWordCount i.serverIpAddress i.TotalPkgPerConn

/-- A sequence of ticks. -/
def run (WIDTH : Nat) : ClientState → List TickInput → ClientState
  | s, [] => s
  | s, i :: is => run WIDTH (tick WIDTH s i) is

/-- The initial values of the statics, with all streams empty. -/
def initState : ClientState :=
  { iperfFsmState := .IDLE
    currentSessionID := 0
    numConnections := 0
    wordCount := 0
    totalPkgCounter := 0
    totalSendTarget := 0
    openConnection := []
    openConStatusBuffer := []
    closeConnection := []
    txMetaDataBuffer := []
    txDataBuffer := []
    txStatus := [] }

/-- A tick on which nothing arrives. -/
def quiet (runTx numSessions pkgWordCount serverIpAddress TotalPkgPerConn : Nat) : TickInput :=
  { runTx := runTx
    numSessions := numSessions
    pkgWordCount := pkgWordCount
    serverIpAddress := serverIpAddress
    TotalPkgPerConn := TotalPkgPerConn
    openArrivals := []
    txArrivals := [] }

/-- Everything that arrives on `openConStatusBuffer` during a sequence of ticks. -/
def openStream (ts : List TickInput) : List openStatus :=
  (ts.map (fun t => t.openArrivals)).flatten

/-- Everything that arrives on `txStatus` during a sequence of ticks. -/
def txStream (ts : List TickInput) : List appTxRsp :=
  (ts.map (fun t => t.txArrivals)).flatten

/-- Ticks are applied until the first one that leaves the driver in `IDLE`; the
state right after that tick is returned, `none` when the ticks run out first. -/
def runUntilIdle (WIDTH : Nat) : ClientState → List TickInput → Option ClientState
  | _, [] => none
  | s, i :: is =>
    if (tick WIDTH s i).iperfFsmState = .IDLE then some (tick WIDTH s i)
    else runUntilIdle WIDTH (tick WIDTH s i) is

/-- The seed send requests for a list of open results: one
`appTxMeta(sessionID, pkgWordCount*(WIDTH/8))` per successful result, in order. -/
def seedRequests (WIDTH pkgWordCount : Nat) (rs : List openStatus) : List appTxMeta :=
  (rs.filter (fun r => r.success)).map
    (fun r => (⟨r.sessionID, pkgWordCount * (WIDTH / 8)⟩ : appTxMeta))

/-- The bookkeeping of `WAIT_CON`, relative to the stream `D` of open results
delivered so far and the send requests `M0` present when the phase began: the
results consumed so far are an initial segment `C` of `D`, `currentSessionID`
counts them, `numConnections` counts the successful ones, and (when all ticks
presented the same `pkgWordCount = w`, recorded by `p`) the send requests
written are the seeds of `C`. -/
def WaitInv (WIDTH N w : Nat) (p : Prop) (M0 : List appTxMeta) (D : List openStatus)
    (s : ClientState) : Prop :=
  s.iperfFsmState = .WAIT_CON ∧
  ∃ C : List openStatus,
    D = C ++ s.openConStatusBuffer ∧
    s.currentSessionID = C.length ∧
    C.length ≤ N ∧
    s.numConnections = (C.filter (fun r => r.success)).length ∧
    (p → s.txMetaDataBuffer = M0 ++ seedRequests WIDTH w C)

/-- The tick `t`, on which in addition the open results `os` arrive. -/
def withOpen (t : TickInput) (os : List openStatus) : TickInput :=
  { t with openArrivals := t.openArrivals ++ os }

/-- The tick `t`, on which in addition the send completions `rs` arrive. -/
def withTx (t : TickInput) (rs : List appTxRsp) : TickInput :=
  { t with txArrivals := t.txArrivals ++ rs }

/-- The four states of the traffic phase, entered when `WAIT_CON` sets
`totalSendTarget` and left on the return to `IDLE`. -/
def inTraffic (s : ClientState) : Prop :=
  s.iperfFsmState = .CHECK_REQ ∨ s.iperfFsmState = .START_PKG ∨
  s.iperfFsmState = .WRITE_PKG ∨ s.iperfFsmState = .CHECK_SIZE

/-- The counters of a run in which no send completion has `error = 1`, for
`numSessions = N` and a slack `e`: no fatal completion is waiting; in the
opening phase nothing is counted yet; in `WAIT_CON` the successes are at most
the results consumed; in the traffic phase at least one connection is active
and the packets counted plus the active connections plus `e` stay within
`totalSendTarget` (plus the packet just counted, in `CHECK_SIZE`). -/
def QuotaInv (N e : Nat) (s : ClientState) : Prop :=
  (∀ r ∈ s.txStatus, r.error ≠ 1) ∧
  (s.iperfFsmState = .INIT_CON →
    s.numConnections = 0 ∧ s.totalPkgCounter = 0 ∧ s.totalSendTarget = 0) ∧
  (s.iperfFsmState = .WAIT_CON →
    s.numConnections ≤ s.currentSessionID ∧ s.currentSessionID ≤ N ∧
      s.totalPkgCounter = 0 ∧ s.totalSendTarget = 0) ∧
  (s.iperfFsmState = .CHECK_REQ ∨ s.iperfFsmState = .START_PKG ∨
      s.iperfFsmState = .WRITE_PKG →
    1 ≤ s.numConnections ∧ s.totalPkgCounter + s.numConnections + e ≤ s.totalSendTarget ∧
      s.totalSendTarget < 65536) ∧
  (s.iperfFsmState = .CHECK_SIZE →
    1 ≤ s.numConnections ∧ 1 ≤ s.totalPkgCounter ∧
      s.totalPkgCounter + s.numConnections + e ≤ s.totalSendTarget + 1 ∧
      s.totalSendTarget < 65536)

/-- The number of open results with `success = true` in a list. -/
def successCount (rs : List openStatus) : Nat :=
  (rs.filter (fun r => r.success)).length

/-- The bookkeeping of one run in which no send completion has `error = 1`,
relative to the close requests `cl0` present when the run began and the stream
`D` of open results delivered so far.  In `INIT_CON` nothing is consumed or
closed; in `WAIT_CON` the consumed results `C` are an initial segment of `D`
and `numConnections` counts their successes; in the traffic phase all `N`
results are consumed and the active connections plus the close requests `cl`
written in this run make up the successes. -/
def RunInv (N : Nat) (cl0 : List Nat) (D : List openStatus) (s : ClientState) : Prop :=
  (∀ r ∈ s.txStatus, r.error ≠ 1) ∧
  ((s.iperfFsmState = .INIT_CON ∧ s.numConnections = 0 ∧ s.closeConnection = cl0 ∧
      D = s.openConStatusBuffer) ∨
   (s.iperfFsmState = .WAIT_CON ∧ s.closeConnection = cl0 ∧
      ∃ C : List openStatus, D = C ++ s.openConStatusBuffer ∧
        s.currentSessionID = C.length ∧ C.length ≤ N ∧ s.numConnections = successCount C) ∨
   (inTraffic s ∧ 1 ≤ s.numConnections ∧
      ∃ (C : List openStatus) (cl : List Nat), D = C ++ s.openConStatusBuffer ∧
        C.length = N ∧ s.closeConnection = cl0 ++ cl ∧
        s.numConnections + cl.length = successCount C))

/-- The state of affairs when such a run has returned to `IDLE`: of the stream
`D` the first `N` results `C` were consumed, and the close requests `cl`
written in the run are as many as the successes among `C`. -/
def RunDone (N : Nat) (cl0 : List Nat) (D : List openStatus) (s : ClientState) : Prop :=
  s.iperfFsmState = .IDLE ∧
  ∃ (C : List openStatus) (cl : List Nat) (R : List openStatus), D = C ++ R ∧
    C.length = N ∧ s.closeConnection = cl0 ++ cl ∧ cl.length = successCount C

/-- The states after each tick of a run, in order. -/
def trace (WIDTH : Nat) : ClientState → List TickInput → List ClientState
  | _, [] => []
  | s, i :: is => tick WIDTH s i :: trace WIDTH (tick WIDTH s i) is

/-- Two tick inputs agree on everything a call of `inst_client` in state `st`
reads: the arrivals on the two input streams, and of the five scalar ports
`runTx` in `IDLE`; `numSessions` and `serverIpAddress` in `INIT_CON`;
`numSessions`, `pkgWordCount` and `TotalPkgPerConn` in `WAIT_CON`;
`pkgWordCount` in `CHECK_REQ`, `START_PKG` and `WRITE_PKG`; none in the other
states. -/
def agreeWhereRead (st : iperfFsmStateType) (t u : TickInput) : Prop :=
  t.openArrivals = u.openArrivals ∧ t.txArrivals = u.txArrivals ∧
  match st with
  | .IDLE => t.runTx = u.runTx
  | .INIT_CON => t.numSessions = u.numSessions ∧ t.serverIpAddress = u.serverIpAddress
  | .WAIT_CON =>
    t.numSessions = u.numSessions ∧ t.pkgWordCount = u.pkgWordCount ∧
      t.TotalPkgPerConn = u.TotalPkgPerConn
  | .CHECK_REQ => t.pkgWordCount = u.pkgWordCount
  | .START_PKG => t.pkgWordCount = u.pkgWordCount
  | .WRITE_PKG => t.pkgWordCount = u.pkgWordCount
  | .CHECK_SIZE => True
  | .CONSTRUCT_HEADER => True
  | .INIT_RUN => True

/-- Two input sequences of the same length agree, tick by tick along the run
of the first from `s`, on everything the driver reads. -/
def agreeAlong (WIDTH : Nat) : ClientState → List TickInput → List TickInput → Prop
  | _, [], [] => True
  | s, t :: ts, u :: us =>
    agreeWhereRead s.iperfFsmState t u ∧ agreeAlong WIDTH (tick WIDTH s t) ts us
  | _, _, _ => False

/-- The counters of an execution in which no send completion has `error = 1`,
whatever the configuration presented: no fatal completion is waiting; before
the traffic phase nothing is counted and `numConnections` is a 16-bit value; in
the traffic phase at least one connection is active and `totalPkgCounter +
numConnections` stays below `2^16` (at most `2^16` in `CHECK_SIZE`, right after
a packet was counted). -/
def CounterInv (s : ClientState) : Prop :=
  (∀ r ∈ s.txStatus, r.error ≠ 1) ∧
  (s.iperfFsmState = .INIT_CON ∨ s.iperfFsmState = .WAIT_CON →
    s.totalPkgCounter = 0 ∧ s.numConnections < 65536) ∧
  (s.iperfFsmState = .CHECK_REQ ∨ s.iperfFsmState = .START_PKG ∨
      s.iperfFsmState = .WRITE_PKG →
    1 ≤ s.numConnections ∧ s.totalPkgCounter + s.numConnections ≤ 65535 ∧
      s.totalSendTarget < 65536) ∧
  (s.iperfFsmState = .CHECK_SIZE →
    1 ≤ s.numConnections ∧ s.totalPkgCounter + s.numConnections ≤ 65536 ∧
      s.totalSendTarget < 65536)

/-! ### The host program `sw/src/main.cpp` -/

/-- The exceptions `parseIpBE` throws (`std::invalid_argument` with the four
messages of the source). -/
inductive IpError where
  | moreThanFourOctets
  | emptyOctet
  | invalidOctet (tok : List Char)
  | notFourOctets
  deriving DecidableEq, Repr

/-- What a computation that either returns a value or throws yields. -/
inductive Throws (α : Type) where
  | value (v : α)
  | thrown (e : IpError)
  deriving DecidableEq, Repr

/-- `std::isspace` in the "C" locale, which the program never changes: the
space and the control characters 9 to 13. -/
def isspace (c : Char) : Bool :=
  c.toNat = 32 || (9 ≤ c.toNat && c.toNat ≤ 13)

/-- A decimal digit, as `strtol` with base 10 accepts it. -/
def isdigit (c : Char) : Bool :=
  48 ≤ c.toNat && c.toNat ≤ 57

/-- The tokens that `while (std::getline(iss, tok, '.'))` yields for the
contents of `iss`: every `'.'` ends a token and is consumed; characters after
the last `'.'` form a final token; when nothing is left after the last `'.'`
(or the input is empty) `getline` extracts nothing, fails, and the loop ends. -/
def getlineTokens : List Char → List (List Char)
  | [] => []
  | c :: cs =>
    if c = '.' then [] :: getlineTokens cs
    else
      match getlineTokens cs with
      | [] => [[c]]
      | tok :: toks => (c :: tok) :: toks

/-- The first `tok.erase(...)`: leading whitespace is removed. -/
def eraseLeadingSpace (tok : List Char) : List Char :=
  tok.dropWhile isspace

/-- The second `tok.erase(...)`: trailing whitespace is removed. -/
def eraseTrailingSpace (tok : List Char) : List Char :=
  (tok.reverse.dropWhile isspace).reverse

/-- The C string `tok.c_str()` as `strtol` sees it: it ends at the first NUL. -/
def c_str (tok : List Char) : List Char :=
  tok.takeWhile (fun c => c.toNat ≠ 0)

/-- `LONG_MAX` for the 64-bit `long` of the platform. -/
def LONG_MAX : Int := 9223372036854775807

/-- `LONG_MIN` for the 64-bit `long` of the platform. -/
def LONG_MIN : Int := -9223372036854775808

/-- The value of a string of decimal digits. -/
def digitsValue (ds : List Char) : Nat :=
  ds.foldl (fun acc c => 10 * acc + (c.toNat - 48)) 0

/-- `strtol(nptr, &endp, 10)` of the C library: leading whitespace, an optional
sign, then decimal digits.  The result is the value (clamped to the range of
`long`) and the rest of the string at `endp`; without any digit no conversion
is performed, the value is 0 and `endp` is `nptr`. -/
def strtol (nptr : List Char) : Int × List Char :=
  let body := nptr.dropWhile isspace
  let negative : Bool :=
    match body with
    | c :: _ => c = '-'
    | [] => false
  let afterSign :=
    match body with
    | c :: rest => if c = '-' ∨ c = '+' then rest else body
    | [] => body
  let digits := afterSign.takeWhile isdigit
  if digits = [] then (0, nptr)
  else if negative then (max (-(digitsValue digits : Int)) LONG_MIN, afterSign.dropWhile isdigit)
  else (min (digitsValue digits : Int) LONG_MAX, afterSign.dropWhile isdigit)

/-- The body of the loop of `parseIpBE` for one token, after the test
`i >= 4`: the value stored to `b[i]`, or the exception thrown. -/
def parseOctet (tok : List Char) : Throws Nat :=
  if eraseTrailingSpace (eraseLeadingSpace tok) = [] then .thrown .emptyOctet
  else if (strtol (c_str (eraseTrailingSpace (eraseLeadingSpace tok)))).2 ≠ [] ∨
      (strtol (c_str (eraseTrailingSpace (eraseLeadingSpace tok)))).1 < 0 ∨
      (strtol (c_str (eraseTrailingSpace (eraseLeadingSpace tok)))).1 > 255 then
    .thrown (.invalidOctet (eraseTrailingSpace (eraseLeadingSpace tok)))
  else .value (strtol (c_str (eraseTrailingSpace (eraseLeadingSpace tok)))).1.toNat

/-- The loop of `parseIpBE` over the remaining tokens, with the index `i` and
the octets `b[0..i)` stored so far. -/
def parseLoop : List (List Char) → Nat → List Nat → Throws (Nat × List Nat)
  | [], i, b => .value (i, b)
  | tok :: toks, i, b =>
    if i ≥ 4 then .thrown .moreThanFourOctets
    else
      match parseOctet tok with
      | .thrown e => .thrown e
      | .value v => parseLoop toks (i + 1) (b ++ [v])

/-- The function `parseIpBE` of `main.cpp` on the characters of `ip_str`; the
shifts and the result are `uint32_t`. -/
def parseIpBE (ip_str : List Char) : Throws Nat :=
  match parseLoop (getlineTokens ip_str) 0 [] with
  | .thrown e => .thrown e
  | .value (i, b) =>
    if i ≠ 4 then .thrown .notFourOctets
    else
      .value ((b.getD 0 0 <<< 24) % 2 ^ 32 ||| (b.getD 1 0 <<< 16) % 2 ^ 32 |||
        (b.getD 2 0 <<< 8) % 2 ^ 32 ||| (b.getD 3 0 <<< 0) % 2 ^ 32)

/-- `std::to_string` of an unsigned value: its decimal digits. -/
def to_string (n : Nat) : List Char :=
  Nat.toDigits 10 n

/-- The function `ipToStr` of `main.cpp`. -/
def ipToStr (ip_be : Nat) : List Char :=
  to_string ((ip_be >>> 24) &&& 0xFF) ++ ['.'] ++
  to_string ((ip_be >>> 16) &&& 0xFF) ++ ['.'] ++
  to_string ((ip_be >>> 8) &&& 0xFF) ++ ['.'] ++
  to_string ((ip_be >>> 0) &&& 0xFF)

/-- The registers of the core, `enum class PerfRegs` of `main.cpp`. -/
inductive PerfRegs where
  | RUN_TX
  | NUM_SESSIONS
  | PKG_WORD_COUNT
  | SERVER_IP_ADDR
  | TOTAL_PKG_PERCONN
  deriving DecidableEq, Repr

/-- Modelled from the spec: `boost::program_options` is not among the sources.
What `main` gets from it for a command line: an option error (caught, the
program ends with `EXIT_FAILURE`), a request for help, or the values of
`--ip`, `--sessions`, `--words` and `--total` (each an `unsigned int`). -/
inductive ParsedOptions where
  | optionError
  | help
  | values (ip_str : List Char) (sessions words perconn : Nat)
  deriving DecidableEq, Repr

/-- How `main` ends: it returns one of the two exit codes, or an exception
leaves it (`std::invalid_argument` from a range check or from `parseIpBE`, or
an exception of the constructor of `coyote::cThread`). -/
inductive MainExit where
  | EXIT_SUCCESS
  | EXIT_FAILURE
  | invalid_argument
  | threadException
  deriving DecidableEq, Repr

/-- What a run of `main` does: how it ends and the `setCSR(value, register)`
calls it made, in order. -/
structure MainRun where
  exit : MainExit
  csrWrites : List (Nat × PerfRegs)
  deriving DecidableEq, Repr

/-- The function `main` of `main.cpp`.  Modelled from the spec:
`coyote::cThread` is not among the sources; its constructor either succeeds
(`threadOk`) or throws, and `setCSR` performs one register write. -/
def main (opts : ParsedOptions) (threadOk : Bool) : MainRun :=
  match opts with
  | .optionError => ⟨.EXIT_FAILURE, []⟩
  | .help => ⟨.EXIT_SUCCESS, []⟩
  | .values ip_str sessions words perconn =>
    if sessions > 65535 then ⟨.invalid_argument, []⟩
    else if words > 255 then ⟨.invalid_argument, []⟩
    else if perconn > 255 then ⟨.invalid_argument, []⟩
    else
      match parseIpBE ip_str with
      | .thrown _ => ⟨.invalid_argument, []⟩
      | .value ip_be =>
        if threadOk then
          ⟨.EXIT_SUCCESS,
            [(sessions, .NUM_SESSIONS), (words, .PKG_WORD_COUNT), (ip_be, .SERVER_IP_ADDR),
              (perconn, .TOTAL_PKG_PERCONN), (1, .RUN_TX)]⟩
        else ⟨.threadException, []⟩

/-- A non-empty string of decimal digits with a value in 0..255. -/
def unsignedOctet (ds : List Char) : Bool :=
  ds ≠ [] && ds.all isdigit && digitsValue ds ≤ 255

/-- An optional sign followed by a non-empty string of decimal digits with a
value in 0..255, where a minus sign stands only before the value 0. -/
def signedOctet : List Char → Bool
  | [] => false
  | c :: rest =>
    if c = '+' then unsignedOctet rest
    else if c = '-' then unsignedOctet rest && digitsValue rest = 0
    else unsignedOctet (c :: rest)

/-- The canonical decimal text "a.b.c.d" of four octets. -/
def dottedDecimal (a b c d : Nat) : List Char :=
  to_string a ++ ['.'] ++ to_string b ++ ['.'] ++ to_string c ++ ['.'] ++ to_string d

/-! ### The queue of the simulation `sim/sw/include/BlockingQueue.hpp` -/

/-- The class `BlockingQueue<T>`: the member `que`, a `std::deque<T>`, as the
list of its elements from front to back.  The mutex makes `push` and `pop`
atomic, so operations applied one after another are functions on this state;
the condition variable only wakes a waiting `pop`. -/
structure BlockingQueue (α : Type) where
  que : List α
  deriving DecidableEq, Repr

/-- A queue as constructed: the deque is empty. -/
def BlockingQueue.empty {α : Type} : BlockingQueue α :=
  ⟨[]⟩

/-- The method `push`: `que.push_front(value)`. -/
def BlockingQueue.push {α : Type} (q : BlockingQueue α) (value : α) : BlockingQueue α :=
  ⟨value :: q.que⟩

/-- The method `pop`: it waits until `que` is not empty, then returns
`que.back()` and removes it with `que.pop_back()`.  With operations applied one
after another nothing can end the wait on an empty queue: the call never
returns, which is `none`. -/
def BlockingQueue.pop {α : Type} (q : BlockingQueue α) : Option (α × BlockingQueue α) :=
  match q.que with
  | [] => none
  | x :: xs => some ((x :: xs).getLast (List.cons_ne_nil x xs), ⟨(x :: xs).dropLast⟩)

/-- One operation on a queue. -/
inductive QueueOp (α : Type) where
  | push (value : α)
  | pop
  deriving DecidableEq, Repr

/-- A sequence of operations applied one after another: the values returned by
the calls of `pop`, in order, and the queue afterwards; `none` when a `pop`
never returns. -/
def runOps {α : Type} : BlockingQueue α → List (QueueOp α) → Option (List α × BlockingQueue α)
  | q, [] => some ([], q)
  | q, .push value :: ops => runOps (q.push value) ops
  | q, .pop :: ops =>
    match q.pop with
    | none => none
    | some (rc, q2) =>
      match runOps q2 ops with
      | none => none
      | some (outs, q3) => some (rc :: outs, q3)

/-- The values given to the calls of `push` in a sequence of operations, in
order. -/
def pushedValues {α : Type} : List (QueueOp α) → List α
  | [] => []
  | .push value :: ops => value :: pushedValues ops
  | .pop :: ops => pushedValues ops

/-- The number of calls of `pop` in a sequence of operations. -/
def popCount {α : Type} : List (QueueOp α) → Nat
  | [] => 0
  | .push _ :: ops => popCount ops
  | .pop :: ops => popCount ops + 1

/-- The content of a queue in the order in which `pop` returns it: from the
back of the deque to its front. -/
def BlockingQueue.contents {α : Type} (q : BlockingQueue α) : List α :=
  q.que.reverse

/-- No tick of the run takes `numConnections` from 0 to 65535: neither of the
two decrements of the 16-bit counter is executed while it is 0. -/
def neverWraps (WIDTH : Nat) : ClientState → List TickInput → Bool
  | _, [] => true
  | s, t :: ts =>
    !(decide (s.numConnections = 0) && decide ((tick WIDTH s t).numConnections = 65535)) &&
      neverWraps WIDTH (tick WIDTH s t) ts

/-- The counters of a run with `numSessions = N` in which `numConnections` has
not wrapped, completions with `error = 1` included: in the opening phase
nothing is counted yet; in the traffic phase the packets counted plus the
active connections stay within `totalSendTarget` (plus the packet just
counted, in `CHECK_SIZE`), and with no active connection left the packets
counted are below it. -/
def BoundInv (N : Nat) (s : ClientState) : Prop :=
  (s.iperfFsmState = .INIT_CON →
    s.numConnections = 0 ∧ s.totalPkgCounter = 0 ∧ s.totalSendTarget = 0) ∧
  (s.iperfFsmState = .WAIT_CON →
    s.numConnections ≤ s.currentSessionID ∧ s.currentSessionID ≤ N ∧
      s.totalPkgCounter = 0 ∧ s.totalSendTarget = 0) ∧
  (s.iperfFsmState = .CHECK_REQ ∨ s.iperfFsmState = .START_PKG ∨
      s.iperfFsmState = .WRITE_PKG →
    s.totalPkgCounter + s.numConnections ≤ s.totalSendTarget ∧
      (s.numConnections = 0 → s.totalPkgCounter + 1 ≤ s.totalSendTarget) ∧
      s.totalSendTarget < 65536) ∧
  (s.iperfFsmState = .CHECK_SIZE →
    s.totalPkgCounter + s.numConnections ≤ s.totalSendTarget + 1 ∧
      s.totalPkgCounter ≤ s.totalSendTarget ∧ s.totalSendTarget < 65536)

/-- The session ids of a list of send completions. -/
def completionIds (rs : List appTxRsp) : List Nat :=
  rs.map (fun r => r.sessionID)

/-- The session ids of a list of send requests. -/
def requestIds (ms : List appTxMeta) : List Nat :=
  ms.map (fun m => m.sessionID)

/-- Every arrival of a run answers a request the driver wrote before: on a tick
on which open results arrive, the open results that have arrived so far are at
most the open requests written before the tick; and for every send completion
that arrives on a tick, the completions for its session that have arrived so
far are at most the send requests written for that session before the tick.
`o` is the number of open results and `done` are the session ids of the send
completions that arrived before the first tick of the list. -/
def answersRequests (WIDTH : Nat) : ClientState → Nat → List Nat → List TickInput → Bool
  | _, _, _, [] => true
  | s, o, done, t :: ts =>
    (t.openArrivals.isEmpty ||
      decide (o + t.openArrivals.length ≤ s.openConnection.length)) &&
    (t.txArrivals.all fun r =>
      decide ((done ++ completionIds t.txArrivals).count r.sessionID ≤
        (requestIds s.txMetaDataBuffer).count r.sessionID)) &&
    answersRequests WIDTH (tick WIDTH s t) (o + t.openArrivals.length)
      (done ++ completionIds t.txArrivals) ts

/-- The number of send completions with `error = 1` in a list. -/
def fatalCount (K : List appTxRsp) : Nat :=
  (K.filter (fun r => r.error = 1)).length

/-- The session ids, as the 16-bit register `currentSessionID` holds them, of
the send completions with `error = 0` in a list, in order. -/
def okIds (K : List appTxRsp) : List Nat :=
  (K.filter (fun r => r.error = 0)).map (fun r => r.sessionID % 65536)

/-- The bookkeeping of one run with `numSessions = N`, completions with
`error = 1` included, relative to the close requests `cl0` present when the run
began and the streams `D` of open results and `S` of send completions
delivered so far.  `K` are the completions read so far, `C` the open results
read so far and `cl` the close requests written in this run.  In the traffic
phase `numConnections` is, modulo `2^16`, the successes among `C` less the
close requests and the fatal completions read, and exactly so as long as no
fatal completion was read; every close request is the session id of a
completion with `error = 0` read before it, and between the read of such a
completion and `CHECK_SIZE` the register `currentSessionID` holds its id. -/
def CloseInv (N : Nat) (cl0 : List Nat) (D : List openStatus) (S : List appTxRsp)
    (s : ClientState) : Prop :=
  ∃ (K : List appTxRsp) (C : List openStatus) (cl : List Nat),
    S = K ++ s.txStatus ∧ D = C ++ s.openConStatusBuffer ∧ s.closeConnection = cl0 ++ cl ∧
    s.iperfFsmState ≠ .IDLE ∧ s.iperfFsmState ≠ .CONSTRUCT_HEADER ∧
    s.iperfFsmState ≠ .INIT_RUN ∧
    (s.iperfFsmState = .INIT_CON → s.numConnections = 0 ∧ C = [] ∧ cl = [] ∧ K = []) ∧
    (s.iperfFsmState = .WAIT_CON →
      s.currentSessionID = C.length ∧ C.length ≤ N ∧ s.numConnections = successCount C ∧
        cl = [] ∧ K = []) ∧
    (inTraffic s →
      C.length = N ∧ s.numConnections < 65536 ∧
        (s.numConnections + cl.length + fatalCount K) % 65536 = successCount C % 65536 ∧
        ((∀ r ∈ K, r.error ≠ 1) →
          1 ≤ s.numConnections ∧ s.numConnections + cl.length = successCount C)) ∧
    (s.iperfFsmState = .CHECK_REQ → cl.Sublist (okIds K)) ∧
    (s.iperfFsmState = .START_PKG ∨ s.iperfFsmState = .WRITE_PKG ∨
        s.iperfFsmState = .CHECK_SIZE →
      ∃ (K1 : List appTxRsp) (r : appTxRsp), K = K1 ++ [r] ∧ r.error = 0 ∧
        s.currentSessionID = r.sessionID % 65536 ∧ cl.Sublist (okIds K1))

/-- The state of affairs when such a run has returned to `IDLE`. -/
def CloseDone (N : Nat) (cl0 : List Nat) (D : List openStatus) (S : List appTxRsp)
    (s : ClientState) : Prop :=
  s.iperfFsmState = .IDLE ∧
  ∃ (K : List appTxRsp) (C : List openStatus) (cl : List Nat) (R : List openStatus),
    S = K ++ s.txStatus ∧ D = C ++ R ∧ C.length = N ∧ s.closeConnection = cl0 ++ cl ∧
    cl.Sublist (okIds K) ∧
    (cl.length + fatalCount K) % 65536 = successCount C % 65536 ∧
    ((∀ r ∈ K, r.error ≠ 1) → cl.length = successCount C)

/-- The driver is in `CHECK_REQ` between two packets, with no completion
waiting, and its registers hold the values given. -/
def AtCheckReq (s : ClientState) (cs n c T : Nat) : Prop :=
  s.iperfFsmState = .CHECK_REQ ∧ s.txStatus = [] ∧ s.wordCount = 0 ∧
  s.currentSessionID = cs ∧ s.numConnections = n ∧ s.totalPkgCounter = c ∧
  s.totalSendTarget = T

/-- The open results of the sessions 1 to 257, all successful. -/
def wrapResults : List openStatus :=
  ⟨1, true⟩ :: (List.range 256).map (fun i => ⟨i + 2, true⟩)

/-- The input on which `totalPkgCounter` wraps, every arrival answering a
request: `numSessions = 257`, one-word packets, `TotalPkgPerConn = 255`.  The
257 open results arrive on the tick after the last open request.  Then, each
completion followed by two quiet ticks: 65277 completions with `error = 0` for
session 1; one completion with `error = 0` for each of the sessions 2 to 257,
answering its seed request; the completion with `error = 1` for the
outstanding request of session 1; completions with `error = 0` for the
requests that sessions 2 and 3 had outstanding when they were closed; and last
the completion of the one session 4 had outstanding. -/
def wrapRun : List TickInput :=
  (quiet 1 257 1 9 255 :: List.replicate 257 (quiet 1 257 1 9 255) ++
    (withOpen (quiet 1 257 1 9 255) wrapResults ::
      List.replicate 256 (quiet 1 257 1 9 255)) ++
    [quiet 1 257 1 9 255]) ++
  ((List.replicate 65277
      [withTx (quiet 1 257 1 9 255) [⟨1, 0⟩], quiet 1 257 1 9 255,
        quiet 1 257 1 9 255]).flatten ++
    ((((List.range 256).map (fun i => i + 2)).map (fun x =>
        [withTx (quiet 1 257 1 9 255) [⟨x, 0⟩], quiet 1 257 1 9 255,
          quiet 1 257 1 9 255])).flatten ++
      ([withTx (quiet 1 257 1 9 255) [⟨1, 1⟩]] ++
        ([withTx (quiet 1 257 1 9 255) [⟨2, 0⟩], quiet 1 257 1 9 255, quiet 1 257 1 9 255] ++
          ([withTx (quiet 1 257 1 9 255) [⟨3, 0⟩], quiet 1 257 1 9 255,
              quiet 1 257 1 9 255] ++
            [withTx (quiet 1 257 1 9 255) [⟨4, 0⟩]])))))

/-! ## Lemmas on single ticks and on sequences of ticks -/

theorem run_append (W : Nat) (ts us : List TickInput) :
    ∀ s : ClientState, run W s (ts ++ us) = run W (run W s ts) us := by
  induction ts with
  | nil => intro s; rfl
  | cons t ts ih => intro s; simp [run, ih]

theorem openStream_nil : openStream [] = [] := rfl

theorem txStream_nil : txStream [] = [] := rfl

theorem openStream_cons (t : TickInput) (ts : List TickInput) :
    openStream (t :: ts) = t.openArrivals ++ openStream ts := by
  simp [openStream]

theorem txStream_cons (t : TickInput) (ts : List TickInput) :
    txStream (t :: ts) = t.txArrivals ++ txStream ts := by
  simp [txStream]

theorem openStream_append (ts us : List TickInput) :
    openStream (ts ++ us) = openStream ts ++ openStream us := by
  simp [openStream]

theorem txStream_append (ts us : List TickInput) :
    txStream (ts ++ us) = txStream ts ++ txStream us := by
  simp [txStream]

/-- The tick that starts a run: in `IDLE` with `runTx` set. -/
theorem tick_idle_start (W : Nat) (s : ClientState) (t : TickInput)
    (h : s.iperfFsmState = .IDLE) (hr : t.runTx ≠ 0) :
    tick W s t =
      { s with
        iperfFsmState := .INIT_CON
        currentSessionID := 0
        numConnections := 0
        totalPkgCounter := 0
        totalSendTarget := 0
        openConStatusBuffer := s.openConStatusBuffer ++ t.openArrivals
        txStatus := s.txStatus ++ t.txArrivals } := by
  simp [tick, inst_client, deliver, h, hr]

/-- A tick in `INIT_CON` that does not yet reach `numSessions`. -/
theorem tick_init_con_stay (W : Nat) (s : ClientState) (t : TickInput)
    (h : s.iperfFsmState = .INIT_CON)
    (hne : (s.currentSessionID + 1) % 65536 ≠ t.numSessions) :
    tick W s t =
      { s with
        currentSessionID := (s.currentSessionID + 1) % 65536
        openConnection := s.openConnection ++ [⟨t.serverIpAddress, 5001⟩]
        openConStatusBuffer := s.openConStatusBuffer ++ t.openArrivals
        txStatus := s.txStatus ++ t.txArrivals } := by
  simp [tick, inst_client, deliver, h, hne]

/-- The tick in `INIT_CON` that reaches `numSessions`. -/
theorem tick_init_con_done (W : Nat) (s : ClientState) (t : TickInput)
    (h : s.iperfFsmState = .INIT_CON)
    (heq : (s.currentSessionID + 1) % 65536 = t.numSessions) :
    tick W s t =
      { s with
        iperfFsmState := .WAIT_CON
        currentSessionID := 0
        openConnection := s.openConnection ++ [⟨t.serverIpAddress, 5001⟩]
        openConStatusBuffer := s.openConStatusBuffer ++ t.openArrivals
        txStatus := s.txStatus ++ t.txArrivals } := by
  simp [tick, inst_client, deliver, h, heq]

/-- While the incremented counter differs from `numSessions`, the driver stays in
`INIT_CON` and writes one open request per tick. -/
theorem run_init_con_stay (W N : Nat) :
    ∀ (ts : List TickInput) (s : ClientState),
      s.iperfFsmState = .INIT_CON → s.currentSessionID < 65536 →
      (∀ t ∈ ts, t.numSessions = N) →
      (∀ j, j < ts.length → (s.currentSessionID + j + 1) % 65536 ≠ N) →
      run W s ts =
        { s with
          currentSessionID := (s.currentSessionID + ts.length) % 65536
          openConnection :=
            s.openConnection ++ ts.map (fun t => (⟨t.serverIpAddress, 5001⟩ : ipTuple))
          openConStatusBuffer := s.openConStatusBuffer ++ openStream ts
          txStatus := s.txStatus ++ txStream ts } := by
  intro ts
  induction ts with
  | nil =>
    intro s _ hc _ _
    simp [run, openStream_nil, txStream_nil, Nat.mod_eq_of_lt hc]
  | cons t ts ih =>
    intro s hs hc hN hj
    have htN : t.numSessions = N := hN t (List.mem_cons_self _ _)
    have h0 : (s.currentSessionID + 1) % 65536 ≠ t.numSessions := by
      have := hj 0 (by simp)
      simpa [htN] using this
    rw [run, tick_init_con_stay W s t hs h0, ih]
    · simp only [openStream_cons, txStream_cons, List.map_cons, List.length_cons,
        List.append_assoc, List.singleton_append]
      congr 1
      omega
    · exact hs
    · exact Nat.mod_lt _ (by norm_num)
    · intro u hu; exact hN u (List.mem_cons_of_mem _ hu)
    · intro j hjlt
      have := hj (j + 1) (by simp; omega)
      simp only at this ⊢
      intro hcontra
      apply this
      rw [← hcontra]
      omega

/-- The whole opening phase: from `IDLE` with `runTx` set, the driver spends
`M` ticks in `INIT_CON`, where `M = numSessions` for `numSessions` in 1..65535
and `M = 65536` for `numSessions = 0`, writes one open request on each of them,
and is in `WAIT_CON` with all counters cleared right after the last one. -/
theorem run_opening_phase (W N M : Nat) (hN : N < 65536)
    (hM : M = if N = 0 then 65536 else N)
    (s0 : ClientState) (t0 : TickInput) (ts : List TickInput)
    (h0 : s0.iperfFsmState = .IDLE) (hr : t0.runTx ≠ 0)
    (hall : ∀ t ∈ ts, t.numSessions = N) (hlen : ts.length = M) :
    (∀ j, j < M → (run W s0 (t0 :: ts.take j)).iperfFsmState = .INIT_CON) ∧
    run W s0 (t0 :: ts) =
      { s0 with
        iperfFsmState := .WAIT_CON
        currentSessionID := 0
        numConnections := 0
        totalPkgCounter := 0
        totalSendTarget := 0
        openConnection :=
          s0.openConnection ++ ts.map (fun t => (⟨t.serverIpAddress, 5001⟩ : ipTuple))
        openConStatusBuffer := s0.openConStatusBuffer ++ openStream (t0 :: ts)
        txStatus := s0.txStatus ++ txStream (t0 :: ts) } := by
  have hMpos : 0 < M := by subst hM; split <;> omega
  have hMle : M ≤ 65536 := by subst hM; split <;> omega
  have hstay : ∀ j, j < M → ∀ i, i < j → (0 + i + 1) % 65536 ≠ N := by
    intro j hj i hi
    subst hM
    split at hj <;> omega
  have hs1 : (tick W s0 t0).iperfFsmState = .INIT_CON := by
    rw [tick_idle_start W s0 t0 h0 hr]
  have hc1 : (tick W s0 t0).currentSessionID = 0 := by
    rw [tick_idle_start W s0 t0 h0 hr]
  have hpre : ∀ j, j < M → run W (tick W s0 t0) (ts.take j) =
      { tick W s0 t0 with
        currentSessionID := j % 65536
        openConnection := (tick W s0 t0).openConnection ++
          (ts.take j).map (fun t => (⟨t.serverIpAddress, 5001⟩ : ipTuple))
        openConStatusBuffer := (tick W s0 t0).openConStatusBuffer ++ openStream (ts.take j)
        txStatus := (tick W s0 t0).txStatus ++ txStream (ts.take j) } := by
    intro j hj
    have hl : (ts.take j).length = j := by
      rw [List.length_take]; omega
    have := run_init_con_stay W N (ts.take j) (tick W s0 t0) hs1 (by rw [hc1]; norm_num)
      (fun u hu => hall u (List.mem_of_mem_take hu))
      (by rw [hc1, hl]; exact hstay j hj)
    rw [this, hc1, hl, Nat.zero_add]
  refine ⟨?_, ?_⟩
  · intro j hj
    rw [run, hpre j hj]
    exact hs1
  · have hne : ts ≠ [] := by
      intro h; rw [h] at hlen; simp at hlen; omega
    have hsplit : ts = ts.take (M - 1) ++ [ts.getLast hne] := by
      have h1 : ts.take (M - 1) = ts.dropLast := by
        rw [List.dropLast_eq_take, hlen]
      rw [h1, List.dropLast_append_getLast]
    have hlast : (ts.getLast hne).numSessions = N := hall _ (List.getLast_mem hne)
    have hdone : ((M - 1) % 65536 + 1) % 65536 = (ts.getLast hne).numSessions := by
      rw [hlast]; subst hM; split <;> omega
    have key := tick_init_con_done W (run W (tick W s0 t0) (ts.take (M - 1))) (ts.getLast hne)
      (by rw [hpre _ (by omega)]; exact hs1) (by rw [hpre _ (by omega)]; exact hdone)
    rw [run]
    conv_lhs => rw [hsplit]
    rw [run_append, run, run, key, hpre (M - 1) (by omega)]
    rw [tick_idle_start W s0 t0 h0 hr]
    simp only [openStream_cons, txStream_cons, List.append_assoc]
    conv_rhs => rw [hsplit]
    simp only [openStream_append, txStream_append, List.map_append, List.map_cons, List.map_nil,
      openStream_cons, txStream_cons, openStream_nil, txStream_nil, List.append_nil]

/-- The send request `START_PKG` adds while the quota test
`totalPkgCounter < totalSendTarget - numConnections` succeeds. -/
theorem tick_start_pkg (W : Nat) (s : ClientState) (t : TickInput)
    (h : s.iperfFsmState = .START_PKG) :
    tick W s t =
      if 1 = t.pkgWordCount then
        { s with
          iperfFsmState := .CHECK_SIZE
          wordCount := 0
          totalPkgCounter := (s.totalPkgCounter + 1) % 65536
          txMetaDataBuffer :=
            if (s.totalPkgCounter : Int) < (s.totalSendTarget : Int) - (s.numConnections : Int)
            then s.txMetaDataBuffer ++ [⟨s.currentSessionID, t.pkgWordCount * (W / 8)⟩]
            else s.txMetaDataBuffer
          txDataBuffer := s.txDataBuffer ++ [payloadWord W true]
          openConStatusBuffer := s.openConStatusBuffer ++ t.openArrivals
          txStatus := s.txStatus ++ t.txArrivals }
      else
        { s with
          iperfFsmState := .WRITE_PKG
          wordCount := 1
          txMetaDataBuffer :=
            if (s.totalPkgCounter : Int) < (s.totalSendTarget : Int) - (s.numConnections : Int)
            then s.txMetaDataBuffer ++ [⟨s.currentSessionID, t.pkgWordCount * (W / 8)⟩]
            else s.txMetaDataBuffer
          txDataBuffer := s.txDataBuffer ++ [payloadWord W false]
          openConStatusBuffer := s.openConStatusBuffer ++ t.openArrivals
          txStatus := s.txStatus ++ t.txArrivals } := by
  simp only [tick, inst_client, deliver, h]

/-- A tick in `WRITE_PKG` that does not yet reach `pkgWordCount`. -/
theorem tick_write_pkg_stay (W : Nat) (s : ClientState) (t : TickInput)
    (h : s.iperfFsmState = .WRITE_PKG)
    (hne : (s.wordCount + 1) % 256 ≠ t.pkgWordCount) :
    tick W s t =
      { s with
        wordCount := (s.wordCount + 1) % 256
        txDataBuffer := s.txDataBuffer ++ [payloadWord W false]
        openConStatusBuffer := s.openConStatusBuffer ++ t.openArrivals
        txStatus := s.txStatus ++ t.txArrivals } := by
  simp [tick, inst_client, deliver, h, hne]

/-- The tick in `WRITE_PKG` that reaches `pkgWordCount`. -/
theorem tick_write_pkg_done (W : Nat) (s : ClientState) (t : TickInput)
    (h : s.iperfFsmState = .WRITE_PKG)
    (heq : (s.wordCount + 1) % 256 = t.pkgWordCount) :
    tick W s t =
      { s with
        iperfFsmState := .CHECK_SIZE
        wordCount := 0
        totalPkgCounter := (s.totalPkgCounter + 1) % 65536
        txDataBuffer := s.txDataBuffer ++ [payloadWord W true]
        openConStatusBuffer := s.openConStatusBuffer ++ t.openArrivals
        txStatus := s.txStatus ++ t.txArrivals } := by
  simp [tick, inst_client, deliver, h, heq]

/-- While the incremented word counter differs from `pkgWordCount`, the driver
stays in `WRITE_PKG` and writes one non-final data word per tick. -/
theorem run_write_pkg_stay (W w : Nat) :
    ∀ (ts : List TickInput) (s : ClientState),
      s.iperfFsmState = .WRITE_PKG → s.wordCount < 256 →
      (∀ t ∈ ts, t.pkgWordCount = w) →
      (∀ j, j < ts.length → (s.wordCount + j + 1) % 256 ≠ w) →
      run W s ts =
        { s with
          wordCount := (s.wordCount + ts.length) % 256
          txDataBuffer := s.txDataBuffer ++ List.replicate ts.length (payloadWord W false)
          openConStatusBuffer := s.openConStatusBuffer ++ openStream ts
          txStatus := s.txStatus ++ txStream ts } := by
  intro ts
  induction ts with
  | nil =>
    intro s _ hc _ _
    simp [run, openStream_nil, txStream_nil, Nat.mod_eq_of_lt hc]
  | cons t ts ih =>
    intro s hs hc hw hj
    have htw : t.pkgWordCount = w := hw t (List.mem_cons_self _ _)
    have h0 : (s.wordCount + 1) % 256 ≠ t.pkgWordCount := by
      have := hj 0 (by simp)
      simpa [htw] using this
    rw [run, tick_write_pkg_stay W s t hs h0, ih]
    · simp only [openStream_cons, txStream_cons, List.length_cons, List.replicate_succ,
        List.append_assoc, List.singleton_append]
      congr 1
      omega
    · exact hs
    · exact Nat.mod_lt _ (by norm_num)
    · intro u hu; exact hw u (List.mem_cons_of_mem _ hu)
    · intro j hjlt
      have := hj (j + 1) (by simp; omega)
      simp only at this ⊢
      intro hcontra
      apply this
      rw [← hcontra]
      omega

/-- One whole packet: from `START_PKG` the driver needs `L` ticks to reach
`CHECK_SIZE`, where `L = pkgWordCount` for `pkgWordCount` in 1..255 and
`L = 256` for `pkgWordCount = 0`; it writes one data word on each of them, the
final one with `last` set, and counts the packet. -/
theorem run_packet (W w L : Nat) (hw : w < 256) (hL : L = if w = 0 then 256 else w)
    (s : ClientState) (ts : List TickInput)
    (hs : s.iperfFsmState = .START_PKG)
    (hall : ∀ t ∈ ts, t.pkgWordCount = w) (hlen : ts.length = L) :
    (∀ j, 0 < j → j < L → (run W s (ts.take j)).iperfFsmState = .WRITE_PKG) ∧
    run W s ts =
      { s with
        iperfFsmState := .CHECK_SIZE
        wordCount := 0
        totalPkgCounter := (s.totalPkgCounter + 1) % 65536
        txMetaDataBuffer :=
          if (s.totalPkgCounter : Int) < (s.totalSendTarget : Int) - (s.numConnections : Int)
          then s.txMetaDataBuffer ++ [⟨s.currentSessionID, w * (W / 8)⟩]
          else s.txMetaDataBuffer
        txDataBuffer :=
          s.txDataBuffer ++ List.replicate (L - 1) (payloadWord W false) ++ [payloadWord W true]
        openConStatusBuffer := s.openConStatusBuffer ++ openStream ts
        txStatus := s.txStatus ++ txStream ts } := by
  have hLpos : 0 < L := by subst hL; split <;> omega
  obtain ⟨t1, rest, rfl⟩ : ∃ t1 rest, ts = t1 :: rest := by
    cases ts with
    | nil => simp at hlen; omega
    | cons a b => exact ⟨a, b, rfl⟩
  have ht1 : t1.pkgWordCount = w := hall t1 (List.mem_cons_self _ _)
  have hrest : ∀ t ∈ rest, t.pkgWordCount = w := fun u hu => hall u (List.mem_cons_of_mem _ hu)
  have hrlen : rest.length = L - 1 := by simp at hlen; omega
  by_cases h1 : w = 1
  · -- a one-word packet
    have hL1 : L = 1 := by subst hL; subst h1; simp
    have hnil : rest = [] := by
      apply List.eq_nil_of_length_eq_zero; omega
    subst hnil
    refine ⟨fun j h0 hj => by omega, ?_⟩
    rw [run, run, tick_start_pkg W s t1 hs, if_pos (by omega)]
    simp [hL1, ht1, openStream_cons, txStream_cons, openStream_nil, txStream_nil]
  · have hne1 : ¬ (1 = t1.pkgWordCount) := by omega
    have hts1 : tick W s t1 =
        { s with
          iperfFsmState := .WRITE_PKG
          wordCount := 1
          txMetaDataBuffer :=
            if (s.totalPkgCounter : Int) < (s.totalSendTarget : Int) - (s.numConnections : Int)
            then s.txMetaDataBuffer ++ [⟨s.currentSessionID, t1.pkgWordCount * (W / 8)⟩]
            else s.txMetaDataBuffer
          txDataBuffer := s.txDataBuffer ++ [payloadWord W false]
          openConStatusBuffer := s.openConStatusBuffer ++ t1.openArrivals
          txStatus := s.txStatus ++ t1.txArrivals } := by
      rw [tick_start_pkg W s t1 hs, if_neg hne1]
    have hst1 : (tick W s t1).iperfFsmState = .WRITE_PKG := by rw [hts1]
    have hwc1 : (tick W s t1).wordCount = 1 := by rw [hts1]
    have hL2 : 2 ≤ L := by subst hL; split <;> omega
    have hL256 : L ≤ 256 := by subst hL; split <;> omega
    have hstay : ∀ j, j < L - 1 → ∀ i, i < j → (1 + i + 1) % 256 ≠ w := by
      intro j hj i hi
      subst hL
      split at hj <;> omega
    have hpre : ∀ j, j < L - 1 → run W (tick W s t1) (rest.take j) =
        { tick W s t1 with
          wordCount := (1 + j) % 256
          txDataBuffer := (tick W s t1).txDataBuffer ++ List.replicate j (payloadWord W false)
          openConStatusBuffer := (tick W s t1).openConStatusBuffer ++ openStream (rest.take j)
          txStatus := (tick W s t1).txStatus ++ txStream (rest.take j) } := by
      intro j hj
      have hl : (rest.take j).length = j := by
        rw [List.length_take]; omega
      have := run_write_pkg_stay W w (rest.take j) (tick W s t1) hst1 (by rw [hwc1]; norm_num)
        (fun u hu => hrest u (List.mem_of_mem_take hu))
        (by rw [hwc1, hl]; exact hstay j hj)
      rw [this, hwc1, hl]
    refine ⟨?_, ?_⟩
    · intro j h0 hj
      obtain ⟨k, rfl⟩ : ∃ k, j = k + 1 := ⟨j - 1, by omega⟩
      rw [List.take_succ_cons, run, hpre k (by omega)]
      exact hst1
    · have hne : rest ≠ [] := by
        intro h; rw [h] at hrlen; simp at hrlen; omega
      have hsplit : rest = rest.take (L - 2) ++ [rest.getLast hne] := by
        have h2 : rest.take (L - 2) = rest.dropLast := by
          rw [List.dropLast_eq_take, hrlen]; rfl
        rw [h2, List.dropLast_append_getLast]
      have hlast : (rest.getLast hne).pkgWordCount = w := hrest _ (List.getLast_mem hne)
      have hdone : ((1 + (L - 2)) % 256 + 1) % 256 = (rest.getLast hne).pkgWordCount := by
        rw [hlast]; subst hL; split <;> omega
      have key := tick_write_pkg_done W (run W (tick W s t1) (rest.take (L - 2)))
        (rest.getLast hne)
        (by rw [hpre _ (by omega)]; exact hst1) (by rw [hpre _ (by omega)]; exact hdone)
      rw [run]
      conv_lhs => rw [hsplit]
      rw [run_append, run, run, key, hpre (L - 2) (by omega), hts1]
      have hrep : List.replicate (L - 1) (payloadWord W false) =
          payloadWord W false :: List.replicate (L - 2) (payloadWord W false) := by
        rw [← List.replicate_succ]; congr 1; omega
      simp only [openStream_cons, txStream_cons, List.append_assoc, hrep, ht1,
        List.singleton_append, List.cons_append]
      conv_rhs => rw [hsplit]
      simp only [openStream_append, txStream_append, openStream_cons, txStream_cons,
        openStream_nil, txStream_nil, List.append_nil, List.nil_append]

/-- The tick that leaves `WAIT_CON`: all `numSessions` results are consumed. -/
theorem tick_wait_con_leave (W : Nat) (s : ClientState) (t : TickInput)
    (h : s.iperfFsmState = .WAIT_CON) (heq : s.currentSessionID = t.numSessions) :
    tick W s t =
      if 0 < s.numConnections then
        { s with
          iperfFsmState := .CHECK_REQ
          totalSendTarget := (s.numConnections * t.TotalPkgPerConn) % 65536
          openConStatusBuffer := s.openConStatusBuffer ++ t.openArrivals
          txStatus := s.txStatus ++ t.txArrivals }
      else
        { s with
          iperfFsmState := .IDLE
          openConStatusBuffer := s.openConStatusBuffer ++ t.openArrivals
          txStatus := s.txStatus ++ t.txArrivals } := by
  simp only [tick, inst_client, deliver, h, heq, if_true]

/-- A tick in `WAIT_CON` with results outstanding and none in the buffer. -/
theorem tick_wait_con_stall (W : Nat) (s : ClientState) (t : TickInput)
    (h : s.iperfFsmState = .WAIT_CON) (hne : s.currentSessionID ≠ t.numSessions)
    (hb : s.openConStatusBuffer ++ t.openArrivals = []) :
    tick W s t = { s with txStatus := s.txStatus ++ t.txArrivals } := by
  have h1 : s.openConStatusBuffer = [] := (List.append_eq_nil.mp hb).1
  simp only [tick, inst_client, deliver, h, hne, hb, if_false]
  cases s
  simp_all

/-- A tick in `WAIT_CON` that consumes the open result at the head of the buffer. -/
theorem tick_wait_con_read (W : Nat) (s : ClientState) (t : TickInput)
    (r : openStatus) (rest : List openStatus)
    (h : s.iperfFsmState = .WAIT_CON) (hne : s.currentSessionID ≠ t.numSessions)
    (hb : s.openConStatusBuffer ++ t.openArrivals = r :: rest) :
    tick W s t =
      if r.success then
        { s with
          currentSessionID := (s.currentSessionID + 1) % 65536
          numConnections := (s.numConnections + 1) % 65536
          txMetaDataBuffer := s.txMetaDataBuffer ++ [⟨r.sessionID, t.pkgWordCount * (W / 8)⟩]
          openConStatusBuffer := rest
          txStatus := s.txStatus ++ t.txArrivals }
      else
        { s with
          currentSessionID := (s.currentSessionID + 1) % 65536
          openConStatusBuffer := rest
          txStatus := s.txStatus ++ t.txArrivals } := by
  simp only [tick, inst_client, deliver, h, hne, hb, if_false]

theorem seedRequests_nil (W w : Nat) : seedRequests W w [] = [] := rfl

theorem seedRequests_append (W w : Nat) (a b : List openStatus) :
    seedRequests W w (a ++ b) = seedRequests W w a ++ seedRequests W w b := by
  simp [seedRequests]

theorem filter_success_length_le (C : List openStatus) :
    (C.filter (fun r => r.success)).length ≤ C.length :=
  List.length_filter_le _ _

/-- One tick that stays in `WAIT_CON` keeps the bookkeeping of the phase. -/
theorem WaitInv_tick (W N w : Nat) (p : Prop) (M0 : List appTxMeta) (D : List openStatus)
    (s : ClientState) (t : TickInput) (hN : N < 65536)
    (hinv : WaitInv W N w p M0 D s) (htN : t.numSessions = N)
    (htw : p → t.pkgWordCount = w)
    (hstay : (tick W s t).iperfFsmState = .WAIT_CON) :
    WaitInv W N w p M0 (D ++ t.openArrivals) (tick W s t) := by
  obtain ⟨hs, C, hD, hc, hCN, hn, hm⟩ := hinv
  have hne : s.currentSessionID ≠ t.numSessions := by
    intro heq
    rw [tick_wait_con_leave W s t hs heq] at hstay
    split at hstay <;> simp at hstay
  refine ⟨hstay, ?_⟩
  cases hb : s.openConStatusBuffer ++ t.openArrivals with
  | nil =>
    rw [tick_wait_con_stall W s t hs hne hb]
    have h1 : s.openConStatusBuffer = [] := (List.append_eq_nil.mp hb).1
    have h2 : t.openArrivals = [] := (List.append_eq_nil.mp hb).2
    exact ⟨C, by simp [hD, h1, h2], hc, hCN, hn, hm⟩
  | cons r rest =>
    have hlt : C.length < N := by
      rw [htN, hc] at hne
      omega
    have hcnt := filter_success_length_le C
    rw [tick_wait_con_read W s t r rest hs hne hb]
    refine ⟨C ++ [r], ?_⟩
    cases hr : r.success with
    | true =>
      simp only [if_true]
      refine ⟨by simp [hD, List.append_assoc, hb], ?_, by simp; omega, ?_, ?_⟩
      · simp only [hc, List.length_append, List.length_singleton]
        exact Nat.mod_eq_of_lt (by omega)
      · simp only [hn, List.filter_append, List.length_append, List.filter_cons, hr,
          List.filter_nil, if_true, List.length_singleton]
        exact Nat.mod_eq_of_lt (by omega)
      · intro hp
        rw [hm hp, htw hp, seedRequests_append]
        simp [seedRequests, hr]
    | false =>
      simp only [Bool.false_eq_true, if_false]
      refine ⟨by simp [hD, List.append_assoc, hb], ?_, by simp; omega, ?_, ?_⟩
      · simp only [hc, List.length_append, List.length_singleton]
        exact Nat.mod_eq_of_lt (by omega)
      · simp [hn, List.filter_append, hr]
      · intro hp
        rw [hm hp, seedRequests_append]
        simp [seedRequests, hr]

/-- The bookkeeping of `WAIT_CON` holds after any sequence of ticks during
which the driver stays in `WAIT_CON`, whatever the arrival times of the open
results. -/
theorem WaitInv_run (W N w : Nat) (p : Prop) (M0 : List appTxMeta) (hN : N < 65536) :
    ∀ (ts : List TickInput) (D : List openStatus) (s : ClientState),
      WaitInv W N w p M0 D s →
      (∀ t ∈ ts, t.numSessions = N) → (p → ∀ t ∈ ts, t.pkgWordCount = w) →
      (∀ j, j ≤ ts.length → (run W s (ts.take j)).iperfFsmState = .WAIT_CON) →
      WaitInv W N w p M0 (D ++ openStream ts) (run W s ts) := by
  intro ts
  induction ts with
  | nil =>
    intro D s hinv _ _ _
    simpa [run, openStream_nil] using hinv
  | cons t ts ih =>
    intro D s hinv hall hw hin
    have h1 : (tick W s t).iperfFsmState = .WAIT_CON := by
      have := hin 1 (by simp)
      simpa [run] using this
    have hstep := WaitInv_tick W N w p M0 D s t hN hinv (hall t (List.mem_cons_self _ _))
      (fun hp => hw hp t (List.mem_cons_self _ _)) h1
    have := ih (D ++ t.openArrivals) (tick W s t) hstep
      (fun u hu => hall u (List.mem_cons_of_mem _ hu))
      (fun hp u hu => hw hp u (List.mem_cons_of_mem _ hu))
      (fun j hj => by
        have := hin (j + 1) (by simp; omega)
        simpa [run] using this)
    simpa [run, openStream_cons, List.append_assoc] using this

/-- When the open results `rs` are already waiting at the head of the buffer,
`WAIT_CON` consumes one of them per tick. -/
theorem run_wait_con_consume (W N w : Nat) (hN : N < 65536) :
    ∀ (rs : List openStatus) (ts : List TickInput) (s : ClientState) (rest : List openStatus),
      s.iperfFsmState = .WAIT_CON → s.openConStatusBuffer = rs ++ rest →
      ts.length = rs.length → s.currentSessionID + rs.length ≤ N →
      s.numConnections ≤ s.currentSessionID →
      (∀ t ∈ ts, t.numSessions = N) → (∀ t ∈ ts, t.pkgWordCount = w) →
      run W s ts =
        { s with
          currentSessionID := s.currentSessionID + rs.length
          numConnections := s.numConnections + (rs.filter (fun r => r.success)).length
          txMetaDataBuffer := s.txMetaDataBuffer ++ seedRequests W w rs
          openConStatusBuffer := rest ++ openStream ts
          txStatus := s.txStatus ++ txStream ts } := by
  intro rs
  induction rs with
  | nil =>
    intro ts s rest _ hb hlen _ _ _ _
    have : ts = [] := List.eq_nil_of_length_eq_zero (by simpa using hlen)
    subst this
    cases s
    simp_all [run, openStream_nil, txStream_nil, seedRequests_nil]
  | cons r rs ih =>
    intro ts s rest hs hb hlen hle hn hall hw
    obtain ⟨t, ts', rfl⟩ : ∃ t ts', ts = t :: ts' := by
      cases ts with
      | nil => simp at hlen
      | cons a b => exact ⟨a, b, rfl⟩
    have htN : t.numSessions = N := hall t (List.mem_cons_self _ _)
    have htw : t.pkgWordCount = w := hw t (List.mem_cons_self _ _)
    simp only [List.length_cons] at hlen hle
    have hne : s.currentSessionID ≠ t.numSessions := by rw [htN]; omega
    have hbuf : s.openConStatusBuffer ++ t.openArrivals = r :: (rs ++ (rest ++ t.openArrivals)) := by
      rw [hb]; simp
    have hcnt := filter_success_length_le rs
    have hstep := tick_wait_con_read W s t r _ hs hne hbuf
    have hm1 : (s.currentSessionID + 1) % 65536 = s.currentSessionID + 1 :=
      Nat.mod_eq_of_lt (by omega)
    have hm2 : (s.numConnections + 1) % 65536 = s.numConnections + 1 :=
      Nat.mod_eq_of_lt (by omega)
    rw [run, hstep]
    cases hr : r.success with
    | true =>
      simp only [if_true, hm1, hm2]
      refine Eq.trans (ih ts' _ (rest ++ t.openArrivals) hs rfl (by omega) (by simp only; omega)
        (by simp only; omega) (fun u hu => hall u (List.mem_cons_of_mem _ hu))
        (fun u hu => hw u (List.mem_cons_of_mem _ hu))) ?_
      simp only [List.length_cons, List.filter_cons, hr, if_true, openStream_cons, txStream_cons,
        List.append_assoc, htw, seedRequests, List.map_cons, List.singleton_append,
        ClientState.mk.injEq, true_and, and_true]
      omega
    | false =>
      simp only [Bool.false_eq_true, if_false, hm1]
      refine Eq.trans (ih ts' _ (rest ++ t.openArrivals) hs rfl (by omega) (by simp only; omega)
        (by simp only; omega) (fun u hu => hall u (List.mem_cons_of_mem _ hu))
        (fun u hu => hw u (List.mem_cons_of_mem _ hu))) ?_
      simp only [List.length_cons, List.filter_cons, hr, Bool.false_eq_true, if_false,
        openStream_cons, txStream_cons, List.append_assoc, seedRequests,
        ClientState.mk.injEq, true_and, and_true]
      omega

/-- From `IDLE` through the opening phase and any stay in `WAIT_CON`: the
bookkeeping of `WAIT_CON` holds for the stream of all open results delivered. -/
theorem WaitInv_from_idle (W N w : Nat) (p : Prop) (hN : N < 65536)
    (s0 : ClientState) (t0 : TickInput) (ts1 ts2 : List TickInput)
    (h0 : s0.iperfFsmState = .IDLE) (hr : t0.runTx ≠ 0)
    (hlen : ts1.length = if N = 0 then 65536 else N)
    (hall : ∀ t ∈ ts1 ++ ts2, t.numSessions = N)
    (hw : p → ∀ t ∈ ts2, t.pkgWordCount = w)
    (hin : ∀ j, j ≤ ts2.length →
      (run W s0 (t0 :: ts1 ++ ts2.take j)).iperfFsmState = .WAIT_CON) :
    WaitInv W N w p s0.txMetaDataBuffer
      (s0.openConStatusBuffer ++ openStream (t0 :: ts1 ++ ts2))
      (run W s0 (t0 :: ts1 ++ ts2)) := by
  have hopen := (run_opening_phase W N _ hN rfl s0 t0 ts1 h0 hr
    (fun t ht => hall t (List.mem_append_left _ ht)) hlen).2
  have hsplit : ∀ us, run W s0 (t0 :: ts1 ++ us) = run W (run W s0 (t0 :: ts1)) us := by
    intro us
    rw [← run_append]
  have hbase : WaitInv W N w p s0.txMetaDataBuffer
      (s0.openConStatusBuffer ++ openStream (t0 :: ts1)) (run W s0 (t0 :: ts1)) := by
    rw [hopen]
    exact ⟨rfl, [], by simp, rfl, by simp, rfl, fun _ => by simp [seedRequests_nil]⟩
  have := WaitInv_run W N w p s0.txMetaDataBuffer hN ts2 _ _ hbase
    (fun t ht => hall t (List.mem_append_right _ ht)) hw
    (fun j hj => by rw [← hsplit]; exact hin j hj)
  rw [hsplit]
  have hstream : openStream (t0 :: ts1 ++ ts2) = openStream (t0 :: ts1) ++ openStream ts2 := by
    rw [← openStream_append]
  rw [hstream, ← List.append_assoc]
  exact this

/-- What `WaitInv` says once `currentSessionID` has reached `numSessions`: the
results consumed are the first `N` delivered. -/
theorem WaitInv_done (W N w : Nat) (p : Prop) (M0 : List appTxMeta) (D : List openStatus)
    (s : ClientState) (hinv : WaitInv W N w p M0 D s) :
    s.numConnections =
      ((D.take s.currentSessionID).filter (fun r => r.success)).length ∧
    D = D.take s.currentSessionID ++ s.openConStatusBuffer ∧
    s.currentSessionID ≤ N ∧
    (p → s.txMetaDataBuffer = M0 ++ seedRequests W w (D.take s.currentSessionID)) := by
  obtain ⟨_, C, hD, hc, hCN, hn, hm⟩ := hinv
  have htake : D.take s.currentSessionID = C := by
    rw [hD, hc, List.take_left']
    rfl
  rw [htake]
  exact ⟨hn, hD, by omega, hm⟩

/-- A run whose `N` open results `R` are waiting in the buffer from the start:
after the starting tick, `N` opening ticks, `N` ticks of `WAIT_CON` and the tick
that leaves it, the driver is in `CHECK_REQ` in the state given here. -/
theorem run_to_check_req (W N w P : Nat) (hN1 : 1 ≤ N) (hN : N ≤ 65535)
    (s0 : ClientState) (R rest : List openStatus)
    (t0 : TickInput) (ts1 ts2 : List TickInput) (t3 : TickInput)
    (h0 : s0.iperfFsmState = .IDLE) (hr : t0.runTx ≠ 0)
    (hb : s0.openConStatusBuffer = R ++ rest) (hR : R.length = N)
    (hlen1 : ts1.length = N) (hlen2 : ts2.length = N)
    (hall1 : ∀ t ∈ ts1, t.numSessions = N)
    (hall2 : ∀ t ∈ ts2, t.numSessions = N) (hw2 : ∀ t ∈ ts2, t.pkgWordCount = w)
    (h3N : t3.numSessions = N) (h3P : t3.TotalPkgPerConn = P)
    (hk : 1 ≤ (R.filter (fun r => r.success)).length) :
    run W s0 (t0 :: ts1 ++ ts2 ++ [t3]) =
      { s0 with
        iperfFsmState := .CHECK_REQ
        currentSessionID := N
        numConnections := (R.filter (fun r => r.success)).length
        totalPkgCounter := 0
        totalSendTarget := ((R.filter (fun r => r.success)).length * P) % 65536
        openConnection :=
          s0.openConnection ++ ts1.map (fun t => (⟨t.serverIpAddress, 5001⟩ : ipTuple))
        openConStatusBuffer := rest ++ openStream (t0 :: ts1 ++ ts2 ++ [t3])
        txMetaDataBuffer := s0.txMetaDataBuffer ++ seedRequests W w R
        txStatus := s0.txStatus ++ txStream (t0 :: ts1 ++ ts2 ++ [t3]) } := by
  have hopen := (run_opening_phase W N N (by omega) (by rw [if_neg (by omega)]) s0 t0 ts1 h0 hr
    hall1 hlen1).2
  have hcons := run_wait_con_consume W N w (by omega) R ts2 (run W s0 (t0 :: ts1))
    (rest ++ openStream (t0 :: ts1))
    (by rw [hopen]) (by rw [hopen]; simp only [hb, List.append_assoc])
    (by rw [hlen2, hR]) (by rw [hopen]; simp only; omega) (by rw [hopen])
    hall2 hw2
  rw [run_append, run_append, hcons, hopen]
  simp only [run]
  rw [tick_wait_con_leave W _ t3 rfl (by simp only [h3N, hR]; omega), if_pos (by simp only; omega)]
  simp only [Nat.zero_add, hR, h3P, openStream_append, txStream_append, openStream_cons,
    txStream_cons, openStream_nil, txStream_nil, List.append_assoc, List.append_nil]

/-- A tick that changes nothing can be repeated any number of times. -/
theorem run_replicate_fixed (W : Nat) (s : ClientState) (q : TickInput)
    (hfix : tick W s q = s) : ∀ d : Nat, run W s (List.replicate d q) = s := by
  intro d
  induction d with
  | zero => rfl
  | succ d ih => rw [List.replicate_succ, run, hfix, ih]

/-- Ticks that change nothing and leave the driver outside `IDLE` are skipped
by `runUntilIdle`. -/
theorem runUntilIdle_replicate_fixed (W : Nat) (s : ClientState) (q : TickInput)
    (ts : List TickInput) (hfix : tick W s q = s) (hne : s.iperfFsmState ≠ .IDLE) :
    ∀ d : Nat, runUntilIdle W s (List.replicate d q ++ ts) = runUntilIdle W s ts := by
  intro d
  induction d with
  | zero => rfl
  | succ d ih =>
    rw [List.replicate_succ, List.cons_append, runUntilIdle, hfix, if_neg hne, ih]

/-- In `CHECK_REQ` with no send completion waiting and none arriving, a tick
changes nothing. -/
theorem tick_check_req_stall (W : Nat) (s : ClientState) (t : TickInput)
    (h : s.iperfFsmState = .CHECK_REQ) (hb : s.txStatus = [])
    (ho : t.openArrivals = []) (hx : t.txArrivals = []) :
    tick W s t = s := by
  cases s
  simp_all [tick, inst_client, deliver]

/-- A tick in `IDLE` without `runTx`. -/
theorem tick_idle_stay (W : Nat) (s : ClientState) (t : TickInput)
    (h : s.iperfFsmState = .IDLE) (hr : t.runTx = 0) :
    tick W s t = deliver s t.openArrivals t.txArrivals := by
  simp [tick, inst_client, deliver, h, hr]

/-- A tick in `CHECK_REQ` with no send completion to read. -/
theorem tick_check_req_empty (W : Nat) (s : ClientState) (t : TickInput)
    (h : s.iperfFsmState = .CHECK_REQ) (hb : s.txStatus ++ t.txArrivals = []) :
    tick W s t = deliver s t.openArrivals t.txArrivals := by
  simp only [tick, inst_client, deliver, h, hb]

/-- A tick in `CHECK_REQ` that reads the send completion at the head of
`txStatus`. -/
theorem tick_check_req_read (W : Nat) (s : ClientState) (t : TickInput)
    (r : appTxRsp) (rest : List appTxRsp)
    (h : s.iperfFsmState = .CHECK_REQ) (hb : s.txStatus ++ t.txArrivals = r :: rest) :
    tick W s t =
      if r.error = 0 then
        { s with
          iperfFsmState := .START_PKG
          currentSessionID := r.sessionID % 65536
          openConStatusBuffer := s.openConStatusBuffer ++ t.openArrivals
          txStatus := rest }
      else if r.error = 1 then
        { s with
          numConnections := dec16 s.numConnections
          openConStatusBuffer := s.openConStatusBuffer ++ t.openArrivals
          txStatus := rest }
      else
        { s with
          txMetaDataBuffer := s.txMetaDataBuffer ++ [⟨r.sessionID, t.pkgWordCount * (W / 8)⟩]
          openConStatusBuffer := s.openConStatusBuffer ++ t.openArrivals
          txStatus := rest } := by
  simp only [tick, inst_client, deliver, h, hb]

/-- A tick in `WRITE_PKG`. -/
theorem tick_write_pkg (W : Nat) (s : ClientState) (t : TickInput)
    (h : s.iperfFsmState = .WRITE_PKG) :
    tick W s t =
      if (s.wordCount + 1) % 256 = t.pkgWordCount then
        { s with
          iperfFsmState := .CHECK_SIZE
          wordCount := 0
          totalPkgCounter := (s.totalPkgCounter + 1) % 65536
          txDataBuffer := s.txDataBuffer ++ [payloadWord W true]
          openConStatusBuffer := s.openConStatusBuffer ++ t.openArrivals
          txStatus := s.txStatus ++ t.txArrivals }
      else
        { s with
          wordCount := (s.wordCount + 1) % 256
          txDataBuffer := s.txDataBuffer ++ [payloadWord W false]
          openConStatusBuffer := s.openConStatusBuffer ++ t.openArrivals
          txStatus := s.txStatus ++ t.txArrivals } := by
  simp only [tick, inst_client, deliver, h]

/-- A tick in `CHECK_SIZE`. -/
theorem tick_check_size (W : Nat) (s : ClientState) (t : TickInput)
    (h : s.iperfFsmState = .CHECK_SIZE) :
    tick W s t =
      if (s.totalPkgCounter : Int) ≥ (s.totalSendTarget : Int) - (s.numConnections : Int) then
        if dec16 s.numConnections = 0 then
          { s with
            iperfFsmState := .IDLE
            numConnections := dec16 s.numConnections
            closeConnection := s.closeConnection ++ [s.currentSessionID]
            openConStatusBuffer := s.openConStatusBuffer ++ t.openArrivals
            txStatus := s.txStatus ++ t.txArrivals }
        else
          { s with
            iperfFsmState := .CHECK_REQ
            numConnections := dec16 s.numConnections
            closeConnection := s.closeConnection ++ [s.currentSessionID]
            openConStatusBuffer := s.openConStatusBuffer ++ t.openArrivals
            txStatus := s.txStatus ++ t.txArrivals }
      else
        { s with
          iperfFsmState := .CHECK_REQ
          openConStatusBuffer := s.openConStatusBuffer ++ t.openArrivals
          txStatus := s.txStatus ++ t.txArrivals } := by
  simp only [tick, inst_client, deliver, h]

/-- The switch has no case for `CONSTRUCT_HEADER`. -/
theorem tick_construct_header (W : Nat) (s : ClientState) (t : TickInput)
    (h : s.iperfFsmState = .CONSTRUCT_HEADER) :
    tick W s t = deliver s t.openArrivals t.txArrivals := by
  simp only [tick, inst_client, deliver, h]

/-- The switch has no case for `INIT_RUN`. -/
theorem tick_init_run (W : Nat) (s : ClientState) (t : TickInput)
    (h : s.iperfFsmState = .INIT_RUN) :
    tick W s t = deliver s t.openArrivals t.txArrivals := by
  simp only [tick, inst_client, deliver, h]

theorem dec16_pos (n : Nat) (h : 1 ≤ n) : dec16 n = n - 1 := by
  unfold dec16
  rw [if_neg (by omega)]

theorem no_fatal_append (a b : List appTxRsp)
    (ha : ∀ r ∈ a, r.error ≠ 1) (hb : ∀ r ∈ b, r.error ≠ 1) :
    ∀ r ∈ a ++ b, r.error ≠ 1 := by
  intro r hr
  rcases List.mem_append.1 hr with h | h
  · exact ha r h
  · exact hb r h

/-- One tick keeps `QuotaInv` with slack `e <= 1`, when
`TotalPkgPerConn = P >= e + 1`, `numSessions = N` with `N * P <= 65535`, and no
completion with `error = 1` arrives. -/
theorem QuotaInv_tick (W N P e : Nat) (he : e ≤ 1) (hP : e + 1 ≤ P) (hNP : N * P ≤ 65535)
    (s : ClientState) (t : TickInput) (hinv : QuotaInv N e s)
    (htN : t.numSessions = N) (htP : t.TotalPkgPerConn = P)
    (htx : ∀ r ∈ t.txArrivals, r.error ≠ 1) :
    QuotaInv N e (tick W s t) := by
  obtain ⟨h_tx, h_init, h_wait, h_traffic, h_size⟩ := hinv
  have h_all := no_fatal_append _ _ h_tx htx
  have hN : N ≤ 65535 := by
    calc N = N * 1 := (Nat.mul_one N).symm
      _ ≤ N * P := Nat.mul_le_mul_left N (by omega)
      _ ≤ 65535 := hNP
  cases hst : s.iperfFsmState with
  | IDLE =>
    by_cases hr : t.runTx = 0
    · rw [tick_idle_stay W s t hst hr]
      simp only [QuotaInv, deliver]
      refine ⟨h_all, ?_, ?_, ?_, ?_⟩ <;> simp [hst]
    · rw [tick_idle_start W s t hst hr]
      simp only [QuotaInv]
      refine ⟨h_all, ?_, ?_, ?_, ?_⟩ <;> simp
  | INIT_CON =>
    obtain ⟨hn, hc, hT0⟩ := h_init hst
    by_cases hd : (s.currentSessionID + 1) % 65536 = t.numSessions
    · rw [tick_init_con_done W s t hst hd]
      simp only [QuotaInv]
      refine ⟨h_all, ?_, ?_, ?_, ?_⟩ <;> simp [hn, hc, hT0]
    · rw [tick_init_con_stay W s t hst hd]
      simp only [QuotaInv]
      refine ⟨h_all, ?_, ?_, ?_, ?_⟩ <;> simp [hn, hc, hT0, hst]
  | WAIT_CON =>
    obtain ⟨hn, hc, hp, hT0⟩ := h_wait hst
    by_cases hd : s.currentSessionID = t.numSessions
    · rw [tick_wait_con_leave W s t hst hd]
      have hle : s.numConnections * P ≤ N * P := Nat.mul_le_mul_right P (by omega)
      have hge : s.numConnections * (e + 1) ≤ s.numConnections * P :=
        Nat.mul_le_mul_left _ hP
      split
      · rename_i hpos
        have hmod : s.numConnections * t.TotalPkgPerConn % 65536 = s.numConnections * P := by
          rw [htP]; exact Nat.mod_eq_of_lt (by omega)
        have hslack : s.numConnections + e ≤ s.numConnections * P := by
          obtain rfl | rfl : e = 0 ∨ e = 1 := by omega
          · omega
          · omega
        simp only [QuotaInv, hmod, hp]
        refine ⟨h_all, by simp, by simp, fun _ => ⟨hpos, by omega, by omega⟩, by simp⟩
      · simp only [QuotaInv]
        refine ⟨h_all, ?_, ?_, ?_, ?_⟩ <;> simp
    · cases hb : s.openConStatusBuffer ++ t.openArrivals with
      | nil =>
        rw [tick_wait_con_stall W s t hst hd hb]
        simp only [QuotaInv, hst]
        refine ⟨h_all, by simp, fun _ => ⟨hn, hc, hp, hT0⟩, by simp, by simp⟩
      | cons r rest =>
        rw [tick_wait_con_read W s t r rest hst hd hb]
        have hlt : s.currentSessionID < N := by omega
        have hm1 : (s.currentSessionID + 1) % 65536 = s.currentSessionID + 1 :=
          Nat.mod_eq_of_lt (by omega)
        have hm2 : (s.numConnections + 1) % 65536 = s.numConnections + 1 :=
          Nat.mod_eq_of_lt (by omega)
        split
        · simp only [QuotaInv, hst, hm1, hm2]
          refine ⟨h_all, by simp, fun _ => ⟨by omega, by omega, hp, hT0⟩, by simp, by simp⟩
        · simp only [QuotaInv, hst, hm1]
          refine ⟨h_all, by simp, fun _ => ⟨by omega, by omega, hp, hT0⟩, by simp, by simp⟩
  | CONSTRUCT_HEADER =>
    rw [tick_construct_header W s t hst]
    simp only [QuotaInv, deliver]
    refine ⟨h_all, ?_, ?_, ?_, ?_⟩ <;> simp [hst]
  | INIT_RUN =>
    rw [tick_init_run W s t hst]
    simp only [QuotaInv, deliver]
    refine ⟨h_all, ?_, ?_, ?_, ?_⟩ <;> simp [hst]
  | START_PKG =>
    obtain ⟨hn, hc, hT⟩ := h_traffic (Or.inr (Or.inl hst))
    have hm : (s.totalPkgCounter + 1) % 65536 = s.totalPkgCounter + 1 :=
      Nat.mod_eq_of_lt (by omega)
    rw [tick_start_pkg W s t hst]
    split
    · simp only [QuotaInv, hm]
      refine ⟨h_all, by simp, by simp, by simp, fun _ => ⟨hn, by omega, by omega, hT⟩⟩
    · simp only [QuotaInv]
      refine ⟨h_all, by simp, by simp, fun _ => ⟨hn, hc, hT⟩, by simp⟩
  | CHECK_REQ =>
    obtain ⟨hn, hc, hT⟩ := h_traffic (Or.inl hst)
    cases hb : s.txStatus ++ t.txArrivals with
    | nil =>
      rw [tick_check_req_empty W s t hst hb]
      simp only [QuotaInv, deliver, hst]
      refine ⟨h_all, by simp, by simp, fun _ => ⟨hn, hc, hT⟩, by simp⟩
    | cons r rest =>
      have hr1 : r.error ≠ 1 := h_all r (by rw [hb]; exact List.mem_cons_self _ _)
      have hrest : ∀ x ∈ rest, x.error ≠ 1 :=
        fun x hx => h_all x (by rw [hb]; exact List.mem_cons_of_mem _ hx)
      rw [tick_check_req_read W s t r rest hst hb]
      by_cases h0 : r.error = 0
      · rw [if_pos h0]
        simp only [QuotaInv]
        refine ⟨hrest, by simp, by simp, fun _ => ⟨hn, hc, hT⟩, by simp⟩
      · rw [if_neg h0, if_neg hr1]
        simp only [QuotaInv, hst]
        refine ⟨hrest, by simp, by simp, fun _ => ⟨hn, hc, hT⟩, by simp⟩
  | WRITE_PKG =>
    obtain ⟨hn, hc, hT⟩ := h_traffic (Or.inr (Or.inr hst))
    have hm : (s.totalPkgCounter + 1) % 65536 = s.totalPkgCounter + 1 :=
      Nat.mod_eq_of_lt (by omega)
    rw [tick_write_pkg W s t hst]
    split
    · simp only [QuotaInv, hm]
      refine ⟨h_all, by simp, by simp, by simp, fun _ => ⟨hn, by omega, by omega, hT⟩⟩
    · simp only [QuotaInv, hst]
      refine ⟨h_all, by simp, by simp, fun _ => ⟨hn, hc, hT⟩, by simp⟩
  | CHECK_SIZE =>
    obtain ⟨hn, hc1, hc, hT⟩ := h_size hst
    have hd : dec16 s.numConnections = s.numConnections - 1 := dec16_pos _ hn
    rw [tick_check_size W s t hst]
    split
    · split
      · simp only [QuotaInv]
        refine ⟨h_all, ?_, ?_, ?_, ?_⟩ <;> simp
      · rename_i hne
        simp only [QuotaInv, hd]
        rw [hd] at hne
        refine ⟨h_all, by simp, by simp, fun _ => ⟨by omega, by omega, hT⟩, by simp⟩
    · rename_i hlt
      simp only [QuotaInv]
      refine ⟨h_all, by simp, by simp, fun _ => ⟨hn, by omega, hT⟩, by simp⟩

/-- `QuotaInv` holds along every run from a state in which it holds. -/
theorem QuotaInv_run (W N P e : Nat) (he : e ≤ 1) (hP : e + 1 ≤ P) (hNP : N * P ≤ 65535) :
    ∀ (ts : List TickInput) (s : ClientState), QuotaInv N e s →
      (∀ t ∈ ts, t.numSessions = N ∧ t.TotalPkgPerConn = P ∧
        ∀ r ∈ t.txArrivals, r.error ≠ 1) →
      QuotaInv N e (run W s ts) := by
  intro ts
  induction ts with
  | nil => intro s h _; exact h
  | cons t ts ih =>
    intro s h hall
    obtain ⟨h1, h2, h3⟩ := hall t (List.mem_cons_self _ _)
    exact ih _ (QuotaInv_tick W N P e he hP hNP s t h h1 h2 h3)
      (fun u hu => hall u (List.mem_cons_of_mem _ hu))

/-- The tick on which a run returns to `IDLE`, under `QuotaInv` with slack 1:
either no session was opened and nothing was sent, or `totalPkgCounter` is one
short of `totalSendTarget`. -/
theorem QuotaInv_return (W N : Nat) (s : ClientState) (t : TickInput)
    (hinv : QuotaInv N 1 s) (hne : s.iperfFsmState ≠ .IDLE)
    (hidle : (tick W s t).iperfFsmState = .IDLE) :
    (tick W s t).totalPkgCounter + 1 = (tick W s t).totalSendTarget ∨
    ((tick W s t).totalSendTarget = 0 ∧ (tick W s t).totalPkgCounter = 0) := by
  obtain ⟨_, _, h_wait, _, h_size⟩ := hinv
  cases hst : s.iperfFsmState with
  | IDLE => exact absurd hst hne
  | INIT_CON =>
    exfalso
    by_cases hd : (s.currentSessionID + 1) % 65536 = t.numSessions
    · rw [tick_init_con_done W s t hst hd] at hidle; cases hidle
    · rw [tick_init_con_stay W s t hst hd, hst] at hidle; cases hidle
  | WAIT_CON =>
    obtain ⟨_, _, hp, hT0⟩ := h_wait hst
    right
    by_cases hd : s.currentSessionID = t.numSessions
    · rw [tick_wait_con_leave W s t hst hd] at hidle ⊢
      split at hidle
      · cases hidle
      · rename_i hz
        rw [if_neg hz]
        exact ⟨hT0, hp⟩
    · exfalso
      cases hb : s.openConStatusBuffer ++ t.openArrivals with
      | nil =>
        rw [tick_wait_con_stall W s t hst hd hb, hst] at hidle; cases hidle
      | cons r rest =>
        rw [tick_wait_con_read W s t r rest hst hd hb] at hidle
        split at hidle <;> (rw [hst] at hidle; cases hidle)
  | CONSTRUCT_HEADER =>
    exfalso
    rw [tick_construct_header W s t hst] at hidle
    simp [deliver, hst] at hidle
  | INIT_RUN =>
    exfalso
    rw [tick_init_run W s t hst] at hidle
    simp [deliver, hst] at hidle
  | START_PKG =>
    exfalso
    rw [tick_start_pkg W s t hst] at hidle
    split at hidle <;> cases hidle
  | CHECK_REQ =>
    exfalso
    cases hb : s.txStatus ++ t.txArrivals with
    | nil =>
      rw [tick_check_req_empty W s t hst hb] at hidle
      simp [deliver, hst] at hidle
    | cons r rest =>
      rw [tick_check_req_read W s t r rest hst hb] at hidle
      by_cases h0 : r.error = 0
      · rw [if_pos h0] at hidle; cases hidle
      · rw [if_neg h0] at hidle
        by_cases h1 : r.error = 1
        · rw [if_pos h1, hst] at hidle; cases hidle
        · rw [if_neg h1, hst] at hidle; cases hidle
  | WRITE_PKG =>
    exfalso
    rw [tick_write_pkg W s t hst] at hidle
    split at hidle
    · cases hidle
    · rw [hst] at hidle; cases hidle
  | CHECK_SIZE =>
    obtain ⟨hn, hc1, hc, hT⟩ := h_size hst
    have hd : dec16 s.numConnections = s.numConnections - 1 := dec16_pos _ hn
    left
    rw [tick_check_size W s t hst] at hidle ⊢
    by_cases hge : (s.totalPkgCounter : Int) ≥ (s.totalSendTarget : Int) - (s.numConnections : Int)
    · rw [if_pos hge] at hidle ⊢
      by_cases hz : dec16 s.numConnections = 0
      · rw [if_pos hz]
        rw [hd] at hz
        simp only
        omega
      · rw [if_neg hz] at hidle; cases hidle
    · rw [if_neg hge] at hidle; cases hidle

/-- A run without fatal completions and with `TotalPkgPerConn >= 2` that returns
to `IDLE` after a traffic phase does so with `totalPkgCounter` one short of
`totalSendTarget`. -/
theorem QuotaInv_runUntilIdle (W N P : Nat) (hP : 2 ≤ P) (hNP : N * P ≤ 65535)
    (sf : ClientState) :
    ∀ (ts : List TickInput) (s : ClientState), QuotaInv N 1 s →
      s.iperfFsmState ≠ .IDLE →
      (∀ t ∈ ts, t.numSessions = N ∧ t.TotalPkgPerConn = P ∧
        ∀ r ∈ t.txArrivals, r.error ≠ 1) →
      runUntilIdle W s ts = some sf →
      sf.totalPkgCounter + 1 = sf.totalSendTarget ∨
      (sf.totalSendTarget = 0 ∧ sf.totalPkgCounter = 0) := by
  intro ts
  induction ts with
  | nil =>
    intro s _ _ _ h
    simp [runUntilIdle] at h
  | cons t ts ih =>
    intro s hinv hne hall hrun
    obtain ⟨h1, h2, h3⟩ := hall t (List.mem_cons_self _ _)
    rw [runUntilIdle] at hrun
    by_cases hi : (tick W s t).iperfFsmState = .IDLE
    · rw [if_pos hi] at hrun
      have hsf : tick W s t = sf := Option.some.inj hrun
      rw [← hsf]
      exact QuotaInv_return W N s t hinv hne hi
    · rw [if_neg hi] at hrun
      exact ih _ (QuotaInv_tick W N P 1 (le_refl 1) hP hNP s t hinv h1 h2 h3) hi
        (fun u hu => hall u (List.mem_cons_of_mem _ hu)) hrun

/-- In every run with `numSessions = N` and `TotalPkgPerConn = P >= 2` held
constant, `N * P <= 65535`, and no send completion with `error = 1`, the driver
returns to `IDLE` with `totalPkgCounter = totalSendTarget - 1` (or with both 0
when no session could be opened): the last unit of the target is never sent. -/
theorem quota_short_by_one (W N P : Nat) (hP : 2 ≤ P) (hNP : N * P ≤ 65535)
    (s0 sf : ClientState) (t0 : TickInput) (ts : List TickInput)
    (h0 : s0.iperfFsmState = .IDLE) (hr : t0.runTx ≠ 0)
    (hnf0 : ∀ r ∈ s0.txStatus, r.error ≠ 1)
    (hnft : ∀ r ∈ t0.txArrivals, r.error ≠ 1)
    (hall : ∀ t ∈ ts, t.numSessions = N ∧ t.TotalPkgPerConn = P ∧
      ∀ r ∈ t.txArrivals, r.error ≠ 1)
    (hrun : runUntilIdle W s0 (t0 :: ts) = some sf) :
    sf.totalPkgCounter + 1 = sf.totalSendTarget ∨
    (sf.totalSendTarget = 0 ∧ sf.totalPkgCounter = 0) := by
  have hs1 := tick_idle_start W s0 t0 h0 hr
  have hne : (tick W s0 t0).iperfFsmState ≠ .IDLE := by
    rw [hs1]; simp
  have hinv : QuotaInv N 1 (tick W s0 t0) := by
    rw [hs1]
    simp only [QuotaInv]
    refine ⟨no_fatal_append _ _ hnf0 hnft, ?_, ?_, ?_, ?_⟩ <;> simp
  rw [runUntilIdle, if_neg hne] at hrun
  exact QuotaInv_runUntilIdle W N P hP hNP sf ts _ hinv hne hall hrun

theorem successCount_le (C : List openStatus) : successCount C ≤ C.length :=
  List.length_filter_le _ _

theorem successCount_append_singleton (C : List openStatus) (r : openStatus) :
    successCount (C ++ [r]) = successCount C + (if r.success then 1 else 0) := by
  unfold successCount
  rw [List.filter_append, List.length_append]
  cases hr : r.success <;> simp [hr]

/-- One tick of a run without fatal completions keeps `RunInv`, or ends the
run in `RunDone`. -/
theorem RunInv_tick (W N : Nat) (cl0 : List Nat) (D : List openStatus) (hN : N < 65536)
    (s : ClientState) (t : TickInput) (hinv : RunInv N cl0 D s)
    (htN : t.numSessions = N) (htx : ∀ r ∈ t.txArrivals, r.error ≠ 1) :
    RunInv N cl0 (D ++ t.openArrivals) (tick W s t) ∨
    RunDone N cl0 (D ++ t.openArrivals) (tick W s t) := by
  obtain ⟨h_tx, hcase⟩ := hinv
  have h_all := no_fatal_append _ _ h_tx htx
  rcases hcase with ⟨hst, hn, hcl, hD⟩ | ⟨hst, hcl, C, hD, hc, hCN, hn⟩ |
    ⟨htr, hn, C, cl, hD, hCN, hcl, hsum⟩
  · -- INIT_CON
    left
    by_cases hd : (s.currentSessionID + 1) % 65536 = t.numSessions
    · rw [tick_init_con_done W s t hst hd]
      refine ⟨h_all, Or.inr (Or.inl ⟨rfl, hcl, [], ?_, rfl, Nat.zero_le _, ?_⟩)⟩
      · simp [hD]
      · simpa [successCount] using hn
    · rw [tick_init_con_stay W s t hst hd]
      exact ⟨h_all, Or.inl ⟨hst, hn, hcl, by simp [hD]⟩⟩
  · -- WAIT_CON
    by_cases hd : s.currentSessionID = t.numSessions
    · rw [tick_wait_con_leave W s t hst hd]
      split
      · rename_i hpos
        left
        refine ⟨h_all, Or.inr (Or.inr ⟨Or.inl rfl, hpos, C, [], ?_, ?_, ?_, ?_⟩)⟩
        · simp [hD]
        · omega
        · simpa using hcl
        · simpa using hn
      · rename_i hzero
        right
        refine ⟨rfl, C, [], s.openConStatusBuffer ++ t.openArrivals, ?_, ?_, ?_, ?_⟩
        · simp [hD]
        · omega
        · simpa using hcl
        · simp only [List.length_nil]; omega
    · left
      cases hb : s.openConStatusBuffer ++ t.openArrivals with
      | nil =>
        rw [tick_wait_con_stall W s t hst hd hb]
        have h1 : s.openConStatusBuffer = [] := (List.append_eq_nil.mp hb).1
        have h2 : t.openArrivals = [] := (List.append_eq_nil.mp hb).2
        exact ⟨h_all, Or.inr (Or.inl ⟨hst, hcl, C, by simp [hD, h1, h2], hc, hCN, hn⟩)⟩
      | cons r rest =>
        have hlt : C.length < N := by omega
        have hcnt := successCount_le C
        have hm1 : (s.currentSessionID + 1) % 65536 = C.length + 1 := by
          rw [hc]; exact Nat.mod_eq_of_lt (by omega)
        have hm2 : (s.numConnections + 1) % 65536 = successCount C + 1 := by
          rw [hn]; exact Nat.mod_eq_of_lt (by omega)
        have hD2 : D ++ t.openArrivals = (C ++ [r]) ++ rest := by
          rw [hD, List.append_assoc, hb]; simp
        rw [tick_wait_con_read W s t r rest hst hd hb]
        cases hr : r.success with
        | true =>
          simp only [if_true, hm1, hm2]
          refine ⟨h_all, Or.inr (Or.inl ⟨hst, hcl, C ++ [r], hD2, by simp, by simp; omega, ?_⟩)⟩
          rw [successCount_append_singleton, hr, if_pos rfl]
        | false =>
          simp only [Bool.false_eq_true, if_false, hm1]
          refine ⟨h_all, Or.inr (Or.inl ⟨hst, hcl, C ++ [r], hD2, by simp, by simp; omega, ?_⟩)⟩
          rw [successCount_append_singleton, hr, if_neg (by simp), hn]
          rfl
  · -- the traffic phase
    have hD2 : D ++ t.openArrivals = C ++ (s.openConStatusBuffer ++ t.openArrivals) := by
      rw [hD, List.append_assoc]
    rcases htr with hst | hst | hst | hst
    · -- CHECK_REQ
      left
      cases hb : s.txStatus ++ t.txArrivals with
      | nil =>
        rw [tick_check_req_empty W s t hst hb]
        refine ⟨by simp [deliver, hb], Or.inr (Or.inr ⟨Or.inl hst, hn, C, cl, hD2, hCN, hcl, hsum⟩)⟩
      | cons r rest =>
        have hr1 : r.error ≠ 1 := h_all r (by rw [hb]; exact List.mem_cons_self _ _)
        have hrest : ∀ x ∈ rest, x.error ≠ 1 :=
          fun x hx => h_all x (by rw [hb]; exact List.mem_cons_of_mem _ hx)
        rw [tick_check_req_read W s t r rest hst hb]
        by_cases h0 : r.error = 0
        · rw [if_pos h0]
          exact ⟨hrest, Or.inr (Or.inr ⟨Or.inr (Or.inl rfl), hn, C, cl, hD2, hCN, hcl, hsum⟩)⟩
        · rw [if_neg h0, if_neg hr1]
          exact ⟨hrest, Or.inr (Or.inr ⟨Or.inl hst, hn, C, cl, hD2, hCN, hcl, hsum⟩)⟩
    · -- START_PKG
      left
      rw [tick_start_pkg W s t hst]
      split
      · exact ⟨h_all, Or.inr (Or.inr
          ⟨Or.inr (Or.inr (Or.inr rfl)), hn, C, cl, hD2, hCN, hcl, hsum⟩)⟩
      · exact ⟨h_all, Or.inr (Or.inr
          ⟨Or.inr (Or.inr (Or.inl rfl)), hn, C, cl, hD2, hCN, hcl, hsum⟩)⟩
    · -- WRITE_PKG
      left
      rw [tick_write_pkg W s t hst]
      split
      · exact ⟨h_all, Or.inr (Or.inr
          ⟨Or.inr (Or.inr (Or.inr rfl)), hn, C, cl, hD2, hCN, hcl, hsum⟩)⟩
      · exact ⟨h_all, Or.inr (Or.inr
          ⟨Or.inr (Or.inr (Or.inl hst)), hn, C, cl, hD2, hCN, hcl, hsum⟩)⟩
    · -- CHECK_SIZE
      have hd : dec16 s.numConnections = s.numConnections - 1 := dec16_pos _ hn
      rw [tick_check_size W s t hst]
      split
      · split
        · rename_i hz
          rw [hd] at hz
          right
          refine ⟨rfl, C, cl ++ [s.currentSessionID],
            s.openConStatusBuffer ++ t.openArrivals, hD2, hCN, ?_, ?_⟩
          · simp [hcl]
          · simp only [List.length_append, List.length_singleton]; omega
        · rename_i hz
          rw [hd] at hz
          left
          refine ⟨h_all, Or.inr (Or.inr ⟨Or.inl rfl, ?_, C, cl ++ [s.currentSessionID],
            hD2, hCN, ?_, ?_⟩)⟩
          · simp only [hd]; omega
          · simp [hcl]
          · simp only [hd, List.length_append, List.length_singleton]; omega
      · left
        exact ⟨h_all, Or.inr (Or.inr ⟨Or.inl rfl, hn, C, cl, hD2, hCN, hcl, hsum⟩)⟩

theorem RunInv_not_idle (N : Nat) (cl0 : List Nat) (D : List openStatus) (s : ClientState)
    (h : RunInv N cl0 D s) : s.iperfFsmState ≠ .IDLE := by
  intro hi
  rcases h.2 with ⟨hst, _⟩ | ⟨hst, _⟩ | ⟨htr, _⟩
  · rw [hi] at hst; cases hst
  · rw [hi] at hst; cases hst
  · rcases htr with hst | hst | hst | hst <;> (rw [hi] at hst; cases hst)

/-- A run without fatal completions that returns to `IDLE` ends in `RunDone`. -/
theorem RunInv_runUntilIdle (W N : Nat) (cl0 : List Nat) (hN : N < 65536)
    (sf : ClientState) :
    ∀ (ts : List TickInput) (D : List openStatus) (s : ClientState),
      RunInv N cl0 D s →
      (∀ t ∈ ts, t.numSessions = N) →
      (∀ t ∈ ts, ∀ r ∈ t.txArrivals, r.error ≠ 1) →
      runUntilIdle W s ts = some sf →
      sf.iperfFsmState = .IDLE ∧
      ∃ (C : List openStatus) (cl : List Nat) (R : List openStatus),
        D ++ openStream ts = C ++ R ∧ C.length = N ∧
        sf.closeConnection = cl0 ++ cl ∧ cl.length = successCount C := by
  intro ts
  induction ts with
  | nil =>
    intro D s _ _ _ h
    simp [runUntilIdle] at h
  | cons t ts ih =>
    intro D s hinv hall hnf hrun
    have hstep := RunInv_tick W N cl0 D hN s t hinv (hall t (List.mem_cons_self _ _))
      (hnf t (List.mem_cons_self _ _))
    rw [runUntilIdle] at hrun
    by_cases hi : (tick W s t).iperfFsmState = .IDLE
    · rw [if_pos hi] at hrun
      have hsf : tick W s t = sf := Option.some.inj hrun
      rcases hstep with h | h
      · exact absurd hi (RunInv_not_idle _ _ _ _ h)
      · obtain ⟨_, C, cl, R, hD, hCN, hcl, hlen⟩ := h
        rw [← hsf]
        refine ⟨hi, C, cl, R ++ openStream ts, ?_, hCN, hcl, hlen⟩
        rw [openStream_cons, ← List.append_assoc, hD, List.append_assoc]
    · rw [if_neg hi] at hrun
      rcases hstep with h | h
      · have := ih (D ++ t.openArrivals) (tick W s t) h
          (fun u hu => hall u (List.mem_cons_of_mem _ hu))
          (fun u hu => hnf u (List.mem_cons_of_mem _ hu)) hrun
        rw [openStream_cons, ← List.append_assoc]
        exact this
      · exact absurd h.1 hi

/-- Close requests carry the session of the completion just served: with two
sessions and `TotalPkgPerConn = 2`, when the three completions that arrive all
answer requests of session 1, the run ends with session 1 closed twice and
session 2 not at all, although no completion reports an error. -/
theorem close_twice_example :
    (runUntilIdle 512 initState
      [quiet 1 2 1 9 2, quiet 1 2 1 9 2, quiet 1 2 1 9 2,
       withOpen (quiet 1 2 1 9 2) [⟨1, true⟩], withOpen (quiet 1 2 1 9 2) [⟨2, true⟩],
       quiet 1 2 1 9 2,
       withTx (quiet 1 2 1 9 2) [⟨1, 0⟩], quiet 1 2 1 9 2, quiet 1 2 1 9 2,
       withTx (quiet 1 2 1 9 2) [⟨1, 0⟩], quiet 1 2 1 9 2, quiet 1 2 1 9 2,
       withTx (quiet 1 2 1 9 2) [⟨1, 0⟩], quiet 1 2 1 9 2,
       quiet 1 2 1 9 2]).map (fun sf => sf.closeConnection) = some [1, 1] := by
  decide

/-- A completion with `error = 1` that takes `numConnections` to 0 lets later
packets pass `totalSendTarget`: two sessions with `TotalPkgPerConn = 1`; one
packet of session 1, a fatal completion for session 2, then two more
completions, which answer no request.  The decrement in `CHECK_SIZE` wraps `numConnections` to 65535 and
`totalPkgCounter` reaches 3 with `totalSendTarget = 2`. -/
theorem fatal_completion_example :
    (run 64 initState
      [quiet 1 2 1 9 1, quiet 1 2 1 9 1, quiet 1 2 1 9 1,
       withOpen (quiet 1 2 1 9 1) [⟨1, true⟩], withOpen (quiet 1 2 1 9 1) [⟨2, true⟩],
       quiet 1 2 1 9 1,
       withTx (quiet 1 2 1 9 1) [⟨1, 0⟩], quiet 1 2 1 9 1, quiet 1 2 1 9 1,
       withTx (quiet 1 2 1 9 1) [⟨2, 1⟩],
       withTx (quiet 1 2 1 9 1) [⟨1, 0⟩], quiet 1 2 1 9 1, quiet 1 2 1 9 1,
       withTx (quiet 1 2 1 9 1) [⟨1, 0⟩], quiet 1 2 1 9 1]) =
      { iperfFsmState := .CHECK_SIZE
        currentSessionID := 1
        numConnections := 65535
        wordCount := 0
        totalPkgCounter := 3
        totalSendTarget := 2
        openConnection := [⟨9, 5001⟩, ⟨9, 5001⟩]
        openConStatusBuffer := []
        closeConnection := [1, 1]
        txMetaDataBuffer := [⟨1, 8⟩, ⟨2, 8⟩, ⟨1, 8⟩]
        txDataBuffer := [payloadWord 64 true, payloadWord 64 true, payloadWord 64 true]
        txStatus := [] } := by
  decide

theorem openStream_replicate_quiet (n a b c d e : Nat) :
    openStream (List.replicate n (quiet a b c d e)) = [] := by
  induction n with
  | zero => rfl
  | succ n ih => rw [List.replicate_succ, openStream_cons, ih]; rfl

theorem txStream_replicate_quiet (n a b c d e : Nat) :
    txStream (List.replicate n (quiet a b c d e)) = [] := by
  induction n with
  | zero => rfl
  | succ n ih => rw [List.replicate_succ, txStream_cons, ih]; rfl

/-- From `CHECK_REQ`, a completion with `error = 0` followed by a one-word
packet: two ticks later the driver is in `CHECK_SIZE` and has counted the
packet. -/
theorem one_word_packet (W : Nat) (s : ClientState) (a b : TickInput)
    (r : appTxRsp) (rest : List appTxRsp)
    (hs : s.iperfFsmState = .CHECK_REQ) (hb : s.txStatus ++ a.txArrivals = r :: rest)
    (hr : r.error = 0) (hw : 1 = b.pkgWordCount) :
    (run W s [a, b]).iperfFsmState = .CHECK_SIZE ∧
    (run W s [a, b]).totalSendTarget = s.totalSendTarget ∧
    (run W s [a, b]).totalPkgCounter = (s.totalPkgCounter + 1) % 65536 := by
  simp only [run]
  rw [tick_check_req_read W s a r rest hs hb, if_pos hr, tick_start_pkg W _ b rfl, if_pos hw]
  exact ⟨rfl, rfl, rfl⟩

/-- When the product wraps, packets pass `totalSendTarget`: 512 sessions, all
opened, with `TotalPkgPerConn = 128` give `totalSendTarget = 65536 mod 2^16 = 0`,
and the first packet takes `totalPkgCounter` to 1.  Here the open results are
waiting in the buffer when the run starts. -/
theorem target_overflow_example :
    (run 64
      { initState with openConStatusBuffer := (List.range 512).map (fun i => ⟨i, true⟩) }
      (quiet 1 512 1 9 128 :: List.replicate 512 (quiet 1 512 1 9 128) ++
        List.replicate 512 (quiet 1 512 1 9 128) ++ [quiet 1 512 1 9 128] ++
        [withTx (quiet 1 512 1 9 128) [⟨0, 0⟩], quiet 1 512 1 9 128])).iperfFsmState
      = .CHECK_SIZE ∧
    (run 64
      { initState with openConStatusBuffer := (List.range 512).map (fun i => ⟨i, true⟩) }
      (quiet 1 512 1 9 128 :: List.replicate 512 (quiet 1 512 1 9 128) ++
        List.replicate 512 (quiet 1 512 1 9 128) ++ [quiet 1 512 1 9 128] ++
        [withTx (quiet 1 512 1 9 128) [⟨0, 0⟩], quiet 1 512 1 9 128])).totalSendTarget
      = 0 ∧
    (run 64
      { initState with openConStatusBuffer := (List.range 512).map (fun i => ⟨i, true⟩) }
      (quiet 1 512 1 9 128 :: List.replicate 512 (quiet 1 512 1 9 128) ++
        List.replicate 512 (quiet 1 512 1 9 128) ++ [quiet 1 512 1 9 128] ++
        [withTx (quiet 1 512 1 9 128) [⟨0, 0⟩], quiet 1 512 1 9 128])).totalPkgCounter
      = 1 := by
  have hmem : ∀ t ∈ List.replicate 512 (quiet 1 512 1 9 128), t = quiet 1 512 1 9 128 :=
    fun t ht => List.eq_of_mem_replicate ht
  have hcount : (((List.range 512).map (fun i => (⟨i, true⟩ : openStatus))).filter
      (fun r => r.success)).length = 512 := by
    rw [List.filter_eq_self.2 (fun a ha => by
      obtain ⟨i, _, rfl⟩ := List.mem_map.1 ha
      rfl)]
    rw [List.length_map, List.length_range]
  have h := run_to_check_req 64 512 1 128 (by norm_num) (by norm_num)
    { initState with openConStatusBuffer := (List.range 512).map (fun i => ⟨i, true⟩) }
    ((List.range 512).map (fun i => ⟨i, true⟩)) []
    (quiet 1 512 1 9 128) (List.replicate 512 (quiet 1 512 1 9 128))
    (List.replicate 512 (quiet 1 512 1 9 128)) (quiet 1 512 1 9 128)
    rfl (by decide) (by rw [List.append_nil]) (by rw [List.length_map, List.length_range])
    (List.length_replicate _ _) (List.length_replicate _ _)
    (fun t ht => by rw [hmem t ht]; rfl) (fun t ht => by rw [hmem t ht]; rfl)
    (fun t ht => by rw [hmem t ht]; rfl) rfl rfl (by rw [hcount]; norm_num)
  have htx : txStream (quiet 1 512 1 9 128 :: List.replicate 512 (quiet 1 512 1 9 128) ++
      List.replicate 512 (quiet 1 512 1 9 128) ++ [quiet 1 512 1 9 128]) = [] := by
    simp only [List.cons_append, txStream_cons, txStream_append, txStream_replicate_quiet,
      txStream_nil, List.append_nil]
    rfl
  rw [run_append, h, htx, hcount]
  exact one_word_packet 64 _ _ _ ⟨0, 0⟩ [] rfl rfl rfl rfl

/-! ## The claims -/

/-- C5: with `numSessions = N` in 1..65535 held constant, from the start of a
run, at the tick on which `WAIT_CON` has consumed all `N` open results
(`currentSessionID = N`, still in `WAIT_CON`), `numConnections` is the number of
results with `success = true` among the first `N` delivered on
`openConStatusBuffer`, whatever their arrival times. -/
theorem numConnections_counts_successes (W N : Nat) (hN1 : 1 ≤ N) (hN : N ≤ 65535)
    (s0 : ClientState) (t0 : TickInput) (ts1 ts2 : List TickInput)
    (h0 : s0.iperfFsmState = .IDLE) (hr : t0.runTx ≠ 0)
    (hlen : ts1.length = N)
    (hall : ∀ t ∈ ts1 ++ ts2, t.numSessions = N)
    (hin : ∀ j, j ≤ ts2.length →
      (run W s0 (t0 :: ts1 ++ ts2.take j)).iperfFsmState = .WAIT_CON)
    (hdone : (run W s0 (t0 :: ts1 ++ ts2)).currentSessionID = N) :
    (run W s0 (t0 :: ts1 ++ ts2)).numConnections =
      (((s0.openConStatusBuffer ++ openStream (t0 :: ts1 ++ ts2)).take N).filter
        (fun r => r.success)).length := by
  have hinv := WaitInv_from_idle W N 0 False (by omega) s0 t0 ts1 ts2 h0 hr
    (by rw [hlen, if_neg (by omega)]) hall (fun h => h.elim) hin
  have := (WaitInv_done W N 0 False _ _ _ hinv).1
  rw [hdone] at this
  exact this

/-- C5, on three sessions whose open results are success, failure, success. -/
theorem numConnections_counts_successes_witness :
    (run 512 initState
      (quiet 1 3 16 9 1 :: List.replicate 3 (quiet 1 3 16 9 1) ++
        [withOpen (quiet 1 3 16 9 1) [⟨4, true⟩, ⟨5, false⟩], quiet 1 3 16 9 1,
         withOpen (quiet 1 3 16 9 1) [⟨6, true⟩]])).numConnections = 2 := by
  have h := numConnections_counts_successes 512 3 (by decide) (by decide) initState
    (quiet 1 3 16 9 1) (List.replicate 3 (quiet 1 3 16 9 1))
    [withOpen (quiet 1 3 16 9 1) [⟨4, true⟩, ⟨5, false⟩], quiet 1 3 16 9 1,
      withOpen (quiet 1 3 16 9 1) [⟨6, true⟩]]
    rfl (by decide) (by decide) (by decide) (by decide) (by decide)
  rw [h]
  decide

/-- C6: with `numSessions = N` and `pkgWordCount = w` held constant, from the
start of a run and for as long as the driver is in `WAIT_CON`, the send requests
written to `txMetaDataBuffer` are exactly, in arrival order, one
`appTxMeta(sessionID, w*(WIDTH/8))` for each consumed open result with
`success = true` and none for a failed one, `numConnections` is the number of
those requests, and the tick that leaves `WAIT_CON` writes no send request. -/
theorem seed_requests_in_wait_con (W N w : Nat) (hN : N ≤ 65535)
    (s0 : ClientState) (t0 : TickInput) (ts1 ts2 : List TickInput)
    (h0 : s0.iperfFsmState = .IDLE) (hr : t0.runTx ≠ 0)
    (hlen : ts1.length = if N = 0 then 65536 else N)
    (hall : ∀ t ∈ ts1 ++ ts2, t.numSessions = N)
    (hw : ∀ t ∈ ts2, t.pkgWordCount = w)
    (hin : ∀ j, j ≤ ts2.length →
      (run W s0 (t0 :: ts1 ++ ts2.take j)).iperfFsmState = .WAIT_CON) :
    (run W s0 (t0 :: ts1 ++ ts2)).txMetaDataBuffer =
      s0.txMetaDataBuffer ++ seedRequests W w
        ((s0.openConStatusBuffer ++ openStream (t0 :: ts1 ++ ts2)).take
          (run W s0 (t0 :: ts1 ++ ts2)).currentSessionID) ∧
    (run W s0 (t0 :: ts1 ++ ts2)).numConnections =
      (seedRequests W w
        ((s0.openConStatusBuffer ++ openStream (t0 :: ts1 ++ ts2)).take
          (run W s0 (t0 :: ts1 ++ ts2)).currentSessionID)).length ∧
    s0.openConStatusBuffer ++ openStream (t0 :: ts1 ++ ts2) =
      (s0.openConStatusBuffer ++ openStream (t0 :: ts1 ++ ts2)).take
          (run W s0 (t0 :: ts1 ++ ts2)).currentSessionID ++
        (run W s0 (t0 :: ts1 ++ ts2)).openConStatusBuffer ∧
    ∀ t3 : TickInput, (run W s0 (t0 :: ts1 ++ ts2)).currentSessionID = t3.numSessions →
      (tick W (run W s0 (t0 :: ts1 ++ ts2)) t3).txMetaDataBuffer =
        (run W s0 (t0 :: ts1 ++ ts2)).txMetaDataBuffer := by
  have hinv := WaitInv_from_idle W N w True (by omega) s0 t0 ts1 ts2 h0 hr hlen hall
    (fun _ => hw) hin
  have hd := WaitInv_done W N w True _ _ _ hinv
  refine ⟨hd.2.2.2 trivial, ?_, hd.2.1, ?_⟩
  · rw [hd.1]
    simp [seedRequests]
  · intro t3 h3
    rw [tick_wait_con_leave W _ t3 hinv.1 h3]
    split <;> rfl

/-- C6, on the results success, failure, success: exactly two seed requests,
for the first and the third session, and `numConnections = 2`. -/
theorem seed_requests_in_wait_con_witness :
    (run 512 initState
      (quiet 1 3 16 9 1 :: List.replicate 3 (quiet 1 3 16 9 1) ++
        [withOpen (quiet 1 3 16 9 1) [⟨4, true⟩], withOpen (quiet 1 3 16 9 1) [⟨5, false⟩],
         quiet 1 3 16 9 1, withOpen (quiet 1 3 16 9 1) [⟨6, true⟩]])).txMetaDataBuffer =
      [⟨4, 16 * 64⟩, ⟨6, 16 * 64⟩] ∧
    (run 512 initState
      (quiet 1 3 16 9 1 :: List.replicate 3 (quiet 1 3 16 9 1) ++
        [withOpen (quiet 1 3 16 9 1) [⟨4, true⟩], withOpen (quiet 1 3 16 9 1) [⟨5, false⟩],
         quiet 1 3 16 9 1, withOpen (quiet 1 3 16 9 1) [⟨6, true⟩]])).numConnections = 2 := by
  have h := seed_requests_in_wait_con 512 3 16 (by decide) initState
    (quiet 1 3 16 9 1) (List.replicate 3 (quiet 1 3 16 9 1))
    [withOpen (quiet 1 3 16 9 1) [⟨4, true⟩], withOpen (quiet 1 3 16 9 1) [⟨5, false⟩],
      quiet 1 3 16 9 1, withOpen (quiet 1 3 16 9 1) [⟨6, true⟩]]
    rfl (by decide) (by decide) (by decide) (by decide) (by decide)
  refine ⟨?_, ?_⟩
  · rw [h.1]; decide
  · rw [h.2.1]; decide

/-- A run up to the tick that leaves `WAIT_CON` with at least one connection:
the driver is then in `CHECK_REQ`, and `totalSendTarget` holds the product of
the number `k` of successful results and `TotalPkgPerConn`, reduced modulo
`2^16`. -/
theorem leave_wait_con (W N P : Nat) (hN : N ≤ 65535)
    (s0 : ClientState) (t0 : TickInput) (ts1 ts2 : List TickInput) (t3 : TickInput)
    (h0 : s0.iperfFsmState = .IDLE) (hr : t0.runTx ≠ 0)
    (hlen : ts1.length = if N = 0 then 65536 else N)
    (hall : ∀ t ∈ ts1 ++ ts2, t.numSessions = N)
    (hin : ∀ j, j ≤ ts2.length →
      (run W s0 (t0 :: ts1 ++ ts2.take j)).iperfFsmState = .WAIT_CON)
    (hdone : (run W s0 (t0 :: ts1 ++ ts2)).currentSessionID = N)
    (h3N : t3.numSessions = N) (h3P : t3.TotalPkgPerConn = P)
    (hk : 1 ≤ (((s0.openConStatusBuffer ++ openStream (t0 :: ts1 ++ ts2)).take N).filter
        (fun r => r.success)).length) :
    (run W s0 (t0 :: ts1 ++ ts2 ++ [t3])).iperfFsmState = .CHECK_REQ ∧
    (run W s0 (t0 :: ts1 ++ ts2 ++ [t3])).numConnections =
      (((s0.openConStatusBuffer ++ openStream (t0 :: ts1 ++ ts2)).take N).filter
        (fun r => r.success)).length ∧
    (run W s0 (t0 :: ts1 ++ ts2 ++ [t3])).totalSendTarget =
      ((((s0.openConStatusBuffer ++ openStream (t0 :: ts1 ++ ts2)).take N).filter
        (fun r => r.success)).length * P) % 65536 := by
  have hinv := WaitInv_from_idle W N 0 False (by omega) s0 t0 ts1 ts2 h0 hr hlen hall
    (fun h => h.elim) hin
  have hn := (WaitInv_done W N 0 False _ _ _ hinv).1
  rw [hdone] at hn
  have hrun : run W s0 (t0 :: ts1 ++ ts2 ++ [t3]) = tick W (run W s0 (t0 :: ts1 ++ ts2)) t3 := by
    have : t0 :: ts1 ++ ts2 ++ [t3] = (t0 :: (ts1 ++ ts2)) ++ [t3] := by simp
    rw [this, run_append]
    rfl
  rw [hrun, tick_wait_con_leave W _ t3 hinv.1 (by rw [hdone, h3N]), if_pos (by rw [hn]; omega)]
  exact ⟨rfl, hn, by simp only [hn, h3P]⟩

/-- C7 fails as stated: with 258 sessions, all opened successfully, and
`TotalPkgPerConn = 255`, the driver leaves `WAIT_CON` for `CHECK_REQ` with
`numConnections = 258` and `totalSendTarget = 254`, not `258 * 255 = 65790`. -/
theorem totalSendTarget_exact_counterexample :
    (run 512
      { initState with openConStatusBuffer := (List.range 258).map (fun i => ⟨i, true⟩) }
      (quiet 1 258 16 9 255 :: List.replicate 258 (quiet 1 258 16 9 255) ++
        List.replicate 258 (quiet 1 258 16 9 255) ++ [quiet 1 258 16 9 255])).iperfFsmState
      = .CHECK_REQ ∧
    (run 512
      { initState with openConStatusBuffer := (List.range 258).map (fun i => ⟨i, true⟩) }
      (quiet 1 258 16 9 255 :: List.replicate 258 (quiet 1 258 16 9 255) ++
        List.replicate 258 (quiet 1 258 16 9 255) ++ [quiet 1 258 16 9 255])).numConnections
      = 258 ∧
    (run 512
      { initState with openConStatusBuffer := (List.range 258).map (fun i => ⟨i, true⟩) }
      (quiet 1 258 16 9 255 :: List.replicate 258 (quiet 1 258 16 9 255) ++
        List.replicate 258 (quiet 1 258 16 9 255) ++ [quiet 1 258 16 9 255])).totalSendTarget
      = 254 ∧
    254 ≠ 258 * 255 := by
  have hmem : ∀ t ∈ List.replicate 258 (quiet 1 258 16 9 255), t = quiet 1 258 16 9 255 :=
    fun t ht => List.eq_of_mem_replicate ht
  have hcount : (((List.range 258).map (fun i => (⟨i, true⟩ : openStatus))).filter
      (fun r => r.success)).length = 258 := by
    rw [List.filter_eq_self.2 (fun a ha => by
      obtain ⟨i, _, rfl⟩ := List.mem_map.1 ha
      rfl)]
    rw [List.length_map, List.length_range]
  have h := run_to_check_req 512 258 16 255 (by norm_num) (by norm_num)
    { initState with openConStatusBuffer := (List.range 258).map (fun i => ⟨i, true⟩) }
    ((List.range 258).map (fun i => ⟨i, true⟩)) []
    (quiet 1 258 16 9 255) (List.replicate 258 (quiet 1 258 16 9 255))
    (List.replicate 258 (quiet 1 258 16 9 255)) (quiet 1 258 16 9 255)
    rfl (by decide) (List.append_nil _).symm (by rw [List.length_map, List.length_range])
    (List.length_replicate _ _) (List.length_replicate _ _)
    (fun t ht => by rw [hmem t ht]; rfl) (fun t ht => by rw [hmem t ht]; rfl)
    (fun t ht => by rw [hmem t ht]; rfl) rfl rfl (by rw [hcount]; norm_num)
  rw [h]
  refine ⟨rfl, hcount, ?_, by norm_num⟩
  simp only [hcount]

/-- C7, amended: on leaving `WAIT_CON` for `CHECK_REQ` with `k >= 1` successful
results among the `N` consumed, `totalSendTarget` holds `k * TotalPkgPerConn`
reduced modulo `2^16`; it is the exact product exactly when
`k * TotalPkgPerConn <= 65535`. -/
theorem totalSendTarget_on_leaving_wait_con (W N P : Nat) (hN1 : 1 ≤ N) (hN : N ≤ 65535)
    (s0 : ClientState) (t0 : TickInput) (ts1 ts2 : List TickInput) (t3 : TickInput)
    (h0 : s0.iperfFsmState = .IDLE) (hr : t0.runTx ≠ 0)
    (hlen : ts1.length = N)
    (hall : ∀ t ∈ ts1 ++ ts2, t.numSessions = N)
    (hin : ∀ j, j ≤ ts2.length →
      (run W s0 (t0 :: ts1 ++ ts2.take j)).iperfFsmState = .WAIT_CON)
    (hdone : (run W s0 (t0 :: ts1 ++ ts2)).currentSessionID = N)
    (h3N : t3.numSessions = N) (h3P : t3.TotalPkgPerConn = P)
    (hk : 1 ≤ (((s0.openConStatusBuffer ++ openStream (t0 :: ts1 ++ ts2)).take N).filter
        (fun r => r.success)).length) :
    (run W s0 (t0 :: ts1 ++ ts2 ++ [t3])).iperfFsmState = .CHECK_REQ ∧
    (run W s0 (t0 :: ts1 ++ ts2 ++ [t3])).totalSendTarget =
      ((((s0.openConStatusBuffer ++ openStream (t0 :: ts1 ++ ts2)).take N).filter
        (fun r => r.success)).length * P) % 65536 ∧
    ((run W s0 (t0 :: ts1 ++ ts2 ++ [t3])).totalSendTarget =
        (((s0.openConStatusBuffer ++ openStream (t0 :: ts1 ++ ts2)).take N).filter
          (fun r => r.success)).length * P ↔
      (((s0.openConStatusBuffer ++ openStream (t0 :: ts1 ++ ts2)).take N).filter
          (fun r => r.success)).length * P ≤ 65535) := by
  have h := leave_wait_con W N P hN s0 t0 ts1 ts2 t3 h0 hr (by rw [hlen, if_neg (by omega)])
    hall hin hdone h3N h3P hk
  refine ⟨h.1, h.2.2, ?_⟩
  rw [h.2.2]
  constructor
  · intro he
    have := Nat.mod_lt ((((s0.openConStatusBuffer ++ openStream (t0 :: ts1 ++ ts2)).take N).filter
        (fun r => r.success)).length * P) (by norm_num : 0 < 65536)
    omega
  · intro hle
    exact Nat.mod_eq_of_lt (by omega)

/-- C7 amended, on three sessions (success, failure, success) and
`TotalPkgPerConn = 7`: `totalSendTarget = 14`. -/
theorem totalSendTarget_on_leaving_wait_con_witness :
    (run 512 initState
      (quiet 1 3 16 9 7 :: List.replicate 3 (quiet 1 3 16 9 7) ++
        [withOpen (quiet 1 3 16 9 7) [⟨4, true⟩, ⟨5, false⟩, ⟨6, true⟩],
         quiet 1 3 16 9 7, quiet 1 3 16 9 7] ++ [quiet 1 3 16 9 7])).totalSendTarget = 14 := by
  have h := totalSendTarget_on_leaving_wait_con 512 3 7 (by decide) (by decide) initState
    (quiet 1 3 16 9 7) (List.replicate 3 (quiet 1 3 16 9 7))
    [withOpen (quiet 1 3 16 9 7) [⟨4, true⟩, ⟨5, false⟩, ⟨6, true⟩],
      quiet 1 3 16 9 7, quiet 1 3 16 9 7] (quiet 1 3 16 9 7)
    rfl (by decide) (by decide) (by decide) (by decide) (by decide) rfl rfl (by decide)
  rw [h.2.1]
  decide

/-- The opening phase for `numSessions = N` in 1..65535: exactly `N` open
requests, one on each of the `N` ticks spent in `INIT_CON`. -/
theorem openRequests_count (W N : Nat) (hN1 : 1 ≤ N) (hN : N ≤ 65535)
    (s0 : ClientState) (t0 : TickInput) (ts : List TickInput)
    (h0 : s0.iperfFsmState = .IDLE) (hr : t0.runTx ≠ 0)
    (hall : ∀ t ∈ ts, t.numSessions = N) (hlen : ts.length = N) :
    (∀ j, j < N → (run W s0 (t0 :: ts.take j)).iperfFsmState = .INIT_CON) ∧
    (run W s0 (t0 :: ts)).iperfFsmState = .WAIT_CON ∧
    (run W s0 (t0 :: ts)).openConnection =
      s0.openConnection ++ ts.map (fun t => (⟨t.serverIpAddress, 5001⟩ : ipTuple)) := by
  have h := run_opening_phase W N N (by omega) (by rw [if_neg (by omega)]) s0 t0 ts h0 hr
    hall hlen
  refine ⟨h.1, ?_, ?_⟩ <;> rw [h.2]

/-- C8 at the failing input `numSessions = 0`: from `IDLE` with `runTx` set and
`numSessions` held at 0, the driver stays in `INIT_CON` for 65536 ticks and has
written 65536 open requests, not 0, when it enters `WAIT_CON`. -/
theorem openRequests_zero_sessions (W : Nat)
    (s0 : ClientState) (t0 : TickInput) (ts : List TickInput)
    (h0 : s0.iperfFsmState = .IDLE) (hr : t0.runTx ≠ 0)
    (hall : ∀ t ∈ ts, t.numSessions = 0) (hlen : ts.length = 65536) :
    (∀ j, j < 65536 → (run W s0 (t0 :: ts.take j)).iperfFsmState = .INIT_CON) ∧
    (run W s0 (t0 :: ts)).iperfFsmState = .WAIT_CON ∧
    (run W s0 (t0 :: ts)).openConnection =
      s0.openConnection ++ ts.map (fun t => (⟨t.serverIpAddress, 5001⟩ : ipTuple)) ∧
    (run W s0 (t0 :: ts)).openConnection.length = s0.openConnection.length + 65536 := by
  have h := run_opening_phase W 0 65536 (by norm_num) (by simp) s0 t0 ts h0 hr hall hlen
  refine ⟨h.1, ?_, ?_, ?_⟩ <;> rw [h.2]
  simp [hlen]

/-- C8 at `numSessions = 0`, run from the initial state. -/
theorem openRequests_zero_sessions_witness :
    (run 512 initState
      (quiet 1 0 16 9 1 :: List.replicate 65536 (quiet 1 0 16 9 1))).iperfFsmState = .WAIT_CON ∧
    (run 512 initState
      (quiet 1 0 16 9 1 :: List.replicate 65536 (quiet 1 0 16 9 1))).openConnection.length
      = 65536 := by
  have h := openRequests_zero_sessions 512 initState (quiet 1 0 16 9 1)
    (List.replicate 65536 (quiet 1 0 16 9 1)) rfl (by decide)
    (fun t ht => by rw [List.eq_of_mem_replicate ht]; rfl) (List.length_replicate _ _)
  exact ⟨h.2.1, h.2.2.2⟩

/-- The packet phase for `pkgWordCount = w` in 1..255: exactly `w` data words,
`last` set on the final one only. -/
theorem packet_words_count (W w : Nat) (hw1 : 1 ≤ w) (hw : w ≤ 255)
    (s : ClientState) (ts : List TickInput)
    (hs : s.iperfFsmState = .START_PKG)
    (hall : ∀ t ∈ ts, t.pkgWordCount = w) (hlen : ts.length = w) :
    (∀ j, 0 < j → j < w → (run W s (ts.take j)).iperfFsmState = .WRITE_PKG) ∧
    (run W s ts).iperfFsmState = .CHECK_SIZE ∧
    (run W s ts).txDataBuffer =
      s.txDataBuffer ++ List.replicate (w - 1) (payloadWord W false) ++ [payloadWord W true] := by
  have h := run_packet W w w (by omega) (by rw [if_neg (by omega)]) s ts hs hall hlen
  refine ⟨h.1, ?_, ?_⟩ <;> rw [h.2]

/-- C9 at the failing input `pkgWordCount = 0`: from `START_PKG` the driver
writes 256 data words, not 0, before it reaches `CHECK_SIZE`: 255 with `last = 0`
and then one with `last = 1`. -/
theorem packet_words_zero_wordCount (W : Nat) (s : ClientState) (ts : List TickInput)
    (hs : s.iperfFsmState = .START_PKG)
    (hall : ∀ t ∈ ts, t.pkgWordCount = 0) (hlen : ts.length = 256) :
    (∀ j, 0 < j → j < 256 → (run W s (ts.take j)).iperfFsmState = .WRITE_PKG) ∧
    (run W s ts).iperfFsmState = .CHECK_SIZE ∧
    (run W s ts).txDataBuffer =
      s.txDataBuffer ++ List.replicate 255 (payloadWord W false) ++ [payloadWord W true] := by
  have h := run_packet W 0 256 (by norm_num) (by simp) s ts hs hall hlen
  refine ⟨h.1, ?_, ?_⟩ <;> rw [h.2]

/-- C9 at `pkgWordCount = 0`, on the `START_PKG` state that a run with one
session reaches from the initial state. -/
theorem packet_words_zero_wordCount_witness :
    (run 512
      (run 512 initState
        [quiet 1 1 0 9 1, quiet 1 1 0 9 1, withOpen (quiet 1 1 0 9 1) [⟨4, true⟩],
         quiet 1 1 0 9 1, withTx (quiet 1 1 0 9 1) [⟨4, 0⟩]])
      (List.replicate 256 (quiet 1 1 0 9 1))).txDataBuffer.length = 256 := by
  have h := packet_words_zero_wordCount 512
    (run 512 initState
      [quiet 1 1 0 9 1, quiet 1 1 0 9 1, withOpen (quiet 1 1 0 9 1) [⟨4, true⟩],
       quiet 1 1 0 9 1, withTx (quiet 1 1 0 9 1) [⟨4, 0⟩]])
    (List.replicate 256 (quiet 1 1 0 9 1)) (by decide)
    (fun t ht => by rw [List.eq_of_mem_replicate ht]; rfl) (List.length_replicate _ _)
  rw [h.2.2]
  have h0 : (run 512 initState
      [quiet 1 1 0 9 1, quiet 1 1 0 9 1, withOpen (quiet 1 1 0 9 1) [⟨4, true⟩],
       quiet 1 1 0 9 1, withTx (quiet 1 1 0 9 1) [⟨4, 0⟩]]).txDataBuffer = [] := by decide
  rw [h0]
  simp only [List.nil_append, List.length_append, List.length_replicate, List.length_singleton]

/-- C10 (scenario A): with `numSessions = 1`, `pkgWordCount = 1`,
`TotalPkgPerConn = 1` and `runTx = 1`, for every session id `s`, whatever the
number `d1` of ticks before the open result `(s, success)` arrives and the
number `d2` of ticks between it and the send completion `(s, 0)` (with
`d2 = 0` the completion arrives on the very next tick, the one that leaves
`WAIT_CON`), the run from `IDLE` returns to `IDLE` having written exactly one
open request, one send request `appTxMeta(s, 1*(WIDTH/8))`, one data word,
whose `last` is 1, one close request for `s`, and with `totalPkgCounter = 1`. -/
theorem scenario_single_session (W ip s d1 d2 : Nat) (hs : s < 65536) :
    runUntilIdle W initState
      (quiet 1 1 1 ip 1 :: quiet 1 1 1 ip 1 ::
        (List.replicate d1 (quiet 1 1 1 ip 1) ++
          (withOpen (quiet 1 1 1 ip 1) [⟨s, true⟩] ::
            (List.replicate d2 (quiet 1 1 1 ip 1) ++
              [withTx (quiet 1 1 1 ip 1) [⟨s, 0⟩], quiet 1 1 1 ip 1, quiet 1 1 1 ip 1,
                quiet 1 1 1 ip 1])))) =
      some
        { iperfFsmState := .IDLE
          currentSessionID := s
          numConnections := 0
          wordCount := 0
          totalPkgCounter := 1
          totalSendTarget := 1
          openConnection := [⟨ip, 5001⟩]
          openConStatusBuffer := []
          closeConnection := [s]
          txMetaDataBuffer := [⟨s, 1 * (W / 8)⟩]
          txDataBuffer :=
            [{ data := (payloadWord W true).data, keep := (payloadWord W true).keep,
               last := true }]
          txStatus := [] } := by
  have hmod : s % 65536 = s := Nat.mod_eq_of_lt hs
  rw [runUntilIdle, if_neg (by simp [tick, inst_client, deliver, quiet, initState])]
  rw [runUntilIdle, if_neg (by simp [tick, inst_client, deliver, quiet, initState])]
  rw [runUntilIdle_replicate_fixed W _ _ _
    (by simp [tick, inst_client, deliver, quiet, initState])
    (by simp [tick, inst_client, deliver, quiet, initState])]
  rw [runUntilIdle, if_neg (by simp [tick, inst_client, deliver, quiet, initState, withOpen])]
  cases d2 with
  | zero =>
    simp [runUntilIdle, tick, inst_client, deliver, quiet, initState, withOpen, withTx, hmod,
      dec16, payloadWord]
  | succ d =>
    rw [List.replicate_succ, List.cons_append]
    rw [runUntilIdle, if_neg (by simp [tick, inst_client, deliver, quiet, initState, withOpen])]
    rw [runUntilIdle_replicate_fixed W _ _ _
      (by simp [tick, inst_client, deliver, quiet, initState, withOpen])
      (by simp [tick, inst_client, deliver, quiet, initState, withOpen])]
    simp [runUntilIdle, tick, inst_client, deliver, quiet, initState, withOpen, withTx, hmod,
      dec16, payloadWord]

/-- C10 (scenario A) for session 7, the open result arriving after 2 idle ticks
and the send completion on the tick after it. -/
theorem scenario_single_session_witness :
    (7 < 65536) ∧
    runUntilIdle 512 initState
      (quiet 1 1 1 9 1 :: quiet 1 1 1 9 1 ::
        (List.replicate 2 (quiet 1 1 1 9 1) ++
          (withOpen (quiet 1 1 1 9 1) [⟨7, true⟩] ::
            (List.replicate 0 (quiet 1 1 1 9 1) ++
              [withTx (quiet 1 1 1 9 1) [⟨7, 0⟩], quiet 1 1 1 9 1, quiet 1 1 1 9 1,
                quiet 1 1 1 9 1])))) =
      some
        { iperfFsmState := .IDLE
          currentSessionID := 7
          numConnections := 0
          wordCount := 0
          totalPkgCounter := 1
          totalSendTarget := 1
          openConnection := [⟨9, 5001⟩]
          openConStatusBuffer := []
          closeConnection := [7]
          txMetaDataBuffer := [⟨7, 1 * (512 / 8)⟩]
          txDataBuffer :=
            [{ data := (payloadWord 512 true).data, keep := (payloadWord 512 true).keep,
               last := true }]
          txStatus := [] } :=
  ⟨by decide, scenario_single_session 512 9 7 2 0 (by decide)⟩

/-- C3 at the failing input: one session, opened successfully, whose only send
completion has `error = 1`.  The driver is then in `CHECK_REQ` with
`numConnections = 0` and an empty `txStatus`, and however many further ticks
pass without a completion it stays in that very state: it never returns to
`IDLE`. -/
theorem check_req_with_no_connections (W w ip P s : Nat) :
    (run W initState
      [quiet 1 1 w ip P, quiet 1 1 w ip P, withOpen (quiet 1 1 w ip P) [⟨s, true⟩],
       quiet 1 1 w ip P, withTx (quiet 1 1 w ip P) [⟨s, 1⟩]]).iperfFsmState = .CHECK_REQ ∧
    (run W initState
      [quiet 1 1 w ip P, quiet 1 1 w ip P, withOpen (quiet 1 1 w ip P) [⟨s, true⟩],
       quiet 1 1 w ip P, withTx (quiet 1 1 w ip P) [⟨s, 1⟩]]).numConnections = 0 ∧
    (run W initState
      [quiet 1 1 w ip P, quiet 1 1 w ip P, withOpen (quiet 1 1 w ip P) [⟨s, true⟩],
       quiet 1 1 w ip P, withTx (quiet 1 1 w ip P) [⟨s, 1⟩]]).closeConnection = [] ∧
    ∀ d : Nat,
      run W
        (run W initState
          [quiet 1 1 w ip P, quiet 1 1 w ip P, withOpen (quiet 1 1 w ip P) [⟨s, true⟩],
           quiet 1 1 w ip P, withTx (quiet 1 1 w ip P) [⟨s, 1⟩]])
        (List.replicate d (quiet 1 1 w ip P)) =
      run W initState
        [quiet 1 1 w ip P, quiet 1 1 w ip P, withOpen (quiet 1 1 w ip P) [⟨s, true⟩],
         quiet 1 1 w ip P, withTx (quiet 1 1 w ip P) [⟨s, 1⟩]] := by
  have hst : (run W initState
      [quiet 1 1 w ip P, quiet 1 1 w ip P, withOpen (quiet 1 1 w ip P) [⟨s, true⟩],
       quiet 1 1 w ip P, withTx (quiet 1 1 w ip P) [⟨s, 1⟩]]) =
      { iperfFsmState := .CHECK_REQ
        currentSessionID := 1
        numConnections := 0
        wordCount := 0
        totalPkgCounter := 0
        totalSendTarget := P % 65536
        openConnection := [⟨ip, 5001⟩]
        openConStatusBuffer := []
        closeConnection := []
        txMetaDataBuffer := [⟨s, w * (W / 8)⟩]
        txDataBuffer := []
        txStatus := [] } := by
    simp [run, tick, inst_client, deliver, quiet, initState, withOpen, withTx, dec16]
  rw [hst]
  refine ⟨rfl, rfl, rfl, ?_⟩
  exact run_replicate_fixed W _ _ (tick_check_req_stall W _ _ rfl rfl rfl rfl)

/-- C4 at the failing input `numSessions = 1`, `pkgWordCount = 1`,
`TotalPkgPerConn = 2`, the open result successful and the send completion with
`error = 0`: the run returns to `IDLE` with `totalPkgCounter = 1` while
`totalSendTarget = 2`; two send requests were written for the session, one data
word was sent, and the session was closed. -/
theorem quota_not_completed (W ip s : Nat) :
    runUntilIdle W initState
      [quiet 1 1 1 ip 2, quiet 1 1 1 ip 2, withOpen (quiet 1 1 1 ip 2) [⟨s, true⟩],
       quiet 1 1 1 ip 2, withTx (quiet 1 1 1 ip 2) [⟨s, 0⟩],
       quiet 1 1 1 ip 2, quiet 1 1 1 ip 2] =
      some
        { iperfFsmState := .IDLE
          currentSessionID := s % 65536
          numConnections := 0
          wordCount := 0
          totalPkgCounter := 1
          totalSendTarget := 2
          openConnection := [⟨ip, 5001⟩]
          openConStatusBuffer := []
          closeConnection := [s % 65536]
          txMetaDataBuffer := [⟨s, 1 * (W / 8)⟩, ⟨s % 65536, 1 * (W / 8)⟩]
          txDataBuffer := [payloadWord W true]
          txStatus := [] } := by
  simp [runUntilIdle, tick, inst_client, deliver, quiet, initState, withOpen, withTx, dec16]

/-- C1 fails as stated: two sessions, 1 and 2, are both reported with
`success = true`; the send completion of session 1 has `error = 1`, that of
session 2 has `error = 0`.  The run returns to `IDLE` having written the single
close request 2: session 1 was active and is never closed. -/
theorem close_once_counterexample :
    (runUntilIdle 512 initState
      [quiet 1 2 1 9 1, quiet 1 2 1 9 1, quiet 1 2 1 9 1,
       withOpen (quiet 1 2 1 9 1) [⟨1, true⟩], withOpen (quiet 1 2 1 9 1) [⟨2, true⟩],
       quiet 1 2 1 9 1,
       withTx (quiet 1 2 1 9 1) [⟨1, 1⟩], withTx (quiet 1 2 1 9 1) [⟨2, 0⟩],
       quiet 1 2 1 9 1, quiet 1 2 1 9 1]).map (fun sf => sf.closeConnection) = some [2] ∧
    (runUntilIdle 512 initState
      [quiet 1 2 1 9 1, quiet 1 2 1 9 1, quiet 1 2 1 9 1,
       withOpen (quiet 1 2 1 9 1) [⟨1, true⟩], withOpen (quiet 1 2 1 9 1) [⟨2, true⟩],
       quiet 1 2 1 9 1,
       withTx (quiet 1 2 1 9 1) [⟨1, 1⟩], withTx (quiet 1 2 1 9 1) [⟨2, 0⟩],
       quiet 1 2 1 9 1, quiet 1 2 1 9 1]).map (fun sf => sf.closeConnection.count 1) =
      some 0 := by
  decide

/-- The count of close requests for runs without completions with
`error = 1`: over one run (from the `IDLE -> INIT_CON` transition until the
driver next returns to `IDLE`) with `numSessions = N` held constant, the close
requests written during the run are exactly as many as the open results with
`success = true` among the `N` consumed in `WAIT_CON`. -/
theorem close_requests_count (W N : Nat) (hN : N ≤ 65535)
    (s0 sf : ClientState) (t0 : TickInput) (ts : List TickInput)
    (h0 : s0.iperfFsmState = .IDLE) (hr : t0.runTx ≠ 0)
    (hall : ∀ t ∈ ts, t.numSessions = N)
    (hnf0 : ∀ r ∈ s0.txStatus, r.error ≠ 1)
    (hnf : ∀ t ∈ t0 :: ts, ∀ r ∈ t.txArrivals, r.error ≠ 1)
    (hrun : runUntilIdle W s0 (t0 :: ts) = some sf) :
    sf.iperfFsmState = .IDLE ∧
    ∃ cl : List Nat, sf.closeConnection = s0.closeConnection ++ cl ∧
      cl.length =
        successCount ((s0.openConStatusBuffer ++ openStream (t0 :: ts)).take N) := by
  have hs1 := tick_idle_start W s0 t0 h0 hr
  have hinv : RunInv N s0.closeConnection (s0.openConStatusBuffer ++ t0.openArrivals)
      (tick W s0 t0) := by
    rw [hs1]
    exact ⟨no_fatal_append _ _ hnf0 (hnf t0 (List.mem_cons_self _ _)),
      Or.inl ⟨rfl, rfl, rfl, rfl⟩⟩
  rw [runUntilIdle, if_neg (RunInv_not_idle _ _ _ _ hinv)] at hrun
  obtain ⟨hidle, C, cl, R, hD, hCN, hcl, hlen⟩ :=
    RunInv_runUntilIdle W N s0.closeConnection (by omega) sf ts _ _ hinv hall
      (fun u hu => hnf u (List.mem_cons_of_mem _ hu)) hrun
  refine ⟨hidle, cl, hcl, ?_⟩
  have htake : (s0.openConStatusBuffer ++ openStream (t0 :: ts)).take N = C := by
    rw [openStream_cons, ← List.append_assoc, hD, ← hCN, List.take_left']
    rfl
  rw [htake, hlen]

/-- The count of close requests on two sessions that both open and both
complete their packet: two close requests. -/
theorem close_requests_count_witness :
    ∃ cl : List Nat,
      ([1, 2] : List Nat) = ([] : List Nat) ++ cl ∧
      cl.length = successCount
        ((([] : List openStatus) ++ openStream
          (quiet 1 2 1 9 1 ::
            [quiet 1 2 1 9 1, quiet 1 2 1 9 1,
             withOpen (quiet 1 2 1 9 1) [⟨1, true⟩], withOpen (quiet 1 2 1 9 1) [⟨2, true⟩],
             quiet 1 2 1 9 1,
             withTx (quiet 1 2 1 9 1) [⟨1, 0⟩], quiet 1 2 1 9 1, quiet 1 2 1 9 1,
             withTx (quiet 1 2 1 9 1) [⟨2, 0⟩], quiet 1 2 1 9 1, quiet 1 2 1 9 1])).take 2) :=
  (close_requests_count 64 2 (by decide) initState
    { iperfFsmState := .IDLE
      currentSessionID := 2
      numConnections := 0
      wordCount := 0
      totalPkgCounter := 2
      totalSendTarget := 2
      openConnection := [⟨9, 5001⟩, ⟨9, 5001⟩]
      openConStatusBuffer := []
      closeConnection := [1, 2]
      txMetaDataBuffer := [⟨1, 8⟩, ⟨2, 8⟩]
      txDataBuffer := [payloadWord 64 true, payloadWord 64 true]
      txStatus := [] }
    (quiet 1 2 1 9 1)
    [quiet 1 2 1 9 1, quiet 1 2 1 9 1,
     withOpen (quiet 1 2 1 9 1) [⟨1, true⟩], withOpen (quiet 1 2 1 9 1) [⟨2, true⟩],
     quiet 1 2 1 9 1,
     withTx (quiet 1 2 1 9 1) [⟨1, 0⟩], quiet 1 2 1 9 1, quiet 1 2 1 9 1,
     withTx (quiet 1 2 1 9 1) [⟨2, 0⟩], quiet 1 2 1 9 1, quiet 1 2 1 9 1]
    rfl (by decide) (by decide) (by decide) (by decide) (by decide)).2

/-- C2 fails as stated: with `TotalPkgPerConn = 0` and one session, opened
successfully, whose seed request completes with `error = 0`, the driver is in
`CHECK_SIZE` with `totalSendTarget = 0` and `totalPkgCounter = 1`. -/
theorem totalPkgCounter_exceeds_target_counterexample :
    (run 512 initState
      [quiet 1 1 1 9 0, quiet 1 1 1 9 0, withOpen (quiet 1 1 1 9 0) [⟨4, true⟩],
       quiet 1 1 1 9 0, withTx (quiet 1 1 1 9 0) [⟨4, 0⟩],
       quiet 1 1 1 9 0]).iperfFsmState = .CHECK_SIZE ∧
    (run 512 initState
      [quiet 1 1 1 9 0, quiet 1 1 1 9 0, withOpen (quiet 1 1 1 9 0) [⟨4, true⟩],
       quiet 1 1 1 9 0, withTx (quiet 1 1 1 9 0) [⟨4, 0⟩],
       quiet 1 1 1 9 0]).totalSendTarget = 0 ∧
    ¬ ((run 512 initState
      [quiet 1 1 1 9 0, quiet 1 1 1 9 0, withOpen (quiet 1 1 1 9 0) [⟨4, true⟩],
       quiet 1 1 1 9 0, withTx (quiet 1 1 1 9 0) [⟨4, 0⟩],
       quiet 1 1 1 9 0]).totalPkgCounter ≤
      (run 512 initState
      [quiet 1 1 1 9 0, quiet 1 1 1 9 0, withOpen (quiet 1 1 1 9 0) [⟨4, true⟩],
       quiet 1 1 1 9 0, withTx (quiet 1 1 1 9 0) [⟨4, 0⟩],
       quiet 1 1 1 9 0]).totalSendTarget) := by
  decide

/-- The bound on `totalPkgCounter` for runs without completions with
`error = 1`: with
`numSessions = N` and `TotalPkgPerConn = P` held constant, `P >= 1`,
`N * P <= 65535`, and no send completion with `error = 1`, in every state of the
traffic phase `totalPkgCounter <= totalSendTarget`. -/
theorem totalPkgCounter_le_target (W N P : Nat) (hP : 1 ≤ P) (hNP : N * P ≤ 65535)
    (s0 : ClientState) (ts : List TickInput)
    (h0 : s0.iperfFsmState = .IDLE)
    (hnf0 : ∀ r ∈ s0.txStatus, r.error ≠ 1)
    (hall : ∀ t ∈ ts, t.numSessions = N ∧ t.TotalPkgPerConn = P ∧
      ∀ r ∈ t.txArrivals, r.error ≠ 1)
    (htr : inTraffic (run W s0 ts)) :
    (run W s0 ts).totalPkgCounter ≤ (run W s0 ts).totalSendTarget := by
  have hinit : QuotaInv N 0 s0 := by
    refine ⟨hnf0, ?_, ?_, ?_, ?_⟩ <;> simp [h0]
  obtain ⟨_, _, _, h_traffic, h_size⟩ :=
    QuotaInv_run W N P 0 (Nat.zero_le 1) hP hNP ts s0 hinit hall
  rcases htr with h | h | h | h
  · have := h_traffic (Or.inl h); omega
  · have := h_traffic (Or.inr (Or.inl h)); omega
  · have := h_traffic (Or.inr (Or.inr h)); omega
  · have := h_size h; omega

/-- The bound for runs without fatal completions, on two sessions with
`TotalPkgPerConn = 2`, in `CHECK_SIZE` after the first packet. -/
theorem totalPkgCounter_le_target_witness :
    (run 512 initState
      [quiet 1 2 1 9 2, quiet 1 2 1 9 2, quiet 1 2 1 9 2,
       withOpen (quiet 1 2 1 9 2) [⟨1, true⟩], withOpen (quiet 1 2 1 9 2) [⟨2, true⟩],
       quiet 1 2 1 9 2, withTx (quiet 1 2 1 9 2) [⟨1, 0⟩],
       quiet 1 2 1 9 2]).totalPkgCounter ≤
    (run 512 initState
      [quiet 1 2 1 9 2, quiet 1 2 1 9 2, quiet 1 2 1 9 2,
       withOpen (quiet 1 2 1 9 2) [⟨1, true⟩], withOpen (quiet 1 2 1 9 2) [⟨2, true⟩],
       quiet 1 2 1 9 2, withTx (quiet 1 2 1 9 2) [⟨1, 0⟩],
       quiet 1 2 1 9 2]).totalSendTarget :=
  totalPkgCounter_le_target 512 2 2 (by decide) (by decide) initState
    [quiet 1 2 1 9 2, quiet 1 2 1 9 2, quiet 1 2 1 9 2,
     withOpen (quiet 1 2 1 9 2) [⟨1, true⟩], withOpen (quiet 1 2 1 9 2) [⟨2, true⟩],
     quiet 1 2 1 9 2, withTx (quiet 1 2 1 9 2) [⟨1, 0⟩],
     quiet 1 2 1 9 2]
    rfl (by decide) (by decide) (Or.inr (Or.inr (Or.inr (by decide))))

/-- C11: in `CHECK_REQ`, with a completion `r` with `error = 2` at the head of
`txStatus`, one call of `inst_client` consumes it, writes exactly the send
request `appTxMeta(r.sessionID, pkgWordCount*(WIDTH/8))` to `txMetaDataBuffer`,
and changes nothing else: nothing is written to `openConnection`,
`closeConnection` or `txDataBuffer`, `numConnections` and `totalPkgCounter` are
unchanged, and the state is still `CHECK_REQ`. -/
theorem transient_error_reissues_request (W : Nat) (s : ClientState)
    (runTx numSessions pkgWordCount serverIpAddress TotalPkgPerConn : Nat)
    (r : appTxRsp) (rest : List appTxRsp)
    (hs : s.iperfFsmState = .CHECK_REQ) (hb : s.txStatus = r :: rest)
    (he : r.error = 2) :
    inst_client W s runTx numSessions pkgWordCount serverIpAddress TotalPkgPerConn =
      { s with
        txStatus := rest
        txMetaDataBuffer :=
          s.txMetaDataBuffer ++ [⟨r.sessionID, pkgWordCount * (W / 8)⟩] } := by
  simp only [inst_client, hs, hb, he]
  simp

/-- C11 on a state reached from the initial state: session 5 is open and its
seed request completes with `error = 2`. -/
theorem transient_error_reissues_request_witness :
    inst_client 64
      (deliver (run 64 initState
        [quiet 1 1 3 9 1, quiet 1 1 3 9 1, withOpen (quiet 1 1 3 9 1) [⟨5, true⟩],
         quiet 1 1 3 9 1]) [] [⟨5, 2⟩]) 1 1 3 9 1 =
      { iperfFsmState := .CHECK_REQ
        currentSessionID := 1
        numConnections := 1
        wordCount := 0
        totalPkgCounter := 0
        totalSendTarget := 1
        openConnection := [⟨9, 5001⟩]
        openConStatusBuffer := []
        closeConnection := []
        txMetaDataBuffer := [⟨5, 24⟩, ⟨5, 24⟩]
        txDataBuffer := []
        txStatus := [] } := by
  rw [transient_error_reissues_request 64 _ 1 1 3 9 1 ⟨5, 2⟩ [] (by decide) (by decide) rfl]
  decide

/-- C12: in `CHECK_REQ` with `numConnections >= 1`, with a completion `r` with
`error = 1` at the head of `txStatus`, one call of `inst_client` consumes it,
decreases `numConnections` by exactly 1, and changes nothing else: nothing is
written to `closeConnection`, `txMetaDataBuffer`, `txDataBuffer` or
`openConnection`, `totalPkgCounter` is unchanged, and the state is still
`CHECK_REQ`. -/
theorem fatal_error_drops_connection (W : Nat) (s : ClientState)
    (runTx numSessions pkgWordCount serverIpAddress TotalPkgPerConn : Nat)
    (r : appTxRsp) (rest : List appTxRsp)
    (hs : s.iperfFsmState = .CHECK_REQ) (hn : 1 ≤ s.numConnections)
    (hb : s.txStatus = r :: rest) (he : r.error = 1) :
    inst_client W s runTx numSessions pkgWordCount serverIpAddress TotalPkgPerConn =
      { s with
        txStatus := rest
        numConnections := s.numConnections - 1 } := by
  simp only [inst_client, hs, hb, he, dec16_pos _ hn]
  simp

/-- C12 on a state reached from the initial state: sessions 5 and 6 are open
and the seed request of session 5 completes with `error = 1`. -/
theorem fatal_error_drops_connection_witness :
    inst_client 64
      (deliver (run 64 initState
        [quiet 1 2 3 9 1, quiet 1 2 3 9 1, quiet 1 2 3 9 1,
         withOpen (quiet 1 2 3 9 1) [⟨5, true⟩, ⟨6, true⟩],
         quiet 1 2 3 9 1, quiet 1 2 3 9 1]) [] [⟨5, 1⟩]) 1 2 3 9 1 =
      { iperfFsmState := .CHECK_REQ
        currentSessionID := 2
        numConnections := 1
        wordCount := 0
        totalPkgCounter := 0
        totalSendTarget := 2
        openConnection := [⟨9, 5001⟩, ⟨9, 5001⟩]
        openConStatusBuffer := []
        closeConnection := []
        txMetaDataBuffer := [⟨5, 24⟩, ⟨6, 24⟩]
        txDataBuffer := []
        txStatus := [] } := by
  rw [fatal_error_drops_connection 64 _ 1 2 3 9 1 ⟨5, 1⟩ [] (by decide) (by decide)
    (by decide) rfl]
  decide

/-- C13: in `IDLE` with `runTx = 0`, whatever the other inputs and the contents
of the streams, one call of `inst_client` returns the state it was given:
no static changes, nothing is read from an input stream and nothing is written
to an output stream.  Hence any number of such calls, with any inputs, equals
no call: after a sequence of ticks with `runTx = 0` the only difference is
that the values that arrived wait unread in the two input streams. -/
theorem idle_without_run_is_noop (W : Nat) (s : ClientState)
    (hs : s.iperfFsmState = .IDLE) :
    (∀ numSessions pkgWordCount serverIpAddress TotalPkgPerConn : Nat,
      inst_client W s 0 numSessions pkgWordCount serverIpAddress TotalPkgPerConn = s) ∧
    (∀ ts : List TickInput, (∀ t ∈ ts, t.runTx = 0) →
      run W s ts =
        { s with
          openConStatusBuffer := s.openConStatusBuffer ++ openStream ts
          txStatus := s.txStatus ++ txStream ts }) := by
  constructor
  · intro N w ip P
    simp [inst_client, hs]
  · intro ts
    induction ts generalizing s with
    | nil =>
      intro _
      simp [run, openStream_nil, txStream_nil]
    | cons t ts ih =>
      intro hall
      have h0 := hall t (List.mem_cons_self _ _)
      rw [run, tick_idle_stay W s t hs h0,
        ih (deliver s t.openArrivals t.txArrivals) hs
          (fun u hu => hall u (List.mem_cons_of_mem _ hu))]
      simp [deliver, openStream_cons, txStream_cons]

/-- C13 on the initial state: three calls with `runTx = 0` and differing other
inputs, with values waiting in both input streams. -/
theorem idle_without_run_is_noop_witness :
    inst_client 64 { initState with openConStatusBuffer := [⟨1, true⟩], txStatus := [⟨1, 0⟩] }
      0 7 8 9 10 =
      { initState with openConStatusBuffer := [⟨1, true⟩], txStatus := [⟨1, 0⟩] } ∧
    run 64 { initState with openConStatusBuffer := [⟨1, true⟩], txStatus := [⟨1, 0⟩] }
      [quiet 0 1 2 3 4, withOpen (quiet 0 5 6 7 8) [⟨2, true⟩], withTx (quiet 0 9 9 9 9) [⟨2, 0⟩]]
      = { initState with
          openConStatusBuffer := [⟨1, true⟩, ⟨2, true⟩]
          txStatus := [⟨1, 0⟩, ⟨2, 0⟩] } := by
  have h := idle_without_run_is_noop 64
    { initState with openConStatusBuffer := [⟨1, true⟩], txStatus := [⟨1, 0⟩] } rfl
  refine ⟨h.1 7 8 9 10, ?_⟩
  rw [h.2 _ (by decide)]
  decide

/-- Outside `WRITE_PKG` the word counter is 0: one tick keeps this. -/
theorem wordCount_zero_tick (W : Nat) (s : ClientState) (t : TickInput)
    (hinv : s.iperfFsmState ≠ .WRITE_PKG → s.wordCount = 0) :
    (tick W s t).iperfFsmState ≠ .WRITE_PKG → (tick W s t).wordCount = 0 := by
  cases hst : s.iperfFsmState with
  | IDLE =>
    have hw := hinv (by rw [hst]; simp)
    by_cases hr : t.runTx = 0
    · rw [tick_idle_stay W s t hst hr]; intro _; exact hw
    · rw [tick_idle_start W s t hst hr]; intro _; exact hw
  | INIT_CON =>
    have hw := hinv (by rw [hst]; simp)
    by_cases hd : (s.currentSessionID + 1) % 65536 = t.numSessions
    · rw [tick_init_con_done W s t hst hd]; intro _; exact hw
    · rw [tick_init_con_stay W s t hst hd]; intro _; exact hw
  | WAIT_CON =>
    have hw := hinv (by rw [hst]; simp)
    by_cases hd : s.currentSessionID = t.numSessions
    · rw [tick_wait_con_leave W s t hst hd]
      split <;> (intro _; exact hw)
    · cases hb : s.openConStatusBuffer ++ t.openArrivals with
      | nil => rw [tick_wait_con_stall W s t hst hd hb]; intro _; exact hw
      | cons r rest =>
        rw [tick_wait_con_read W s t r rest hst hd hb]
        split <;> (intro _; exact hw)
  | CONSTRUCT_HEADER =>
    have hw := hinv (by rw [hst]; simp)
    rw [tick_construct_header W s t hst]; intro _; exact hw
  | INIT_RUN =>
    have hw := hinv (by rw [hst]; simp)
    rw [tick_init_run W s t hst]; intro _; exact hw
  | START_PKG =>
    rw [tick_start_pkg W s t hst]
    split
    · intro _; rfl
    · intro h; exact absurd rfl h
  | CHECK_REQ =>
    have hw := hinv (by rw [hst]; simp)
    cases hb : s.txStatus ++ t.txArrivals with
    | nil => rw [tick_check_req_empty W s t hst hb]; intro _; exact hw
    | cons r rest =>
      rw [tick_check_req_read W s t r rest hst hb]
      split
      · intro _; exact hw
      · split <;> (intro _; exact hw)
  | WRITE_PKG =>
    rw [tick_write_pkg W s t hst]
    split
    · intro _; rfl
    · intro h; exact absurd hst h
  | CHECK_SIZE =>
    have hw := hinv (by rw [hst]; simp)
    rw [tick_check_size W s t hst]
    split
    · split <;> (intro _; exact hw)
    · intro _; exact hw

/-- Outside `WRITE_PKG` the word counter is 0 in every state reached by a run
from a state with this property. -/
theorem wordCount_zero_run (W : Nat) :
    ∀ (ts : List TickInput) (s : ClientState),
      (s.iperfFsmState ≠ .WRITE_PKG → s.wordCount = 0) →
      (run W s ts).iperfFsmState ≠ .WRITE_PKG → (run W s ts).wordCount = 0 := by
  intro ts
  induction ts with
  | nil => intro s h; exact h
  | cons t ts ih =>
    intro s h
    exact ih (tick W s t) (wordCount_zero_tick W s t h)

/-- C18: at every `IDLE -> INIT_CON` transition reachable from the initial
state, whatever the inputs of the ticks before it, right after the tick all
five counters are zero: `currentSessionID`, `numConnections`,
`totalPkgCounter`, `totalSendTarget`, and `wordCount` (which is 0 in every
reachable `IDLE` state, although the `IDLE` branch does not assign it). -/
theorem counters_zero_after_start (W : Nat) (ts : List TickInput) (t : TickInput)
    (hidle : (run W initState ts).iperfFsmState = .IDLE) (hr : t.runTx ≠ 0) :
    (tick W (run W initState ts) t).iperfFsmState = .INIT_CON ∧
    (tick W (run W initState ts) t).currentSessionID = 0 ∧
    (tick W (run W initState ts) t).numConnections = 0 ∧
    (tick W (run W initState ts) t).totalPkgCounter = 0 ∧
    (tick W (run W initState ts) t).totalSendTarget = 0 ∧
    (tick W (run W initState ts) t).wordCount = 0 := by
  have hw : (run W initState ts).wordCount = 0 :=
    wordCount_zero_run W ts initState (fun _ => rfl) (by rw [hidle]; simp)
  rw [tick_idle_start W _ t hidle hr]
  exact ⟨rfl, rfl, rfl, rfl, rfl, hw⟩

/-- C18 on the second start: a complete run of one session with a three-word
packet, after which `runTx` starts the next run. -/
theorem counters_zero_after_start_witness :
    (tick 64
      (run 64 initState
        [quiet 1 1 3 9 1, quiet 1 1 3 9 1, withOpen (quiet 1 1 3 9 1) [⟨5, true⟩],
         quiet 1 1 3 9 1, withTx (quiet 1 1 3 9 1) [⟨5, 0⟩],
         quiet 1 1 3 9 1, quiet 1 1 3 9 1, quiet 1 1 3 9 1, quiet 1 1 3 9 1])
      (quiet 1 1 3 9 1)).wordCount = 0 ∧
    (tick 64
      (run 64 initState
        [quiet 1 1 3 9 1, quiet 1 1 3 9 1, withOpen (quiet 1 1 3 9 1) [⟨5, true⟩],
         quiet 1 1 3 9 1, withTx (quiet 1 1 3 9 1) [⟨5, 0⟩],
         quiet 1 1 3 9 1, quiet 1 1 3 9 1, quiet 1 1 3 9 1, quiet 1 1 3 9 1])
      (quiet 1 1 3 9 1)).iperfFsmState = .INIT_CON :=
  have h := counters_zero_after_start 64
    [quiet 1 1 3 9 1, quiet 1 1 3 9 1, withOpen (quiet 1 1 3 9 1) [⟨5, true⟩],
     quiet 1 1 3 9 1, withTx (quiet 1 1 3 9 1) [⟨5, 0⟩],
     quiet 1 1 3 9 1, quiet 1 1 3 9 1, quiet 1 1 3 9 1, quiet 1 1 3 9 1]
    (quiet 1 1 3 9 1) (by decide) (by decide)
  ⟨h.2.2.2.2.2, h.1⟩

/-- C17 at the failing input.  Sessions 1 and 2 open with `TotalPkgPerConn = 2`
and one-word packets.  Session 1 completes its seed request and the request
issued after it and is closed while a third request for it is outstanding; the
seed request of session 2 fails with `error = 1`, which leaves the driver in
`CHECK_REQ` with `numConnections = 0`.  If the outstanding request then fails
with `error = 1`, the decrement in `CHECK_REQ` takes `numConnections` from 0 to
65535.  If instead it and its successor complete with `error = 0`, the driver
reaches `CHECK_SIZE` with `numConnections = 0` and the quota met, and the
decrement in `CHECK_SIZE` takes `numConnections` from 0 to 65535. -/
theorem numConnections_underflow :
    (run 64 initState
      [quiet 1 2 1 9 2, quiet 1 2 1 9 2, quiet 1 2 1 9 2,
       withOpen (quiet 1 2 1 9 2) [⟨1, true⟩], withOpen (quiet 1 2 1 9 2) [⟨2, true⟩],
       quiet 1 2 1 9 2,
       withTx (quiet 1 2 1 9 2) [⟨1, 0⟩], quiet 1 2 1 9 2, quiet 1 2 1 9 2,
       withTx (quiet 1 2 1 9 2) [⟨1, 0⟩], quiet 1 2 1 9 2, quiet 1 2 1 9 2,
       withTx (quiet 1 2 1 9 2) [⟨2, 1⟩]]) =
      { iperfFsmState := .CHECK_REQ
        currentSessionID := 1
        numConnections := 0
        wordCount := 0
        totalPkgCounter := 2
        totalSendTarget := 4
        openConnection := [⟨9, 5001⟩, ⟨9, 5001⟩]
        openConStatusBuffer := []
        closeConnection := [1]
        txMetaDataBuffer := [⟨1, 8⟩, ⟨2, 8⟩, ⟨1, 8⟩, ⟨1, 8⟩]
        txDataBuffer := [payloadWord 64 true, payloadWord 64 true]
        txStatus := [] } ∧
    (run 64 initState
      [quiet 1 2 1 9 2, quiet 1 2 1 9 2, quiet 1 2 1 9 2,
       withOpen (quiet 1 2 1 9 2) [⟨1, true⟩], withOpen (quiet 1 2 1 9 2) [⟨2, true⟩],
       quiet 1 2 1 9 2,
       withTx (quiet 1 2 1 9 2) [⟨1, 0⟩], quiet 1 2 1 9 2, quiet 1 2 1 9 2,
       withTx (quiet 1 2 1 9 2) [⟨1, 0⟩], quiet 1 2 1 9 2, quiet 1 2 1 9 2,
       withTx (quiet 1 2 1 9 2) [⟨2, 1⟩],
       withTx (quiet 1 2 1 9 2) [⟨1, 1⟩]]).numConnections = 65535 ∧
    (run 64 initState
      [quiet 1 2 1 9 2, quiet 1 2 1 9 2, quiet 1 2 1 9 2,
       withOpen (quiet 1 2 1 9 2) [⟨1, true⟩], withOpen (quiet 1 2 1 9 2) [⟨2, true⟩],
       quiet 1 2 1 9 2,
       withTx (quiet 1 2 1 9 2) [⟨1, 0⟩], quiet 1 2 1 9 2, quiet 1 2 1 9 2,
       withTx (quiet 1 2 1 9 2) [⟨1, 0⟩], quiet 1 2 1 9 2, quiet 1 2 1 9 2,
       withTx (quiet 1 2 1 9 2) [⟨2, 1⟩],
       withTx (quiet 1 2 1 9 2) [⟨1, 0⟩], quiet 1 2 1 9 2, quiet 1 2 1 9 2,
       withTx (quiet 1 2 1 9 2) [⟨1, 0⟩], quiet 1 2 1 9 2]) =
      { iperfFsmState := .CHECK_SIZE
        currentSessionID := 1
        numConnections := 0
        wordCount := 0
        totalPkgCounter := 4
        totalSendTarget := 4
        openConnection := [⟨9, 5001⟩, ⟨9, 5001⟩]
        openConStatusBuffer := []
        closeConnection := [1]
        txMetaDataBuffer := [⟨1, 8⟩, ⟨2, 8⟩, ⟨1, 8⟩, ⟨1, 8⟩, ⟨1, 8⟩, ⟨1, 8⟩]
        txDataBuffer :=
          [payloadWord 64 true, payloadWord 64 true, payloadWord 64 true, payloadWord 64 true]
        txStatus := [] } ∧
    (run 64 initState
      [quiet 1 2 1 9 2, quiet 1 2 1 9 2, quiet 1 2 1 9 2,
       withOpen (quiet 1 2 1 9 2) [⟨1, true⟩], withOpen (quiet 1 2 1 9 2) [⟨2, true⟩],
       quiet 1 2 1 9 2,
       withTx (quiet 1 2 1 9 2) [⟨1, 0⟩], quiet 1 2 1 9 2, quiet 1 2 1 9 2,
       withTx (quiet 1 2 1 9 2) [⟨1, 0⟩], quiet 1 2 1 9 2, quiet 1 2 1 9 2,
       withTx (quiet 1 2 1 9 2) [⟨2, 1⟩],
       withTx (quiet 1 2 1 9 2) [⟨1, 0⟩], quiet 1 2 1 9 2, quiet 1 2 1 9 2,
       withTx (quiet 1 2 1 9 2) [⟨1, 0⟩], quiet 1 2 1 9 2,
       quiet 1 2 1 9 2]).numConnections = 65535 := by
  decide

/-- A tick depends on the scalar ports only as far as its state reads them. -/
theorem tick_congr_where_read (W : Nat) (s : ClientState) (t u : TickInput)
    (h : agreeWhereRead s.iperfFsmState t u) : tick W s t = tick W s u := by
  obtain ⟨ho, hx, hst⟩ := h
  cases hs : s.iperfFsmState <;> rw [hs] at hst <;>
    simp only [tick, inst_client, deliver, hs, ho, hx] <;> simp_all

/-- C15 fails as stated: two executions from the initial state present the same
inputs on the tick of the `IDLE -> INIT_CON` transition (`numSessions = 1`) and
no stream input at all; on the next tick the first presents `numSessions = 1`,
the second `numSessions = 2`.  The first is then in `WAIT_CON`, the second
still in `INIT_CON`. -/
theorem config_latched_counterexample :
    (run 64 initState [quiet 1 1 1 9 1, quiet 1 1 1 9 1]).iperfFsmState = .WAIT_CON ∧
    (run 64 initState [quiet 1 1 1 9 1, quiet 1 2 1 9 1]).iperfFsmState = .INIT_CON ∧
    (quiet 1 2 1 9 1).openArrivals = (quiet 1 1 1 9 1).openArrivals ∧
    (quiet 1 2 1 9 1).txArrivals = (quiet 1 1 1 9 1).txArrivals := by
  decide

/-- C15, amended: the configuration is read on the ticks that use it, not
latched.  Two executions from the same state whose inputs agree, on every
tick, on the stream arrivals and on those scalar ports that the state of that
tick reads (`agreeWhereRead`) pass through the same sequence of states, output
streams included; what the ports present on other ticks, the tick of the
`IDLE -> INIT_CON` transition among them, has no effect. -/
theorem same_trace_when_inputs_agree_where_read (W : Nat) :
    ∀ (ts us : List TickInput) (s : ClientState),
      agreeAlong W s ts us → trace W s ts = trace W s us := by
  intro ts
  induction ts with
  | nil =>
    intro us s h
    cases us with
    | nil => rfl
    | cons u us => exact absurd h (by simp [agreeAlong])
  | cons t ts ih =>
    intro us s h
    cases us with
    | nil => exact absurd h (by simp [agreeAlong])
    | cons u us =>
      obtain ⟨h1, h2⟩ := h
      have ht := tick_congr_where_read W s t u h1
      simp only [trace]
      rw [← ht, ih us (tick W s t) h2]

/-- C15 amended, on a run of one session: the two executions present different
configurations on the tick of the `IDLE -> INIT_CON` transition and on the
tick in `CHECK_SIZE`, and the same on all others. -/
theorem same_trace_when_inputs_agree_where_read_witness :
    trace 64 initState
      [quiet 1 1 1 9 1, quiet 1 1 1 9 1, withOpen (quiet 1 1 1 9 1) [⟨5, true⟩],
       quiet 1 1 1 9 1, withTx (quiet 1 1 1 9 1) [⟨5, 0⟩], quiet 1 1 1 9 1,
       quiet 1 1 1 9 1] =
    trace 64 initState
      [quiet 1 7 7 7 7, quiet 1 1 1 9 1, withOpen (quiet 1 1 1 9 1) [⟨5, true⟩],
       quiet 1 1 1 9 1, withTx (quiet 1 1 1 9 1) [⟨5, 0⟩], quiet 1 1 1 9 1,
       quiet 0 8 8 8 8] :=
  same_trace_when_inputs_agree_where_read 64 _ _ initState (by
    simp [agreeAlong, agreeWhereRead, tick, inst_client, deliver, quiet, withOpen, withTx,
      initState])

/-- Once `totalSendTarget <= numConnections`, every one-word packet that
completes with `error = 0` is followed by a close request: `m` such packets,
each taking the three ticks `CHECK_REQ`, `START_PKG`, `CHECK_SIZE`, count `m`
packets and take `m` connections off `numConnections`. -/
theorem run_closing_packets (W sid a b d e : Nat) (hsid : sid < 65536) :
    ∀ (m : Nat) (s : ClientState),
      s.iperfFsmState = .CHECK_REQ → s.txStatus = [] → s.currentSessionID = sid →
      s.wordCount = 0 → m + 1 ≤ s.numConnections → s.totalSendTarget + m ≤ s.numConnections + 1 →
      s.totalPkgCounter + m ≤ 65535 →
      run W s
        (List.replicate m
          [withTx (quiet a b 1 d e) [⟨sid, 0⟩], quiet a b 1 d e, quiet a b 1 d e]).flatten =
        { s with
          numConnections := s.numConnections - m
          totalPkgCounter := s.totalPkgCounter + m
          closeConnection := s.closeConnection ++ List.replicate m sid
          txDataBuffer := s.txDataBuffer ++ List.replicate m (payloadWord W true) } := by
  intro m
  induction m with
  | zero =>
    intro s _ _ _ _ _ _ _
    simp [run]
  | succ m ih =>
    intro s hs hb hc hw hn hT hp
    have h1 : tick W s (withTx (quiet a b 1 d e) [⟨sid, 0⟩]) =
        { s with iperfFsmState := .START_PKG } := by
      rw [tick_check_req_read W s _ ⟨sid, 0⟩ [] hs (by simp [hb, withTx, quiet]), if_pos rfl]
      cases s
      simp_all [quiet, withTx, Nat.mod_eq_of_lt hsid]
    have h2 : tick W { s with iperfFsmState := .START_PKG } (quiet a b 1 d e) =
        { s with
          iperfFsmState := .CHECK_SIZE
          wordCount := 0
          totalPkgCounter := s.totalPkgCounter + 1
          txDataBuffer := s.txDataBuffer ++ [payloadWord W true] } := by
      rw [tick_start_pkg W _ _ rfl, if_pos (by simp [quiet])]
      have hno : ¬ ((s.totalPkgCounter : Int) < (s.totalSendTarget : Int) - (s.numConnections : Int)) := by
        omega
      simp only [if_neg hno, quiet, List.append_nil]
      rw [Nat.mod_eq_of_lt (by omega)]
    have h3 : tick W
        { s with
          iperfFsmState := .CHECK_SIZE
          wordCount := 0
          totalPkgCounter := s.totalPkgCounter + 1
          txDataBuffer := s.txDataBuffer ++ [payloadWord W true] } (quiet a b 1 d e) =
        { s with
          iperfFsmState := .CHECK_REQ
          wordCount := 0
          numConnections := s.numConnections - 1
          totalPkgCounter := s.totalPkgCounter + 1
          closeConnection := s.closeConnection ++ [sid]
          txDataBuffer := s.txDataBuffer ++ [payloadWord W true] } := by
      rw [tick_check_size W _ _ rfl]
      have hyes : ((s.totalPkgCounter + 1 : Nat) : Int) ≥
          (s.totalSendTarget : Int) - (s.numConnections : Int) := by
        omega
      have hd : dec16 s.numConnections = s.numConnections - 1 := dec16_pos _ (by omega)
      simp only [if_pos hyes, hd]
      rw [if_neg (by omega)]
      simp only [quiet, List.append_nil, hc]
    rw [List.replicate_succ, List.flatten_cons, run_append]
    simp only [run]
    rw [h1, h2, h3]
    refine Eq.trans (ih _ rfl hb hc rfl (by simp only; omega) (by simp only; omega)
      (by simp only; omega)) ?_
    simp only [List.replicate_succ, List.append_assoc, List.singleton_append,
      ClientState.mk.injEq, true_and, and_true]
    exact ⟨hs.symm, by omega, hw.symm, by omega⟩

/-- One tick without a fatal arrival keeps `CounterInv` and, unless it is the
`IDLE -> INIT_CON` reset, does not decrease `totalPkgCounter`. -/
theorem CounterInv_tick (W : Nat) (s : ClientState) (t : TickInput)
    (hinv : CounterInv s) (htx : ∀ r ∈ t.txArrivals, r.error ≠ 1) :
    CounterInv (tick W s t) ∧
    (¬ (s.iperfFsmState = .IDLE ∧ t.runTx ≠ 0) →
      s.totalPkgCounter ≤ (tick W s t).totalPkgCounter) := by
  obtain ⟨h_tx, h_pre, h_traffic, h_size⟩ := hinv
  have h_all := no_fatal_append _ _ h_tx htx
  cases hst : s.iperfFsmState with
  | IDLE =>
    by_cases hr : t.runTx = 0
    · rw [tick_idle_stay W s t hst hr]
      refine ⟨?_, fun _ => le_refl _⟩
      simp only [CounterInv, deliver]
      refine ⟨h_all, ?_, ?_, ?_⟩ <;> simp [hst]
    · rw [tick_idle_start W s t hst hr]
      refine ⟨?_, fun h => absurd ⟨rfl, hr⟩ h⟩
      simp only [CounterInv]
      refine ⟨h_all, ?_, ?_, ?_⟩ <;> simp
  | INIT_CON =>
    obtain ⟨hc, hn⟩ := h_pre (Or.inl hst)
    by_cases hd : (s.currentSessionID + 1) % 65536 = t.numSessions
    · rw [tick_init_con_done W s t hst hd]
      refine ⟨?_, fun _ => le_refl _⟩
      simp only [CounterInv]
      refine ⟨h_all, ?_, ?_, ?_⟩ <;> simp [hc, hn]
    · rw [tick_init_con_stay W s t hst hd]
      refine ⟨?_, fun _ => le_refl _⟩
      simp only [CounterInv]
      refine ⟨h_all, ?_, ?_, ?_⟩ <;> simp [hc, hn, hst]
  | WAIT_CON =>
    obtain ⟨hc, hn⟩ := h_pre (Or.inr hst)
    by_cases hd : s.currentSessionID = t.numSessions
    · rw [tick_wait_con_leave W s t hst hd]
      split
      · rename_i hpos
        refine ⟨?_, fun _ => le_refl _⟩
        simp only [CounterInv]
        refine ⟨h_all, by simp, fun _ => ⟨hpos, by omega, Nat.mod_lt _ (by norm_num)⟩, by simp⟩
      · refine ⟨?_, fun _ => le_refl _⟩
        simp only [CounterInv]
        refine ⟨h_all, ?_, ?_, ?_⟩ <;> simp
    · cases hb : s.openConStatusBuffer ++ t.openArrivals with
      | nil =>
        rw [tick_wait_con_stall W s t hst hd hb]
        refine ⟨?_, fun _ => le_refl _⟩
        simp only [CounterInv, hst]
        refine ⟨h_all, fun _ => ⟨hc, hn⟩, by simp, by simp⟩
      | cons r rest =>
        rw [tick_wait_con_read W s t r rest hst hd hb]
        split
        · refine ⟨?_, fun _ => le_refl _⟩
          simp only [CounterInv, hst]
          refine ⟨h_all, fun _ => ⟨hc, Nat.mod_lt _ (by norm_num)⟩, by simp, by simp⟩
        · refine ⟨?_, fun _ => le_refl _⟩
          simp only [CounterInv, hst]
          refine ⟨h_all, fun _ => ⟨hc, hn⟩, by simp, by simp⟩
  | CONSTRUCT_HEADER =>
    rw [tick_construct_header W s t hst]
    refine ⟨?_, fun _ => le_refl _⟩
    simp only [CounterInv, deliver]
    refine ⟨h_all, ?_, ?_, ?_⟩ <;> simp [hst]
  | INIT_RUN =>
    rw [tick_init_run W s t hst]
    refine ⟨?_, fun _ => le_refl _⟩
    simp only [CounterInv, deliver]
    refine ⟨h_all, ?_, ?_, ?_⟩ <;> simp [hst]
  | START_PKG =>
    obtain ⟨hn, hc, hT⟩ := h_traffic (Or.inr (Or.inl hst))
    have hm : (s.totalPkgCounter + 1) % 65536 = s.totalPkgCounter + 1 :=
      Nat.mod_eq_of_lt (by omega)
    rw [tick_start_pkg W s t hst]
    split
    · refine ⟨?_, fun _ => by simp only [hm]; omega⟩
      simp only [CounterInv, hm]
      refine ⟨h_all, by simp, by simp, fun _ => ⟨hn, by omega, hT⟩⟩
    · refine ⟨?_, fun _ => le_refl _⟩
      simp only [CounterInv]
      refine ⟨h_all, by simp, fun _ => ⟨hn, hc, hT⟩, by simp⟩
  | CHECK_REQ =>
    obtain ⟨hn, hc, hT⟩ := h_traffic (Or.inl hst)
    cases hb : s.txStatus ++ t.txArrivals with
    | nil =>
      rw [tick_check_req_empty W s t hst hb]
      refine ⟨?_, fun _ => le_refl _⟩
      simp only [CounterInv, deliver, hst]
      refine ⟨h_all, by simp, fun _ => ⟨hn, hc, hT⟩, by simp⟩
    | cons r rest =>
      have hr1 : r.error ≠ 1 := h_all r (by rw [hb]; exact List.mem_cons_self _ _)
      have hrest : ∀ x ∈ rest, x.error ≠ 1 :=
        fun x hx => h_all x (by rw [hb]; exact List.mem_cons_of_mem _ hx)
      rw [tick_check_req_read W s t r rest hst hb]
      by_cases h0 : r.error = 0
      · rw [if_pos h0]
        refine ⟨?_, fun _ => le_refl _⟩
        simp only [CounterInv]
        refine ⟨hrest, by simp, fun _ => ⟨hn, hc, hT⟩, by simp⟩
      · rw [if_neg h0, if_neg hr1]
        refine ⟨?_, fun _ => le_refl _⟩
        simp only [CounterInv, hst]
        refine ⟨hrest, by simp, fun _ => ⟨hn, hc, hT⟩, by simp⟩
  | WRITE_PKG =>
    obtain ⟨hn, hc, hT⟩ := h_traffic (Or.inr (Or.inr hst))
    have hm : (s.totalPkgCounter + 1) % 65536 = s.totalPkgCounter + 1 :=
      Nat.mod_eq_of_lt (by omega)
    rw [tick_write_pkg W s t hst]
    split
    · refine ⟨?_, fun _ => by simp only [hm]; omega⟩
      simp only [CounterInv, hm]
      refine ⟨h_all, by simp, by simp, fun _ => ⟨hn, by omega, hT⟩⟩
    · refine ⟨?_, fun _ => le_refl _⟩
      simp only [CounterInv, hst]
      refine ⟨h_all, by simp, fun _ => ⟨hn, hc, hT⟩, by simp⟩
  | CHECK_SIZE =>
    obtain ⟨hn, hc, hT⟩ := h_size hst
    have hd : dec16 s.numConnections = s.numConnections - 1 := dec16_pos _ hn
    rw [tick_check_size W s t hst]
    split
    · split
      · refine ⟨?_, fun _ => le_refl _⟩
        simp only [CounterInv]
        refine ⟨h_all, ?_, ?_, ?_⟩ <;> simp
      · rename_i hne
        refine ⟨?_, fun _ => le_refl _⟩
        simp only [CounterInv, hd]
        rw [hd] at hne
        refine ⟨h_all, by simp, fun _ => ⟨by omega, by omega, hT⟩, by simp⟩
    · rename_i hlt
      refine ⟨?_, fun _ => le_refl _⟩
      simp only [CounterInv]
      refine ⟨h_all, by simp, fun _ => ⟨hn, by omega, hT⟩, by simp⟩

/-- `CounterInv` holds along every execution without fatal arrivals. -/
theorem CounterInv_run (W : Nat) :
    ∀ (ts : List TickInput) (s : ClientState), CounterInv s →
      (∀ t ∈ ts, ∀ r ∈ t.txArrivals, r.error ≠ 1) → CounterInv (run W s ts) := by
  intro ts
  induction ts with
  | nil => intro s h _; exact h
  | cons t ts ih =>
    intro s h hall
    exact ih _ (CounterInv_tick W s t h (hall t (List.mem_cons_self _ _))).1
      (fun u hu => hall u (List.mem_cons_of_mem _ hu))

/-- Along every execution from the initial state in which no send completion
has `error = 1`, whatever the configuration presented on each tick, a tick
other than the `IDLE -> INIT_CON` reset does not decrease `totalPkgCounter`. -/
theorem totalPkgCounter_monotone_without_fatal (W : Nat) (ts : List TickInput) (t : TickInput)
    (hall : ∀ u ∈ ts ++ [t], ∀ r ∈ u.txArrivals, r.error ≠ 1)
    (hnr : ¬ ((run W initState ts).iperfFsmState = .IDLE ∧ t.runTx ≠ 0)) :
    (run W initState ts).totalPkgCounter ≤ (tick W (run W initState ts) t).totalPkgCounter := by
  have h0 : CounterInv initState := by
    simp only [CounterInv]
    refine ⟨by simp [initState], ?_, ?_, ?_⟩ <;> simp [initState]
  have hinv := CounterInv_run W ts initState h0
    (fun u hu => hall u (List.mem_append_left _ hu))
  exact (CounterInv_tick W _ t hinv
    (hall t (List.mem_append_right _ (List.mem_singleton_self t)))).2 hnr

/-- From `CHECK_REQ`, a completion with `error = 0` followed by a one-word
packet: the first tick leaves the counter as it is and enters `START_PKG`, the
second increments it modulo `2^16`. -/
theorem check_req_then_start (W : Nat) (s : ClientState) (a b : TickInput)
    (r : appTxRsp) (rest : List appTxRsp)
    (hs : s.iperfFsmState = .CHECK_REQ) (hb : s.txStatus ++ a.txArrivals = r :: rest)
    (hr : r.error = 0) (hw : 1 = b.pkgWordCount) :
    (run W s [a]).iperfFsmState = .START_PKG ∧
    (run W s [a]).totalPkgCounter = s.totalPkgCounter ∧
    (tick W (run W s [a]) b).totalPkgCounter = (s.totalPkgCounter + 1) % 65536 := by
  simp only [run]
  rw [tick_check_req_read W s a r rest hs hb, if_pos hr]
  refine ⟨rfl, rfl, ?_⟩
  rw [tick_start_pkg W _ b rfl, if_pos hw]

/-- The wrap of `totalPkgCounter` on a short configuration, with completions
that answer no request.  One session opens (`TotalPkgPerConn = 1`,
one-word packets); its seed request fails with `error = 1`, which leaves the
driver in `CHECK_REQ` with `numConnections = 0`; from then on completions with
`error = 0` keep arriving, although the driver has no request outstanding.  The first of them wraps `numConnections` to 65535
in `CHECK_SIZE`; after 65534 further packets the driver is in `START_PKG` with
`totalPkgCounter = 65535`, and that tick, which is not the `IDLE -> INIT_CON`
reset, takes `totalPkgCounter` to 0. -/
theorem totalPkgCounter_wraps :
    (run 64 initState
      ([quiet 1 1 1 9 1, quiet 1 1 1 9 1, withOpen (quiet 1 1 1 9 1) [⟨1, true⟩],
        quiet 1 1 1 9 1, withTx (quiet 1 1 1 9 1) [⟨1, 1⟩],
        withTx (quiet 1 1 1 9 1) [⟨1, 0⟩], quiet 1 1 1 9 1, quiet 1 1 1 9 1] ++
       (List.replicate 65534
          [withTx (quiet 1 1 1 9 1) [⟨1, 0⟩], quiet 1 1 1 9 1, quiet 1 1 1 9 1]).flatten ++
       [withTx (quiet 1 1 1 9 1) [⟨1, 0⟩]])).iperfFsmState = .START_PKG ∧
    (run 64 initState
      ([quiet 1 1 1 9 1, quiet 1 1 1 9 1, withOpen (quiet 1 1 1 9 1) [⟨1, true⟩],
        quiet 1 1 1 9 1, withTx (quiet 1 1 1 9 1) [⟨1, 1⟩],
        withTx (quiet 1 1 1 9 1) [⟨1, 0⟩], quiet 1 1 1 9 1, quiet 1 1 1 9 1] ++
       (List.replicate 65534
          [withTx (quiet 1 1 1 9 1) [⟨1, 0⟩], quiet 1 1 1 9 1, quiet 1 1 1 9 1]).flatten ++
       [withTx (quiet 1 1 1 9 1) [⟨1, 0⟩]])).totalPkgCounter = 65535 ∧
    (tick 64
      (run 64 initState
        ([quiet 1 1 1 9 1, quiet 1 1 1 9 1, withOpen (quiet 1 1 1 9 1) [⟨1, true⟩],
          quiet 1 1 1 9 1, withTx (quiet 1 1 1 9 1) [⟨1, 1⟩],
          withTx (quiet 1 1 1 9 1) [⟨1, 0⟩], quiet 1 1 1 9 1, quiet 1 1 1 9 1] ++
         (List.replicate 65534
            [withTx (quiet 1 1 1 9 1) [⟨1, 0⟩], quiet 1 1 1 9 1, quiet 1 1 1 9 1]).flatten ++
         [withTx (quiet 1 1 1 9 1) [⟨1, 0⟩]]))
      (quiet 1 1 1 9 1)).totalPkgCounter = 0 := by
  have hpre : run 64 initState
      [quiet 1 1 1 9 1, quiet 1 1 1 9 1, withOpen (quiet 1 1 1 9 1) [⟨1, true⟩],
        quiet 1 1 1 9 1, withTx (quiet 1 1 1 9 1) [⟨1, 1⟩],
        withTx (quiet 1 1 1 9 1) [⟨1, 0⟩], quiet 1 1 1 9 1, quiet 1 1 1 9 1] =
      { iperfFsmState := .CHECK_REQ
        currentSessionID := 1
        numConnections := 65535
        wordCount := 0
        totalPkgCounter := 1
        totalSendTarget := 1
        openConnection := [⟨9, 5001⟩]
        openConStatusBuffer := []
        closeConnection := [1]
        txMetaDataBuffer := [⟨1, 8⟩, ⟨1, 8⟩]
        txDataBuffer := [payloadWord 64 true]
        txStatus := [] } := by
    decide
  have hloop := run_closing_packets 64 1 1 1 9 1 (by norm_num) 65534
    { iperfFsmState := .CHECK_REQ
      currentSessionID := 1
      numConnections := 65535
      wordCount := 0
      totalPkgCounter := 1
      totalSendTarget := 1
      openConnection := [⟨9, 5001⟩]
      openConStatusBuffer := []
      closeConnection := [1]
      txMetaDataBuffer := [⟨1, 8⟩, ⟨1, 8⟩]
      txDataBuffer := [payloadWord 64 true]
      txStatus := [] }
    rfl rfl rfl rfl (by norm_num) (by norm_num) (by norm_num)
  have hloop2 : run 64
      { iperfFsmState := .CHECK_REQ
        currentSessionID := 1
        numConnections := 65535
        wordCount := 0
        totalPkgCounter := 1
        totalSendTarget := 1
        openConnection := [⟨9, 5001⟩]
        openConStatusBuffer := []
        closeConnection := [1]
        txMetaDataBuffer := [⟨1, 8⟩, ⟨1, 8⟩]
        txDataBuffer := [payloadWord 64 true]
        txStatus := [] }
      (List.replicate 65534
        [withTx (quiet 1 1 1 9 1) [⟨1, 0⟩], quiet 1 1 1 9 1, quiet 1 1 1 9 1]).flatten =
      { iperfFsmState := .CHECK_REQ
        currentSessionID := 1
        numConnections := 1
        wordCount := 0
        totalPkgCounter := 65535
        totalSendTarget := 1
        openConnection := [⟨9, 5001⟩]
        openConStatusBuffer := []
        closeConnection := [1] ++ List.replicate 65534 1
        txMetaDataBuffer := [⟨1, 8⟩, ⟨1, 8⟩]
        txDataBuffer := [payloadWord 64 true] ++ List.replicate 65534 (payloadWord 64 true)
        txStatus := [] } := by
    rw [hloop]
    simp only [ClientState.mk.injEq, Nat.reduceSub, Nat.reduceAdd, and_self]
  rw [run_append, run_append, hpre, hloop2]
  exact check_req_then_start 64 _ _ _ ⟨1, 0⟩ [] rfl rfl rfl rfl

/-! ### Lemmas on the host program -/

theorem getlineTokens_eq_splitOn (s : List Char) (hne : s ≠ [])
    (hdot : s.getLast? ≠ some '.') : getlineTokens s = s.splitOn '.' := by
  induction s with
  | nil => exact absurd rfl hne
  | cons c cs ih =>
    by_cases hcs : cs = []
    · subst hcs
      have hc : c ≠ '.' := by
        intro h
        apply hdot
        simp [h]
      simp [getlineTokens, List.splitOn, List.splitOnP_cons, hc, List.modifyHead]
    · have hlast : cs.getLast? ≠ some '.' := by
        intro h
        apply hdot
        obtain ⟨d, ds, rfl⟩ := List.exists_cons_of_ne_nil hcs
        rw [List.getLast?_cons_cons]
        exact h
      have ih2 := ih hcs hlast
      simp only [List.splitOn] at ih2 ⊢
      rw [List.splitOnP_cons, getlineTokens, ih2]
      by_cases hc : c = '.'
      · simp [hc]
      · have hsp : List.splitOnP (fun x => x == '.') cs ≠ [] := List.splitOnP_ne_nil _ _
        cases hq : List.splitOnP (fun x => x == '.') cs with
        | nil => exact absurd hq hsp
        | cons f fs => simp [hc, List.modifyHead]

theorem getlineTokens_subset (s : List Char) :
    ∀ tok ∈ getlineTokens s, ∀ c ∈ tok, c ∈ s := by
  induction s with
  | nil => intro tok h; simp [getlineTokens] at h
  | cons a cs ih =>
    intro tok h c hc
    rw [getlineTokens] at h
    by_cases ha : a = '.'
    · simp only [ha, if_true, List.mem_cons] at h
      rcases h with h | h
      · subst h; simp at hc
      · exact List.mem_cons_of_mem _ (ih tok h c hc)
    · simp only [ha, if_false] at h
      cases hq : getlineTokens cs with
      | nil =>
        rw [hq] at h
        simp only [List.mem_singleton] at h
        subst h
        simp only [List.mem_singleton] at hc
        subst hc
        exact List.mem_cons_self _ _
      | cons f fs =>
        rw [hq] at h
        simp only [List.mem_cons] at h
        rcases h with h | h
        · subst h
          simp only [List.mem_cons] at hc
          rcases hc with hc | hc
          · subst hc; exact List.mem_cons_self _ _
          · exact List.mem_cons_of_mem _ (ih f (by rw [hq]; exact List.mem_cons_self _ _) c hc)
        · exact List.mem_cons_of_mem _
            (ih tok (by rw [hq]; exact List.mem_cons_of_mem _ h) c hc)

theorem parseLoop_value (toks : List (List Char)) :
    ∀ (i : Nat) (b : List Nat) (j : Nat) (b2 : List Nat),
      parseLoop toks i b = .value (j, b2) →
      j = i + toks.length ∧ ∀ tok ∈ toks, ∃ v, parseOctet tok = .value v := by
  induction toks with
  | nil =>
    intro i b j b2 h
    simp only [parseLoop, Throws.value.injEq, Prod.mk.injEq] at h
    exact ⟨by simp [h.1], by simp⟩
  | cons tok toks ih =>
    intro i b j b2 h
    rw [parseLoop] at h
    by_cases hi : i ≥ 4
    · simp [hi] at h
    · simp only [hi, if_false] at h
      cases hq : parseOctet tok with
      | thrown e => rw [hq] at h; simp at h
      | value v =>
        rw [hq] at h
        have := ih (i + 1) (b ++ [v]) j b2 h
        refine ⟨by simp only [List.length_cons]; omega, ?_⟩
        intro t ht
        simp only [List.mem_cons] at ht
        rcases ht with ht | ht
        · subst ht; exact ⟨v, hq⟩
        · exact this.2 t ht

theorem trimmed_subset (tok : List Char) :
    ∀ c ∈ eraseTrailingSpace (eraseLeadingSpace tok), c ∈ tok := by
  intro c hc
  simp only [eraseTrailingSpace, eraseLeadingSpace, List.mem_reverse] at hc
  have h1 := (List.dropWhile_sublist isspace).subset hc
  rw [List.mem_reverse] at h1
  exact (List.dropWhile_sublist isspace).subset h1

theorem trimmed_head (tok : List Char) (c : Char) (rest : List Char)
    (h : eraseTrailingSpace (eraseLeadingSpace tok) = c :: rest) : isspace c = false := by
  simp only [eraseTrailingSpace, eraseLeadingSpace] at h
  have h1 := List.takeWhile_append_dropWhile isspace (tok.dropWhile isspace).reverse
  have h2 : tok.dropWhile isspace =
      (List.dropWhile isspace (tok.dropWhile isspace).reverse).reverse ++
        (List.takeWhile isspace (tok.dropWhile isspace).reverse).reverse := by
    rw [← List.reverse_append, h1, List.reverse_reverse]
  rw [h] at h2
  have hne : tok.dropWhile isspace ≠ [] := by rw [h2]; simp
  have h3 := List.head_dropWhile_not isspace tok hne
  have h4 : ∀ (l : List Char) (hl : l ≠ []) (x : List Char), l = c :: x → l.head hl = c := by
    intro l hl x e
    subst e
    rfl
  have h4 := h4 _ hne _ h2
  rw [h4] at h3
  exact h3

theorem strtol_complete_signed (c : Char) (rest : List Char) (hc : isspace c = false)
    (hend : (strtol (c :: rest)).2 = []) (hlo : ¬ (strtol (c :: rest)).1 < 0)
    (hhi : ¬ (strtol (c :: rest)).1 > 255) : signedOctet (c :: rest) = true := by
  have hbody : (c :: rest).dropWhile isspace = c :: rest := by
    simp [List.dropWhile, hc]
  unfold strtol at hend hlo hhi
  simp only [hbody] at hend hlo hhi
  have hall : ∀ l : List Char, l.dropWhile isdigit = [] → l.takeWhile isdigit = l := by
    intro l hl
    exact List.takeWhile_eq_self_iff.mpr (List.dropWhile_eq_nil_iff.mp hl)
  by_cases hm : c = '-'
  · subst hm
    simp only [true_or, if_true, decide_True] at hend hlo hhi
    by_cases hd : rest.takeWhile isdigit = []
    · simp [hd] at hend
    · simp only [hd, if_false, if_true] at hend hlo hhi
      rw [hall rest hend] at hlo hd
      have h0 : digitsValue rest = 0 := by
        simp only [LONG_MIN] at hlo
        omega
      have hal := List.dropWhile_eq_nil_iff.mp hend
      simp only [signedOctet, unsignedOctet, h0]
      simp [hd]
      exact hal
  · by_cases hp : c = '+'
    · subst hp
      simp only [or_true, if_true] at hend hlo hhi
      by_cases hd : rest.takeWhile isdigit = []
      · simp [hd] at hend
      · simp only [hd, if_false, hm, decide_False] at hend hlo hhi
        simp only [Bool.false_eq_true, if_false] at hend hlo hhi
        rw [hall rest hend] at hhi hd
        have h0 : digitsValue rest ≤ 255 := by
          simp only [LONG_MAX] at hhi
          omega
        have hal := List.dropWhile_eq_nil_iff.mp hend
        simp only [signedOctet, unsignedOctet]
        simp [hd, h0]
        exact hal
    · simp only [hm, hp, or_self, if_false, decide_False] at hend hlo hhi
      by_cases hd : (c :: rest).takeWhile isdigit = []
      · simp [hd] at hend
      · simp only [hd, if_false] at hend hlo hhi
        simp only [Bool.false_eq_true, if_false] at hend hlo hhi
        rw [hall (c :: rest) hend] at hhi hd
        have h0 : digitsValue (c :: rest) ≤ 255 := by
          simp only [LONG_MAX] at hhi
          omega
        have hal := List.dropWhile_eq_nil_iff.mp hend
        simp only [signedOctet, hm, hp, if_false, unsignedOctet]
        simp only [List.mem_cons, forall_eq_or_imp] at hal
        simp [hal.1, h0]
        exact hal.2

theorem parseOctet_value_signed (tok : List Char) (v : Nat)
    (hnul : ∀ c ∈ tok, c.toNat ≠ 0) (h : parseOctet tok = .value v) :
    signedOctet (eraseTrailingSpace (eraseLeadingSpace tok)) = true := by
  unfold parseOctet at h
  have hc : c_str (eraseTrailingSpace (eraseLeadingSpace tok)) =
      eraseTrailingSpace (eraseLeadingSpace tok) := by
    unfold c_str
    apply List.takeWhile_eq_self_iff.mpr
    intro c hc
    simpa using hnul c (trimmed_subset tok c hc)
  rw [hc] at h
  by_cases he : eraseTrailingSpace (eraseLeadingSpace tok) = []
  · simp [he] at h
  · simp only [he, if_false] at h
    obtain ⟨c, rest, hcr⟩ := List.exists_cons_of_ne_nil he
    have hsp := trimmed_head tok c rest hcr
    rw [hcr] at h ⊢
    by_cases hbad : (strtol (c :: rest)).2 ≠ [] ∨ (strtol (c :: rest)).1 < 0 ∨
        (strtol (c :: rest)).1 > 255
    · simp [hbad] at h
    · simp only [not_or, not_not] at hbad
      exact strtol_complete_signed c rest hsp hbad.1 hbad.2.1 hbad.2.2

theorem getlineTokens_append_dot (A rest : List Char) (hA : '.' ∉ A) :
    getlineTokens (A ++ '.' :: rest) = A :: getlineTokens rest := by
  induction A with
  | nil => simp [getlineTokens]
  | cons a A ih =>
    simp only [List.mem_cons, not_or] at hA
    have ha : a ≠ '.' := fun h => hA.1 h.symm
    rw [List.cons_append, getlineTokens, ih hA.2]
    simp [ha]

theorem getlineTokens_no_dot (A : List Char) (hA : '.' ∉ A) (hne : A ≠ []) :
    getlineTokens A = [A] := by
  induction A with
  | nil => exact absurd rfl hne
  | cons a A ih =>
    simp only [List.mem_cons, not_or] at hA
    have ha : a ≠ '.' := fun h => hA.1 h.symm
    rw [getlineTokens]
    by_cases hA2 : A = []
    · subst hA2
      simp [ha, getlineTokens]
    · rw [ih hA.2 hA2]
      simp [ha]

theorem to_string_octet :
    ∀ n, n < 256 →
      parseOctet (to_string n) = .value n ∧ '.' ∉ to_string n ∧ to_string n ≠ [] := by
  set_option maxRecDepth 100000 in decide

theorem parseIpBE_of_octets (a b c d : Nat) (ha : a < 256) (hb : b < 256) (hc : c < 256)
    (hd : d < 256) :
    parseIpBE (to_string a ++ '.' :: (to_string b ++ '.' :: (to_string c ++ '.' :: to_string d))) =
      .value (a <<< 24 ||| b <<< 16 ||| c <<< 8 ||| d) := by
  obtain ⟨pa, da, -⟩ := to_string_octet a ha
  obtain ⟨pb, db, -⟩ := to_string_octet b hb
  obtain ⟨pc, dc, -⟩ := to_string_octet c hc
  obtain ⟨pd, dd, nd⟩ := to_string_octet d hd
  unfold parseIpBE
  rw [getlineTokens_append_dot _ _ da, getlineTokens_append_dot _ _ db,
    getlineTokens_append_dot _ _ dc, getlineTokens_no_dot _ dd nd]
  simp only [parseLoop, pa, pb, pc, pd]
  have ea : (a <<< 24) % 4294967296 = a <<< 24 := by
    rw [Nat.shiftLeft_eq]; omega
  have eb : (b <<< 16) % 4294967296 = b <<< 16 := by
    rw [Nat.shiftLeft_eq]; omega
  have ec : (c <<< 8) % 4294967296 = c <<< 8 := by
    rw [Nat.shiftLeft_eq]; omega
  have ed : d % 4294967296 = d := by omega
  simp [ea, eb, ec, ed]

theorem bytes_reassemble (x : Nat) (h : x < 2 ^ 32) :
    ((x >>> 24) &&& 0xFF) <<< 24 ||| ((x >>> 16) &&& 0xFF) <<< 16 |||
      ((x >>> 8) &&& 0xFF) <<< 8 ||| ((x >>> 0) &&& 0xFF) = x := by
  apply Nat.eq_of_testBit_eq
  intro i
  have h255 : (255 : Nat) = 2 ^ 8 - 1 := by norm_num
  simp only [Nat.testBit_or, Nat.testBit_shiftLeft, Nat.testBit_and, Nat.testBit_shiftRight,
    h255, Nat.testBit_two_pow_sub_one]
  by_cases hi : i < 32
  · rcases Nat.lt_or_ge i 8 with h1 | h1
    · simp [h1, show ¬ 24 ≤ i by omega, show ¬ 16 ≤ i by omega, show ¬ 8 ≤ i by omega]
    · rcases Nat.lt_or_ge i 16 with h2 | h2
      · simp [h1, show ¬ 24 ≤ i by omega, show ¬ 16 ≤ i by omega, show ¬ i < 8 by omega,
          show i - 8 < 8 by omega, show 8 + (i - 8) = i by omega]
      · rcases Nat.lt_or_ge i 24 with h3 | h3
        · simp [h1, h2, show ¬ 24 ≤ i by omega, show ¬ i < 8 by omega,
            show i - 16 < 8 by omega, show 16 + (i - 16) = i by omega,
            show ¬ i - 8 < 8 by omega]
        · simp [h1, h2, h3, show ¬ i < 8 by omega, show i - 24 < 8 by omega,
            show 24 + (i - 24) = i by omega, show ¬ i - 8 < 8 by omega,
            show ¬ i - 16 < 8 by omega]
  · have hx : x.testBit i = false :=
      Nat.testBit_lt_two_pow
        (lt_of_lt_of_le h (Nat.pow_le_pow_right (by norm_num) (by omega)))
    simp [hx, show ¬ i < 8 by omega, show ¬ i - 8 < 8 by omega, show ¬ i - 16 < 8 by omega,
      show ¬ i - 24 < 8 by omega]

theorem and_255_lt (x : Nat) : x &&& 0xFF < 256 := by
  have h := Nat.and_pow_two_sub_one_eq_mod x 8
  norm_num at h
  rw [h]
  omega

theorem parseIpBE_ipToStr (x : Nat) (h : x < 2 ^ 32) : parseIpBE (ipToStr x) = .value x := by
  have key := parseIpBE_of_octets ((x >>> 24) &&& 0xFF) ((x >>> 16) &&& 0xFF)
    ((x >>> 8) &&& 0xFF) ((x >>> 0) &&& 0xFF) (and_255_lt _) (and_255_lt _) (and_255_lt _)
    (and_255_lt _)
  rw [bytes_reassemble x h] at key
  rw [← key]
  simp only [ipToStr, List.append_assoc, List.singleton_append, List.cons_append,
    List.nil_append]

theorem parseIpBE_trailing_dot_example :
    parseIpBE ['1', '.', '2', '.', '3', '.', '4', '.'] = .value 0x01020304 ∧
      (['1', '.', '2', '.', '3', '.', '4', '.'].splitOn '.').length = 5 := by
  decide

theorem parseIpBE_minus_zero_example :
    parseIpBE ['-', '0', '.', '2', '.', '3', '.', '4'] = .value 0x00020304 ∧
      parseIpBE ['-', '1', '.', '2', '.', '3', '.', '4'] = .thrown (.invalidOctet ['-', '1']) := by
  decide

/-! ### Claims on the host program -/

/-- C16: in `main`, when the values of the options are available, any failing
check (`sessions > 65535`, `words > 255`, `perconn > 255`, or `parseIpBE`
throwing on the `--ip` string) makes the program end by an exception with no
`setCSR` call made; and a run of `main` that makes any `setCSR` call had all
four checks pass, and its calls are exactly the five register writes, `RUN_TX`
last. -/
theorem main_writes_only_when_all_checks_pass (ip_str : List Char)
    (sessions words perconn : Nat) (threadOk : Bool) :
    ((sessions > 65535 ∨ words > 255 ∨ perconn > 255 ∨ ∃ e, parseIpBE ip_str = .thrown e) →
      main (.values ip_str sessions words perconn) threadOk = ⟨.invalid_argument, []⟩) ∧
    ∀ opts : ParsedOptions, (main opts threadOk).csrWrites ≠ [] →
      ∃ ip s w p ip_be, opts = .values ip s w p ∧ s ≤ 65535 ∧ w ≤ 255 ∧ p ≤ 255 ∧
        parseIpBE ip = .value ip_be ∧
        (main opts threadOk).csrWrites =
          [(s, .NUM_SESSIONS), (w, .PKG_WORD_COUNT), (ip_be, .SERVER_IP_ADDR),
            (p, .TOTAL_PKG_PERCONN), (1, .RUN_TX)] := by
  constructor
  · intro h
    unfold main
    by_cases h1 : sessions > 65535
    · simp [h1]
    · by_cases h2 : words > 255
      · simp [h1, h2]
      · by_cases h3 : perconn > 255
        · simp [h1, h2, h3]
        · rcases h with h | h | h | ⟨e, he⟩
          · exact absurd h h1
          · exact absurd h h2
          · exact absurd h h3
          · simp [h1, h2, h3, he]
  · intro opts hw
    cases opts with
    | optionError => simp [main] at hw
    | help => simp [main] at hw
    | values ip s w p =>
      unfold main at hw ⊢
      by_cases h1 : s > 65535
      · simp [h1] at hw
      · by_cases h2 : w > 255
        · simp [h1, h2] at hw
        · by_cases h3 : p > 255
          · simp [h1, h2, h3] at hw
          · cases hq : parseIpBE ip with
            | thrown e => simp [h1, h2, h3, hq] at hw
            | value ip_be =>
              cases threadOk with
              | false => simp [h1, h2, h3, hq] at hw
              | true =>
                refine ⟨ip, s, w, p, ip_be, rfl, by omega, by omega, by omega, hq, ?_⟩
                simp [h1, h2, h3, hq]

theorem main_writes_only_when_all_checks_pass_witness :
    main (.values ['1', '0', '.', '0', '.', '0', '.', '7'] 70000 16 1) true =
        ⟨.invalid_argument, []⟩ ∧
      ∃ ip s w p ip_be,
        ParsedOptions.values ['1', '0', '.', '0', '.', '0', '.', '7'] 2 16 1 = .values ip s w p ∧
          s ≤ 65535 ∧ w ≤ 255 ∧ p ≤ 255 ∧ parseIpBE ip = .value ip_be ∧
          (main (.values ['1', '0', '.', '0', '.', '0', '.', '7'] 2 16 1) true).csrWrites =
            [(s, .NUM_SESSIONS), (w, .PKG_WORD_COUNT), (ip_be, .SERVER_IP_ADDR),
              (p, .TOTAL_PKG_PERCONN), (1, .RUN_TX)] :=
  ⟨(main_writes_only_when_all_checks_pass ['1', '0', '.', '0', '.', '0', '.', '7'] 70000 16 1
      true).1 (Or.inl (by decide)),
    (main_writes_only_when_all_checks_pass [] 0 0 0 true).2
      (.values ['1', '0', '.', '0', '.', '0', '.', '7'] 2 16 1) (by decide)⟩

/-- C19 (counterexample): `parseIpBE` returns a value for "+1.2.3.4", whose
first field is signed and so is not a string of decimal digits. -/
theorem parseIpBE_accepts_signed_field :
    parseIpBE ['+', '1', '.', '2', '.', '3', '.', '4'] = .value 0x01020304 ∧
      (['+', '1', '.', '2', '.', '3', '.', '4'].splitOn '.').all
        (fun f => unsignedOctet (eraseTrailingSpace (eraseLeadingSpace f))) = false := by
  decide

/-- C19 (amended): for every string `s` without a NUL character that does not
end in `'.'`, `parseIpBE s` returns a value only if `s` splits at `'.'` into
exactly four fields, each of which, after trimming surrounding whitespace, is
an optional sign followed by a non-empty string of decimal digits with value
0..255 (a minus sign only before the value 0); for every other such string it
throws. -/
theorem parseIpBE_value_only_if_four_signed_octets (s : List Char) (v : Nat)
    (hnul : ∀ c ∈ s, c.toNat ≠ 0) (hdot : s.getLast? ≠ some '.')
    (h : parseIpBE s = .value v) :
    (s.splitOn '.').length = 4 ∧
      ∀ f ∈ s.splitOn '.', signedOctet (eraseTrailingSpace (eraseLeadingSpace f)) = true := by
  have hne : s ≠ [] := by
    intro h0
    subst h0
    simp [parseIpBE, getlineTokens, parseLoop] at h
  rw [← getlineTokens_eq_splitOn s hne hdot]
  unfold parseIpBE at h
  cases hq : parseLoop (getlineTokens s) 0 [] with
  | thrown e => rw [hq] at h; simp at h
  | value r =>
    obtain ⟨i, b⟩ := r
    rw [hq] at h
    by_cases hi : i ≠ 4
    · simp [hi] at h
    · simp only [not_not] at hi
      have key := parseLoop_value (getlineTokens s) 0 [] i b hq
      refine ⟨by omega, ?_⟩
      intro f hf
      obtain ⟨w, hw⟩ := key.2 f hf
      exact parseOctet_value_signed f w
        (fun c hc => hnul c (getlineTokens_subset s f hf c hc)) hw

theorem parseIpBE_value_only_if_four_signed_octets_witness :
    parseIpBE ['+', '1', '.', ' ', '2', ' ', '.', '3', '.', '4'] = .value 0x01020304 ∧
      (['+', '1', '.', ' ', '2', ' ', '.', '3', '.', '4'].splitOn '.').length = 4 ∧
      ∀ f ∈ ['+', '1', '.', ' ', '2', ' ', '.', '3', '.', '4'].splitOn '.',
        signedOctet (eraseTrailingSpace (eraseLeadingSpace f)) = true :=
  ⟨by decide,
    parseIpBE_value_only_if_four_signed_octets
      ['+', '1', '.', ' ', '2', ' ', '.', '3', '.', '4'] 0x01020304 (by decide) (by decide)
      (by decide)⟩

/-- C20: for all a, b, c, d in 0..255, `parseIpBE` applied to the canonical
decimal text "a.b.c.d" returns `(a<<24)|(b<<16)|(c<<8)|d`; and
`parseIpBE (ipToStr x)` returns `x` for every 32-bit `x`. -/
theorem parseIpBE_canonical_text :
    (∀ a b c d : Nat, a ≤ 255 → b ≤ 255 → c ≤ 255 → d ≤ 255 →
      parseIpBE (dottedDecimal a b c d) = .value (a <<< 24 ||| b <<< 16 ||| c <<< 8 ||| d)) ∧
    ∀ x : Nat, x < 2 ^ 32 → parseIpBE (ipToStr x) = .value x := by
  constructor
  · intro a b c d ha hb hc hd
    rw [← parseIpBE_of_octets a b c d (by omega) (by omega) (by omega) (by omega)]
    simp only [dottedDecimal, List.append_assoc, List.singleton_append, List.cons_append,
      List.nil_append]
  · exact parseIpBE_ipToStr

theorem parseIpBE_canonical_text_witness :
    parseIpBE ['1', '9', '2', '.', '1', '6', '8', '.', '0', '.', '2', '5', '4'] =
        .value 0xC0A800FE ∧
      parseIpBE (ipToStr 0xC0A800FE) = .value 0xC0A800FE :=
  ⟨parseIpBE_canonical_text.1 192 168 0 254 (by decide) (by decide) (by decide) (by decide),
    parseIpBE_canonical_text.2 0xC0A800FE (by decide)⟩

/-! ### Lemmas on the queue -/

theorem pop_of_contents_cons {α : Type} (q : BlockingQueue α) (p : α) (rest : List α)
    (h : q.contents = p :: rest) : q.pop = some (p, ⟨rest.reverse⟩) := by
  have hq : q.que = rest.reverse ++ [p] := by
    have := congrArg List.reverse h
    simpa [BlockingQueue.contents] using this
  obtain ⟨que⟩ := q
  simp only at hq
  cases que with
  | nil => simp at hq
  | cons x xs =>
    have h1 : (x :: xs).getLast? = some p := by rw [hq]; simp
    have h2 : (x :: xs).dropLast = rest.reverse := by rw [hq]; simp
    rw [List.getLast?_eq_getLast _ (List.cons_ne_nil x xs)] at h1
    simp only [Option.some.injEq] at h1
    simp only [BlockingQueue.pop, h1, h2]

theorem pop_of_contents_nil {α : Type} (q : BlockingQueue α) (h : q.contents = []) :
    q.pop = none := by
  have hq : q.que = [] := by simpa [BlockingQueue.contents] using h
  simp [BlockingQueue.pop, hq]

theorem runOps_fifo {α : Type} (ops : List (QueueOp α)) :
    ∀ (q : BlockingQueue α),
      (∀ n, n ≤ ops.length →
        popCount (ops.take n) ≤ q.contents.length + (pushedValues (ops.take n)).length) →
      ∃ outs q2, runOps q ops = some (outs, q2) ∧
        outs = (q.contents ++ pushedValues ops).take (popCount ops) ∧
        q2.contents = (q.contents ++ pushedValues ops).drop (popCount ops) := by
  induction ops with
  | nil =>
    intro q _
    exact ⟨[], q, rfl, by simp [popCount], by simp [popCount, pushedValues]⟩
  | cons op ops ih =>
    intro q h
    cases op with
    | push value =>
      have h2 : ∀ n, n ≤ ops.length →
          popCount (ops.take n) ≤
            (q.push value).contents.length + (pushedValues (ops.take n)).length := by
        intro n hn
        have := h (n + 1) (by simp only [List.length_cons]; omega)
        simp only [List.take_succ_cons, popCount, pushedValues, List.length_cons] at this
        simp only [BlockingQueue.contents, BlockingQueue.push, List.reverse_cons,
          List.length_append, List.length_reverse, List.length_singleton] at this ⊢
        omega
      obtain ⟨outs, q2, hr, ho, hc⟩ := ih (q.push value) h2
      refine ⟨outs, q2, ?_, ?_, ?_⟩
      · simp only [runOps]; exact hr
      · rw [ho]
        simp [BlockingQueue.contents, BlockingQueue.push, popCount, pushedValues]
      · rw [hc]
        simp [BlockingQueue.contents, BlockingQueue.push, popCount, pushedValues]
    | pop =>
      have h1 := h 1 (by simp)
      simp only [List.take_succ_cons, List.take_zero, popCount, pushedValues,
        List.length_nil] at h1
      cases hcs : q.contents with
      | nil => rw [hcs] at h1; simp at h1
      | cons p rest =>
        have hp := pop_of_contents_cons q p rest hcs
        have h2 : ∀ n, n ≤ ops.length →
            popCount (ops.take n) ≤
              (BlockingQueue.mk rest.reverse).contents.length +
                (pushedValues (ops.take n)).length := by
          intro n hn
          have := h (n + 1) (by simp only [List.length_cons]; omega)
          simp only [List.take_succ_cons, popCount, pushedValues, hcs,
            List.length_cons] at this
          simp only [BlockingQueue.contents, List.reverse_reverse]
          omega
        obtain ⟨outs, q2, hr, ho, hc⟩ := ih ⟨rest.reverse⟩ h2
        refine ⟨p :: outs, q2, ?_, ?_, ?_⟩
        · simp only [runOps, hp, hr]
        · rw [ho]
          simp [BlockingQueue.contents, popCount, pushedValues]
        · rw [hc]
          simp [BlockingQueue.contents, popCount, pushedValues]

theorem runOps_returns_only_if {α : Type} (ops : List (QueueOp α)) :
    ∀ (q : BlockingQueue α) (r : List α × BlockingQueue α), runOps q ops = some r →
      ∀ n, popCount (ops.take n) ≤ q.contents.length + (pushedValues (ops.take n)).length := by
  induction ops with
  | nil => intro q r _ n; simp [popCount]
  | cons op ops ih =>
    intro q r h n
    cases n with
    | zero => simp [popCount]
    | succ n =>
      cases op with
      | push value =>
        simp only [runOps] at h
        have := ih (q.push value) r h n
        simp only [BlockingQueue.contents, BlockingQueue.push, List.reverse_cons,
          List.length_append, List.length_reverse, List.length_singleton] at this
        simp only [List.take_succ_cons, popCount, pushedValues, List.length_cons,
          BlockingQueue.contents, List.length_reverse]
        omega
      | pop =>
        cases hcs : q.contents with
        | nil =>
          rw [runOps, pop_of_contents_nil q hcs] at h
          simp at h
        | cons p rest =>
          rw [runOps, pop_of_contents_cons q p rest hcs] at h
          simp only at h
          cases hr : runOps (BlockingQueue.mk rest.reverse) ops with
          | none => rw [hr] at h; simp at h
          | some r2 =>
            have := ih ⟨rest.reverse⟩ r2 hr n
            simp only [BlockingQueue.contents, List.reverse_reverse] at this
            simp only [List.take_succ_cons, popCount, pushedValues, List.length_cons]
            omega

/-- C21: `BlockingQueue` is first-in-first-out.  For every sequence of `push`
and `pop` operations applied one after another to a new queue in which no
`pop` outruns the pushes before it (every `pop` finds the queue non-empty),
every call returns; the values returned by the calls of `pop` are the first
values pushed, in push order, so the k-th `pop` returns the value of the k-th
`push`; and the queue afterwards holds exactly the pushed values not yet
popped, in push order. -/
theorem blockingQueue_first_in_first_out {α : Type} (ops : List (QueueOp α))
    (h : ∀ n, n ≤ ops.length →
      popCount (ops.take n) ≤ (pushedValues (ops.take n)).length) :
    ∃ outs q, runOps BlockingQueue.empty ops = some (outs, q) ∧
      outs.length = popCount ops ∧
      (∀ k, k < popCount ops → outs[k]? = (pushedValues ops)[k]?) ∧
      outs = (pushedValues ops).take (popCount ops) ∧
      q.contents = (pushedValues ops).drop (popCount ops) := by
  have h0 : ∀ n, n ≤ ops.length →
      popCount (ops.take n) ≤
        (BlockingQueue.empty : BlockingQueue α).contents.length +
          (pushedValues (ops.take n)).length := by
    intro n hn
    have := h n hn
    simp only [BlockingQueue.empty, BlockingQueue.contents, List.reverse_nil, List.length_nil]
    omega
  obtain ⟨outs, q, hr, ho, hc⟩ := runOps_fifo ops BlockingQueue.empty h0
  simp only [BlockingQueue.empty, BlockingQueue.contents, List.reverse_nil,
    List.nil_append] at ho hc
  have hlen := h ops.length (Nat.le_refl _)
  rw [List.take_length] at hlen
  refine ⟨outs, q, hr, ?_, ?_, ho, hc⟩
  · rw [ho, List.length_take]
    omega
  · intro k hk
    rw [ho, List.getElem?_take_of_lt hk]

theorem blockingQueue_first_in_first_out_witness :
    runOps BlockingQueue.empty
        [QueueOp.push 10, .push 20, .pop, .push 30, .pop, .pop, .push 40, .push 50] =
      some ([10, 20, 30], ⟨[50, 40]⟩) ∧
    ∃ outs q,
      runOps BlockingQueue.empty
          [QueueOp.push 10, .push 20, .pop, .push 30, .pop, .pop, .push 40, .push 50] =
        some (outs, q) ∧
      outs.length =
        popCount [QueueOp.push 10, .push 20, .pop, .push 30, .pop, .pop, .push 40, .push 50] ∧
      (∀ k,
        k < popCount
            [QueueOp.push 10, .push 20, .pop, .push 30, .pop, .pop, .push 40, .push 50] →
        outs[k]? =
          (pushedValues
            [QueueOp.push 10, .push 20, .pop, .push 30, .pop, .pop, .push 40, .push 50])[k]?) ∧
      outs =
        (pushedValues
            [QueueOp.push 10, .push 20, .pop, .push 30, .pop, .pop, .push 40, .push 50]).take
          (popCount
            [QueueOp.push 10, .push 20, .pop, .push 30, .pop, .pop, .push 40, .push 50]) ∧
      q.contents =
        (pushedValues
            [QueueOp.push 10, .push 20, .pop, .push 30, .pop, .pop, .push 40, .push 50]).drop
          (popCount
            [QueueOp.push 10, .push 20, .pop, .push 30, .pop, .pop, .push 40, .push 50]) :=
  ⟨by decide,
    blockingQueue_first_in_first_out
      [QueueOp.push 10, .push 20, .pop, .push 30, .pop, .pop, .push 40, .push 50] (by decide)⟩

/-- One tick that does not wrap `numConnections` keeps `BoundInv`, when
`TotalPkgPerConn = P >= 1` and `numSessions = N` with `N * P <= 65535`. -/
theorem BoundInv_tick (W N P : Nat) (hP : 1 ≤ P) (hNP : N * P ≤ 65535)
    (s : ClientState) (t : TickInput) (hinv : BoundInv N s)
    (htN : t.numSessions = N) (htP : t.TotalPkgPerConn = P)
    (hnw : ¬ (s.numConnections = 0 ∧ (tick W s t).numConnections = 65535)) :
    BoundInv N (tick W s t) := by
  obtain ⟨h_init, h_wait, h_traffic, h_size⟩ := hinv
  have hN : N ≤ 65535 := by
    calc N = N * 1 := (Nat.mul_one N).symm
      _ ≤ N * P := Nat.mul_le_mul_left N (by omega)
      _ ≤ 65535 := hNP
  cases hst : s.iperfFsmState with
  | IDLE =>
    by_cases hr : t.runTx = 0
    · rw [tick_idle_stay W s t hst hr]
      simp only [BoundInv, deliver]
      refine ⟨?_, ?_, ?_, ?_⟩ <;> simp [hst]
    · rw [tick_idle_start W s t hst hr]
      simp only [BoundInv]
      refine ⟨?_, ?_, ?_, ?_⟩ <;> simp
  | INIT_CON =>
    obtain ⟨hn, hc, hT0⟩ := h_init hst
    by_cases hd : (s.currentSessionID + 1) % 65536 = t.numSessions
    · rw [tick_init_con_done W s t hst hd]
      simp only [BoundInv]
      refine ⟨?_, ?_, ?_, ?_⟩ <;> simp [hn, hc, hT0]
    · rw [tick_init_con_stay W s t hst hd]
      simp only [BoundInv]
      refine ⟨?_, ?_, ?_, ?_⟩ <;> simp [hn, hc, hT0, hst]
  | WAIT_CON =>
    obtain ⟨hn, hc, hp, hT0⟩ := h_wait hst
    by_cases hd : s.currentSessionID = t.numSessions
    · rw [tick_wait_con_leave W s t hst hd]
      have hle : s.numConnections * P ≤ N * P := Nat.mul_le_mul_right P (by omega)
      have hge : s.numConnections * 1 ≤ s.numConnections * P :=
        Nat.mul_le_mul_left _ hP
      split
      · rename_i hpos
        have hmod : s.numConnections * t.TotalPkgPerConn % 65536 = s.numConnections * P := by
          rw [htP]; exact Nat.mod_eq_of_lt (by omega)
        simp only [BoundInv, hmod, hp]
        refine ⟨by simp, by simp, fun _ => ⟨by omega, by omega, by omega⟩, by simp⟩
      · simp only [BoundInv]
        refine ⟨?_, ?_, ?_, ?_⟩ <;> simp
    · cases hb : s.openConStatusBuffer ++ t.openArrivals with
      | nil =>
        rw [tick_wait_con_stall W s t hst hd hb]
        simp only [BoundInv, hst]
        refine ⟨by simp, fun _ => ⟨hn, hc, hp, hT0⟩, by simp, by simp⟩
      | cons r rest =>
        rw [tick_wait_con_read W s t r rest hst hd hb]
        have hlt : s.currentSessionID < N := by omega
        have hm1 : (s.currentSessionID + 1) % 65536 = s.currentSessionID + 1 :=
          Nat.mod_eq_of_lt (by omega)
        have hm2 : (s.numConnections + 1) % 65536 = s.numConnections + 1 :=
          Nat.mod_eq_of_lt (by omega)
        split
        · simp only [BoundInv, hst, hm1, hm2]
          refine ⟨by simp, fun _ => ⟨by omega, by omega, hp, hT0⟩, by simp, by simp⟩
        · simp only [BoundInv, hst, hm1]
          refine ⟨by simp, fun _ => ⟨by omega, by omega, hp, hT0⟩, by simp, by simp⟩
  | CONSTRUCT_HEADER =>
    rw [tick_construct_header W s t hst]
    simp only [BoundInv, deliver]
    refine ⟨?_, ?_, ?_, ?_⟩ <;> simp [hst]
  | INIT_RUN =>
    rw [tick_init_run W s t hst]
    simp only [BoundInv, deliver]
    refine ⟨?_, ?_, ?_, ?_⟩ <;> simp [hst]
  | START_PKG =>
    obtain ⟨hc, hz, hT⟩ := h_traffic (Or.inr (Or.inl hst))
    have hm : (s.totalPkgCounter + 1) % 65536 = s.totalPkgCounter + 1 :=
      Nat.mod_eq_of_lt (by omega)
    rw [tick_start_pkg W s t hst]
    split
    · simp only [BoundInv, hm]
      refine ⟨by simp, by simp, by simp, fun _ => ⟨by omega, by omega, hT⟩⟩
    · simp only [BoundInv]
      refine ⟨by simp, by simp, fun _ => ⟨hc, hz, hT⟩, by simp⟩
  | CHECK_REQ =>
    obtain ⟨hc, hz, hT⟩ := h_traffic (Or.inl hst)
    cases hb : s.txStatus ++ t.txArrivals with
    | nil =>
      rw [tick_check_req_empty W s t hst hb]
      simp only [BoundInv, deliver, hst]
      refine ⟨by simp, by simp, fun _ => ⟨hc, hz, hT⟩, by simp⟩
    | cons r rest =>
      have htick := tick_check_req_read W s t r rest hst hb
      by_cases h0 : r.error = 0
      · rw [htick, if_pos h0]
        simp only [BoundInv]
        refine ⟨by simp, by simp, fun _ => ⟨hc, hz, hT⟩, by simp⟩
      · by_cases h1 : r.error = 1
        · rw [if_neg h0, if_pos h1] at htick
          have hpos : s.numConnections ≠ 0 := by
            intro hzero
            apply hnw
            refine ⟨hzero, ?_⟩
            rw [htick]
            simp [dec16, hzero]
          have hd : dec16 s.numConnections = s.numConnections - 1 :=
            dec16_pos _ (by omega)
          rw [htick]
          simp only [BoundInv, hst, hd]
          refine ⟨by simp, by simp, fun _ => ⟨by omega, by omega, hT⟩, by simp⟩
        · rw [htick, if_neg h0, if_neg h1]
          simp only [BoundInv, hst]
          refine ⟨by simp, by simp, fun _ => ⟨hc, hz, hT⟩, by simp⟩
  | WRITE_PKG =>
    obtain ⟨hc, hz, hT⟩ := h_traffic (Or.inr (Or.inr hst))
    have hm : (s.totalPkgCounter + 1) % 65536 = s.totalPkgCounter + 1 :=
      Nat.mod_eq_of_lt (by omega)
    rw [tick_write_pkg W s t hst]
    split
    · simp only [BoundInv, hm]
      refine ⟨by simp, by simp, by simp, fun _ => ⟨by omega, by omega, hT⟩⟩
    · simp only [BoundInv, hst]
      refine ⟨by simp, by simp, fun _ => ⟨hc, hz, hT⟩, by simp⟩
  | CHECK_SIZE =>
    obtain ⟨hc1, hc, hT⟩ := h_size hst
    have htick := tick_check_size W s t hst
    by_cases hge : (s.totalPkgCounter : Int) ≥ (s.totalSendTarget : Int) - (s.numConnections : Int)
    · rw [if_pos hge] at htick
      have hpos : s.numConnections ≠ 0 := by
        intro hzero
        apply hnw
        refine ⟨hzero, ?_⟩
        rw [htick]
        split <;> simp [dec16, hzero]
      have hd : dec16 s.numConnections = s.numConnections - 1 :=
        dec16_pos _ (by omega)
      rw [htick]
      split
      · simp only [BoundInv]
        refine ⟨?_, ?_, ?_, ?_⟩ <;> simp
      · rename_i hne
        simp only [BoundInv, hd]
        rw [hd] at hne
        refine ⟨by simp, by simp, fun _ => ⟨by omega, by omega, hT⟩, by simp⟩
    · rw [htick, if_neg hge]
      simp only [BoundInv]
      refine ⟨by simp, by simp, fun _ => ⟨by omega, by omega, hT⟩, by simp⟩

/-- `BoundInv` holds along every run that does not wrap `numConnections`. -/
theorem BoundInv_run (W N P : Nat) (hP : 1 ≤ P) (hNP : N * P ≤ 65535) :
    ∀ (ts : List TickInput) (s : ClientState), BoundInv N s →
      (∀ t ∈ ts, t.numSessions = N ∧ t.TotalPkgPerConn = P) →
      neverWraps W s ts = true → BoundInv N (run W s ts) := by
  intro ts
  induction ts with
  | nil => intro s h _ _; exact h
  | cons t ts ih =>
    intro s h hall hnw
    obtain ⟨h1, h2⟩ := hall t (List.mem_cons_self _ _)
    simp only [neverWraps, Bool.and_eq_true, Bool.not_eq_true', Bool.and_eq_false_iff,
      decide_eq_false_iff_not, decide_eq_true_eq] at hnw
    have hstep : ¬ (s.numConnections = 0 ∧ (tick W s t).numConnections = 65535) := by
      intro hx
      rcases hnw.1 with h | h
      · exact h hx.1
      · exact h hx.2
    exact ih _ (BoundInv_tick W N P hP hNP s t h h1 h2 hstep)
      (fun u hu => hall u (List.mem_cons_of_mem _ hu)) hnw.2

/-- A tick of a run without completions with `error = 1` does not wrap
`numConnections`. -/
theorem no_wrap_without_fatal (W N : Nat) (s : ClientState) (t : TickInput)
    (hinv : QuotaInv N 0 s) :
    ¬ (s.numConnections = 0 ∧ (tick W s t).numConnections = 65535) := by
  obtain ⟨_, h_init, h_wait, h_traffic, h_size⟩ := hinv
  rintro ⟨hz, hw⟩
  cases hst : s.iperfFsmState with
  | IDLE =>
    by_cases hr : t.runTx = 0
    · rw [tick_idle_stay W s t hst hr] at hw
      simp [deliver, hz] at hw
    · rw [tick_idle_start W s t hst hr] at hw
      simp at hw
  | INIT_CON =>
    by_cases hd : (s.currentSessionID + 1) % 65536 = t.numSessions
    · rw [tick_init_con_done W s t hst hd] at hw
      simp [hz] at hw
    · rw [tick_init_con_stay W s t hst hd] at hw
      simp [hz] at hw
  | WAIT_CON =>
    by_cases hd : s.currentSessionID = t.numSessions
    · rw [tick_wait_con_leave W s t hst hd] at hw
      split at hw <;> simp [hz] at hw
    · cases hb : s.openConStatusBuffer ++ t.openArrivals with
      | nil =>
        rw [tick_wait_con_stall W s t hst hd hb] at hw
        simp [hz] at hw
      | cons r rest =>
        rw [tick_wait_con_read W s t r rest hst hd hb] at hw
        split at hw <;> simp [hz] at hw
  | CONSTRUCT_HEADER =>
    rw [tick_construct_header W s t hst] at hw
    simp [deliver, hz] at hw
  | INIT_RUN =>
    rw [tick_init_run W s t hst] at hw
    simp [deliver, hz] at hw
  | START_PKG => have := (h_traffic (Or.inr (Or.inl hst))).1; omega
  | CHECK_REQ => have := (h_traffic (Or.inl hst)).1; omega
  | WRITE_PKG => have := (h_traffic (Or.inr (Or.inr hst))).1; omega
  | CHECK_SIZE => have := (h_size hst).1; omega

/-- A run without completions with `error = 1` never wraps `numConnections`:
the runs of `QuotaInv` are among those of `neverWraps`. -/
theorem neverWraps_without_fatal (W N P : Nat) (hP : 1 ≤ P) (hNP : N * P ≤ 65535) :
    ∀ (ts : List TickInput) (s : ClientState), QuotaInv N 0 s →
      (∀ t ∈ ts, t.numSessions = N ∧ t.TotalPkgPerConn = P ∧
        ∀ r ∈ t.txArrivals, r.error ≠ 1) →
      neverWraps W s ts = true := by
  intro ts
  induction ts with
  | nil => intro s _ _; rfl
  | cons t ts ih =>
    intro s h hall
    obtain ⟨h1, h2, h3⟩ := hall t (List.mem_cons_self _ _)
    have hstep := no_wrap_without_fatal W N s t h
    have hrest := ih _ (QuotaInv_tick W N P 0 (Nat.zero_le 1) hP hNP s t h h1 h2 h3)
      (fun u hu => hall u (List.mem_cons_of_mem _ hu))
    simp only [neverWraps, hrest, Bool.and_true, Bool.not_eq_true', Bool.and_eq_false_iff,
      decide_eq_false_iff_not]
    by_cases hz : s.numConnections = 0
    · right
      intro hw
      exact hstep ⟨hz, hw⟩
    · left
      exact hz

/-- After `numConnections` has wrapped, `totalPkgCounter` passes
`totalSendTarget` on arrivals that all answer requests of the driver: sessions
1 and 2 open with `TotalPkgPerConn = 2`; session 1 completes two packets and is
closed with a request outstanding; the seed request of session 2 fails with
`error = 1`; the outstanding request and its two successors complete.  The
second of these closes at `numConnections = 0`, which wraps, and the third
takes `totalPkgCounter` to 5 with `totalSendTarget = 4`. -/
theorem target_passed_after_wrap_example :
    answersRequests 64 initState 0 []
      [quiet 1 2 1 9 2, quiet 1 2 1 9 2, quiet 1 2 1 9 2,
       withOpen (quiet 1 2 1 9 2) [⟨1, true⟩], withOpen (quiet 1 2 1 9 2) [⟨2, true⟩],
       quiet 1 2 1 9 2,
       withTx (quiet 1 2 1 9 2) [⟨1, 0⟩], quiet 1 2 1 9 2, quiet 1 2 1 9 2,
       withTx (quiet 1 2 1 9 2) [⟨1, 0⟩], quiet 1 2 1 9 2, quiet 1 2 1 9 2,
       withTx (quiet 1 2 1 9 2) [⟨2, 1⟩],
       withTx (quiet 1 2 1 9 2) [⟨1, 0⟩], quiet 1 2 1 9 2, quiet 1 2 1 9 2,
       withTx (quiet 1 2 1 9 2) [⟨1, 0⟩], quiet 1 2 1 9 2, quiet 1 2 1 9 2,
       withTx (quiet 1 2 1 9 2) [⟨1, 0⟩], quiet 1 2 1 9 2] = true ∧
    (run 64 initState
      [quiet 1 2 1 9 2, quiet 1 2 1 9 2, quiet 1 2 1 9 2,
       withOpen (quiet 1 2 1 9 2) [⟨1, true⟩], withOpen (quiet 1 2 1 9 2) [⟨2, true⟩],
       quiet 1 2 1 9 2,
       withTx (quiet 1 2 1 9 2) [⟨1, 0⟩], quiet 1 2 1 9 2, quiet 1 2 1 9 2,
       withTx (quiet 1 2 1 9 2) [⟨1, 0⟩], quiet 1 2 1 9 2, quiet 1 2 1 9 2,
       withTx (quiet 1 2 1 9 2) [⟨2, 1⟩],
       withTx (quiet 1 2 1 9 2) [⟨1, 0⟩], quiet 1 2 1 9 2, quiet 1 2 1 9 2,
       withTx (quiet 1 2 1 9 2) [⟨1, 0⟩], quiet 1 2 1 9 2, quiet 1 2 1 9 2,
       withTx (quiet 1 2 1 9 2) [⟨1, 0⟩], quiet 1 2 1 9 2]) =
      { iperfFsmState := .CHECK_SIZE
        currentSessionID := 1
        numConnections := 65535
        wordCount := 0
        totalPkgCounter := 5
        totalSendTarget := 4
        openConnection := [⟨9, 5001⟩, ⟨9, 5001⟩]
        openConStatusBuffer := []
        closeConnection := [1, 1]
        txMetaDataBuffer := [⟨1, 8⟩, ⟨2, 8⟩, ⟨1, 8⟩, ⟨1, 8⟩, ⟨1, 8⟩, ⟨1, 8⟩]
        txDataBuffer :=
          [payloadWord 64 true, payloadWord 64 true, payloadWord 64 true, payloadWord 64 true,
            payloadWord 64 true]
        txStatus := [] } := by
  decide

/-- C2, amended: with `numSessions = N` and `TotalPkgPerConn = P` held constant,
`P >= 1` and `N * P <= 65535`, for every sequence of open results and send
completions, completions with `error = 1` included, in every state of the
traffic phase (after `totalSendTarget` has been set at the end of `WAIT_CON`
and before the return to `IDLE`) that is reached without `numConnections`
having been decremented at 0, `totalPkgCounter <= totalSendTarget`. -/
theorem totalPkgCounter_le_target_before_wrap (W N P : Nat) (hP : 1 ≤ P)
    (hNP : N * P ≤ 65535) (s0 : ClientState) (ts : List TickInput)
    (h0 : s0.iperfFsmState = .IDLE)
    (hall : ∀ t ∈ ts, t.numSessions = N ∧ t.TotalPkgPerConn = P)
    (hnw : neverWraps W s0 ts = true)
    (htr : inTraffic (run W s0 ts)) :
    (run W s0 ts).totalPkgCounter ≤ (run W s0 ts).totalSendTarget := by
  have hinit : BoundInv N s0 := by
    refine ⟨?_, ?_, ?_, ?_⟩ <;> simp [h0]
  obtain ⟨_, _, h_traffic, h_size⟩ := BoundInv_run W N P hP hNP ts s0 hinit hall hnw
  rcases htr with h | h | h | h
  · have := h_traffic (Or.inl h); omega
  · have := h_traffic (Or.inr (Or.inl h)); omega
  · have := h_traffic (Or.inr (Or.inr h)); omega
  · have := h_size h; omega

/-- C2 amended, on a run with a fatal completion: two sessions with
`TotalPkgPerConn = 2`; session 1 sends a packet, the seed request of session 2
fails with `error = 1`, and session 1 sends a second packet; in `CHECK_SIZE`
after it `totalPkgCounter = 2` and `totalSendTarget = 4`. -/
theorem totalPkgCounter_le_target_before_wrap_witness :
    (run 512 initState
      [quiet 1 2 1 9 2, quiet 1 2 1 9 2, quiet 1 2 1 9 2,
       withOpen (quiet 1 2 1 9 2) [⟨1, true⟩], withOpen (quiet 1 2 1 9 2) [⟨2, true⟩],
       quiet 1 2 1 9 2, withTx (quiet 1 2 1 9 2) [⟨1, 0⟩],
       quiet 1 2 1 9 2, quiet 1 2 1 9 2, withTx (quiet 1 2 1 9 2) [⟨2, 1⟩],
       withTx (quiet 1 2 1 9 2) [⟨1, 0⟩], quiet 1 2 1 9 2]).numConnections = 1 ∧
    (run 512 initState
      [quiet 1 2 1 9 2, quiet 1 2 1 9 2, quiet 1 2 1 9 2,
       withOpen (quiet 1 2 1 9 2) [⟨1, true⟩], withOpen (quiet 1 2 1 9 2) [⟨2, true⟩],
       quiet 1 2 1 9 2, withTx (quiet 1 2 1 9 2) [⟨1, 0⟩],
       quiet 1 2 1 9 2, quiet 1 2 1 9 2, withTx (quiet 1 2 1 9 2) [⟨2, 1⟩],
       withTx (quiet 1 2 1 9 2) [⟨1, 0⟩], quiet 1 2 1 9 2]).totalPkgCounter ≤
    (run 512 initState
      [quiet 1 2 1 9 2, quiet 1 2 1 9 2, quiet 1 2 1 9 2,
       withOpen (quiet 1 2 1 9 2) [⟨1, true⟩], withOpen (quiet 1 2 1 9 2) [⟨2, true⟩],
       quiet 1 2 1 9 2, withTx (quiet 1 2 1 9 2) [⟨1, 0⟩],
       quiet 1 2 1 9 2, quiet 1 2 1 9 2, withTx (quiet 1 2 1 9 2) [⟨2, 1⟩],
       withTx (quiet 1 2 1 9 2) [⟨1, 0⟩], quiet 1 2 1 9 2]).totalSendTarget :=
  ⟨by decide,
    totalPkgCounter_le_target_before_wrap 512 2 2 (by decide) (by decide) initState
      [quiet 1 2 1 9 2, quiet 1 2 1 9 2, quiet 1 2 1 9 2,
       withOpen (quiet 1 2 1 9 2) [⟨1, true⟩], withOpen (quiet 1 2 1 9 2) [⟨2, true⟩],
       quiet 1 2 1 9 2, withTx (quiet 1 2 1 9 2) [⟨1, 0⟩],
       quiet 1 2 1 9 2, quiet 1 2 1 9 2, withTx (quiet 1 2 1 9 2) [⟨2, 1⟩],
       withTx (quiet 1 2 1 9 2) [⟨1, 0⟩], quiet 1 2 1 9 2]
      rfl (by decide) (by decide) (Or.inr (Or.inr (Or.inr (by decide))))⟩

theorem fatalCount_append_singleton (K : List appTxRsp) (r : appTxRsp) :
    fatalCount (K ++ [r]) = fatalCount K + (if r.error = 1 then 1 else 0) := by
  unfold fatalCount
  rw [List.filter_append, List.length_append]
  by_cases h : r.error = 1 <;> simp [h]

theorem okIds_append_singleton (K : List appTxRsp) (r : appTxRsp) :
    okIds (K ++ [r]) = okIds K ++ (if r.error = 0 then [r.sessionID % 65536] else []) := by
  unfold okIds
  rw [List.filter_append, List.map_append]
  by_cases h : r.error = 0 <;> simp [h]

theorem dec16_add_one_mod (n : Nat) (hn : n < 65536) : (dec16 n + 1) % 65536 = n % 65536 := by
  unfold dec16
  split <;> omega

theorem dec16_lt (n : Nat) (hn : n < 65536) : dec16 n < 65536 := by
  unfold dec16
  split <;> omega

/-- One tick of a run keeps `CloseInv`, or ends the run in `CloseDone`. -/
theorem CloseInv_tick (W N : Nat) (cl0 : List Nat) (D : List openStatus) (S : List appTxRsp)
    (hN : N < 65536) (s : ClientState) (t : TickInput) (hinv : CloseInv N cl0 D S s)
    (htN : t.numSessions = N) :
    CloseInv N cl0 (D ++ t.openArrivals) (S ++ t.txArrivals) (tick W s t) ∨
    CloseDone N cl0 (D ++ t.openArrivals) (S ++ t.txArrivals) (tick W s t) := by
  obtain ⟨K, C, cl, hS, hD, hcl, hnI, hnH, hnR, h_init, h_wait, h_tr, h_req, h_pkg⟩ := hinv
  have hS2 : S ++ t.txArrivals = K ++ (s.txStatus ++ t.txArrivals) := by
    rw [hS, List.append_assoc]
  have hD2 : D ++ t.openArrivals = C ++ (s.openConStatusBuffer ++ t.openArrivals) := by
    rw [hD, List.append_assoc]
  cases hst : s.iperfFsmState with
  | IDLE => exact absurd hst hnI
  | CONSTRUCT_HEADER => exact absurd hst hnH
  | INIT_RUN => exact absurd hst hnR
  | INIT_CON =>
    obtain ⟨hn, hC, hcl0, hK⟩ := h_init hst
    left
    by_cases hd : (s.currentSessionID + 1) % 65536 = t.numSessions
    · rw [tick_init_con_done W s t hst hd]
      refine ⟨K, C, cl, hS2, hD2, hcl, by simp, by simp, by simp, by simp, ?_, ?_, by simp,
        by simp⟩
      · intro _
        simp [hC, hcl0, hK, hn, successCount]
      · intro h
        simp [inTraffic] at h
    · rw [tick_init_con_stay W s t hst hd]
      refine ⟨K, C, cl, hS2, hD2, hcl, by simp [hst], by simp [hst], by simp [hst], ?_,
        by simp [hst], ?_, by simp [hst], by simp [hst]⟩
      · intro _
        exact ⟨hn, hC, hcl0, hK⟩
      · intro h
        simp [inTraffic, hst] at h
  | WAIT_CON =>
    obtain ⟨hc, hCN, hn, hcl0, hK⟩ := h_wait hst
    have hcnt := successCount_le C
    by_cases hd : s.currentSessionID = t.numSessions
    · rw [tick_wait_con_leave W s t hst hd]
      split
      · rename_i hpos
        left
        refine ⟨K, C, cl, hS2, hD2, hcl, by simp, by simp, by simp, by simp, by simp, ?_, ?_,
          by simp⟩
        · intro _
          refine ⟨by omega, by simp only; omega, ?_, ?_⟩
          · simp [hcl0, hK, fatalCount, hn]
          · intro _
            simp only [hcl0, List.length_nil]
            omega
        · intro _
          simp [hcl0]
      · rename_i hzero
        right
        refine ⟨rfl, K, C, cl, s.openConStatusBuffer ++ t.openArrivals, hS2, hD2, by omega,
          hcl, by simp [hcl0], ?_, ?_⟩
        · simp only [hcl0, hK, fatalCount, List.filter_nil, List.length_nil]
          omega
        · intro _
          simp only [hcl0, List.length_nil]
          omega
    · left
      cases hb : s.openConStatusBuffer ++ t.openArrivals with
      | nil =>
        rw [tick_wait_con_stall W s t hst hd hb]
        have h1 : s.openConStatusBuffer = [] := (List.append_eq_nil.mp hb).1
        have h2 : t.openArrivals = [] := (List.append_eq_nil.mp hb).2
        refine ⟨K, C, cl, hS2, by simp [hD, h1, h2], hcl, by simp [hst], by simp [hst],
          by simp [hst], by simp [hst], ?_, ?_, by simp [hst], by simp [hst]⟩
        · intro _
          exact ⟨hc, hCN, hn, hcl0, hK⟩
        · intro h
          simp [inTraffic, hst] at h
      | cons r rest =>
        have hlt : C.length < N := by omega
        have hm1 : (s.currentSessionID + 1) % 65536 = C.length + 1 := by
          rw [hc]; exact Nat.mod_eq_of_lt (by omega)
        have hm2 : (s.numConnections + 1) % 65536 = successCount C + 1 := by
          rw [hn]; exact Nat.mod_eq_of_lt (by omega)
        have hD3 : D ++ t.openArrivals = (C ++ [r]) ++ rest := by
          rw [hD, List.append_assoc, hb]; simp
        rw [tick_wait_con_read W s t r rest hst hd hb]
        cases hr : r.success with
        | true =>
          simp only [if_true, hm1, hm2]
          refine ⟨K, C ++ [r], cl, hS2, hD3, hcl, by simp [hst], by simp [hst], by simp [hst],
            by simp [hst], ?_, ?_, by simp [hst], by simp [hst]⟩
          · intro _
            refine ⟨by simp, by simp; omega, ?_, hcl0, hK⟩
            rw [successCount_append_singleton, hr, if_pos rfl]
          · intro h
            simp [inTraffic, hst] at h
        | false =>
          simp only [Bool.false_eq_true, if_false, hm1]
          refine ⟨K, C ++ [r], cl, hS2, hD3, hcl, by simp [hst], by simp [hst], by simp [hst],
            by simp [hst], ?_, ?_, by simp [hst], by simp [hst]⟩
          · intro _
            refine ⟨by simp, by simp; omega, ?_, hcl0, hK⟩
            rw [successCount_append_singleton, hr, if_neg (by simp), hn]
            rfl
          · intro h
            simp [inTraffic, hst] at h
  | CHECK_REQ =>
    obtain ⟨hCN, hn, hmod, hex⟩ := h_tr (Or.inl hst)
    have hsub := h_req hst
    left
    cases hb : s.txStatus ++ t.txArrivals with
    | nil =>
      rw [tick_check_req_empty W s t hst hb]
      refine ⟨K, C, cl, by simp [deliver, hS2], by simp [deliver, hD2], by simp [deliver, hcl],
        by simp [deliver, hst], by simp [deliver, hst], by simp [deliver, hst],
        by simp [deliver, hst], by simp [deliver, hst], ?_, ?_, by simp [deliver, hst]⟩
      · intro _
        exact ⟨hCN, hn, hmod, hex⟩
      · intro _
        exact hsub
    | cons r rest =>
      have hS3 : S ++ t.txArrivals = (K ++ [r]) ++ rest := by
        rw [hS2, hb]; simp
      rw [tick_check_req_read W s t r rest hst hb]
      by_cases h0 : r.error = 0
      · rw [if_pos h0]
        refine ⟨K ++ [r], C, cl, hS3, hD2, hcl, by simp, by simp, by simp, by simp, by simp,
          ?_, by simp, ?_⟩
        · intro _
          refine ⟨hCN, hn, ?_, ?_⟩
          · rw [fatalCount_append_singleton, if_neg (by omega)]
            exact hmod
          · intro hall
            exact hex (fun x hx => hall x (List.mem_append_left _ hx))
        · intro _
          exact ⟨K, r, rfl, h0, rfl, hsub⟩
      · by_cases h1 : r.error = 1
        · rw [if_neg h0, if_pos h1]
          refine ⟨K ++ [r], C, cl, hS3, hD2, hcl, by simp [hst], by simp [hst], by simp [hst],
            by simp [hst], by simp [hst], ?_, ?_, by simp [hst]⟩
          · intro _
            refine ⟨hCN, dec16_lt _ hn, ?_, ?_⟩
            · rw [fatalCount_append_singleton, if_pos h1]
              have := dec16_add_one_mod _ hn
              simp only
              omega
            · intro hall
              exact absurd h1 (hall r (by simp))
          · intro _
            rw [okIds_append_singleton, if_neg h0, List.append_nil]
            exact hsub
        · rw [if_neg h0, if_neg h1]
          refine ⟨K ++ [r], C, cl, hS3, hD2, hcl, by simp [hst], by simp [hst], by simp [hst],
            by simp [hst], by simp [hst], ?_, ?_, by simp [hst]⟩
          · intro _
            refine ⟨hCN, hn, ?_, ?_⟩
            · rw [fatalCount_append_singleton, if_neg h1]
              exact hmod
            · intro hall
              exact hex (fun x hx => hall x (List.mem_append_left _ hx))
          · intro _
            rw [okIds_append_singleton, if_neg h0, List.append_nil]
            exact hsub
  | START_PKG =>
    obtain ⟨hCN, hn, hmod, hex⟩ := h_tr (Or.inr (Or.inl hst))
    have hpk := h_pkg (Or.inl hst)
    left
    rw [tick_start_pkg W s t hst]
    split
    · refine ⟨K, C, cl, hS2, hD2, hcl, by simp, by simp, by simp, by simp, by simp, ?_,
        by simp, ?_⟩
      · intro _
        exact ⟨hCN, hn, hmod, hex⟩
      · intro _
        exact hpk
    · refine ⟨K, C, cl, hS2, hD2, hcl, by simp, by simp, by simp, by simp, by simp, ?_,
        by simp, ?_⟩
      · intro _
        exact ⟨hCN, hn, hmod, hex⟩
      · intro _
        exact hpk
  | WRITE_PKG =>
    obtain ⟨hCN, hn, hmod, hex⟩ := h_tr (Or.inr (Or.inr (Or.inl hst)))
    have hpk := h_pkg (Or.inr (Or.inl hst))
    left
    rw [tick_write_pkg W s t hst]
    split
    · refine ⟨K, C, cl, hS2, hD2, hcl, by simp, by simp, by simp, by simp, by simp, ?_,
        by simp, ?_⟩
      · intro _
        exact ⟨hCN, hn, hmod, hex⟩
      · intro _
        exact hpk
    · refine ⟨K, C, cl, hS2, hD2, hcl, by simp [hst], by simp [hst], by simp [hst],
        by simp [hst], by simp [hst], ?_, by simp [hst], ?_⟩
      · intro _
        exact ⟨hCN, hn, hmod, hex⟩
      · intro _
        exact hpk
  | CHECK_SIZE =>
    obtain ⟨hCN, hn, hmod, hex⟩ := h_tr (Or.inr (Or.inr (Or.inr hst)))
    obtain ⟨K1, r, hK, hr0, hcs, hsub⟩ := h_pkg (Or.inr (Or.inr hst))
    have hsub2 : (cl ++ [s.currentSessionID]).Sublist (okIds K) := by
      rw [hK, okIds_append_singleton, if_pos hr0, hcs]
      exact List.Sublist.append_right hsub _
    have hsub3 : cl.Sublist (okIds K) := by
      rw [hK, okIds_append_singleton]
      exact List.Sublist.trans hsub (List.sublist_append_left _ _)
    have hdm := dec16_add_one_mod _ hn
    rw [tick_check_size W s t hst]
    split
    · split
      · rename_i hz
        right
        refine ⟨rfl, K, C, cl ++ [s.currentSessionID],
          s.openConStatusBuffer ++ t.openArrivals, hS2, hD2, hCN, by simp [hcl], hsub2, ?_, ?_⟩
        · rw [hz] at hdm
          simp only [List.length_append, List.length_singleton]
          omega
        · intro hall
          have := hex hall
          have hd : dec16 s.numConnections = s.numConnections - 1 := dec16_pos _ this.1
          rw [hd] at hz
          simp only [List.length_append, List.length_singleton]
          omega
      · rename_i hz
        left
        refine ⟨K, C, cl ++ [s.currentSessionID], hS2, hD2, by simp [hcl], by simp, by simp,
          by simp, by simp, by simp, ?_, ?_, by simp⟩
        · intro _
          refine ⟨hCN, dec16_lt _ hn, ?_, ?_⟩
          · simp only [List.length_append, List.length_singleton]
            omega
          · intro hall
            have := hex hall
            have hd : dec16 s.numConnections = s.numConnections - 1 := dec16_pos _ this.1
            rw [hd] at hz
            simp only [hd, List.length_append, List.length_singleton]
            omega
        · intro _
          exact hsub2
    · left
      refine ⟨K, C, cl, hS2, hD2, hcl, by simp, by simp, by simp, by simp, by simp, ?_, ?_,
        by simp⟩
      · intro _
        exact ⟨hCN, hn, hmod, hex⟩
      · intro _
        exact hsub3

theorem CloseInv_not_idle (N : Nat) (cl0 : List Nat) (D : List openStatus) (S : List appTxRsp)
    (s : ClientState) (h : CloseInv N cl0 D S s) : s.iperfFsmState ≠ .IDLE := by
  obtain ⟨_, _, _, _, _, _, hnI, _⟩ := h
  exact hnI

/-- A run that returns to `IDLE` ends in `CloseDone`; `R2` are the completions
that arrive on ticks after the return. -/
theorem CloseInv_runUntilIdle (W N : Nat) (cl0 : List Nat) (hN : N < 65536)
    (sf : ClientState) :
    ∀ (ts : List TickInput) (D : List openStatus) (S : List appTxRsp) (s : ClientState),
      CloseInv N cl0 D S s →
      (∀ t ∈ ts, t.numSessions = N) →
      runUntilIdle W s ts = some sf →
      sf.iperfFsmState = .IDLE ∧
      ∃ (K : List appTxRsp) (C : List openStatus) (cl : List Nat) (R : List openStatus)
        (R2 : List appTxRsp),
        S ++ txStream ts = K ++ (sf.txStatus ++ R2) ∧
        D ++ openStream ts = C ++ R ∧ C.length = N ∧
        sf.closeConnection = cl0 ++ cl ∧ cl.Sublist (okIds K) ∧
        (cl.length + fatalCount K) % 65536 = successCount C % 65536 ∧
        ((∀ r ∈ K, r.error ≠ 1) → cl.length = successCount C) := by
  intro ts
  induction ts with
  | nil =>
    intro D S s _ _ h
    simp [runUntilIdle] at h
  | cons t ts ih =>
    intro D S s hinv hall hrun
    have hstep := CloseInv_tick W N cl0 D S hN s t hinv (hall t (List.mem_cons_self _ _))
    rw [runUntilIdle] at hrun
    by_cases hi : (tick W s t).iperfFsmState = .IDLE
    · rw [if_pos hi] at hrun
      have hsf : tick W s t = sf := Option.some.inj hrun
      rcases hstep with h | h
      · exact absurd hi (CloseInv_not_idle _ _ _ _ _ h)
      · obtain ⟨_, K, C, cl, R, hS, hD, hCN, hcl, hsub, hmod, hex⟩ := h
        rw [← hsf]
        refine ⟨hi, K, C, cl, R ++ openStream ts, txStream ts, ?_, ?_, hCN, hcl, hsub, hmod,
          hex⟩
        · rw [txStream_cons, ← List.append_assoc, hS, List.append_assoc]
        · rw [openStream_cons, ← List.append_assoc, hD, List.append_assoc]
    · rw [if_neg hi] at hrun
      rcases hstep with h | h
      · have := ih (D ++ t.openArrivals) (S ++ t.txArrivals) (tick W s t) h
          (fun u hu => hall u (List.mem_cons_of_mem _ hu)) hrun
        rw [openStream_cons, txStream_cons, ← List.append_assoc, ← List.append_assoc]
        exact this
      · exact absurd h.1 hi

theorem fatalCount_eq_zero (K : List appTxRsp) (h : ∀ r ∈ K, r.error ≠ 1) :
    fatalCount K = 0 := by
  unfold fatalCount
  rw [List.length_eq_zero, List.filter_eq_nil_iff]
  intro r hr
  simpa using h r hr

/-- C1, amended.  Over one run (from the `IDLE -> INIT_CON` transition until
the driver next returns to `IDLE`) with `numSessions = N` held constant, for
every stream of open results and send completions: the send completions
consist of those read during the run (`K`), those still waiting at the return
and those arriving later; the close requests `cl` written during the run are,
in order, session ids of completions with `error = 0` among `K`, each written
for the completion just served; and the close requests together with the
completions with `error = 1` read are, modulo `2^16`, as many as the open
results with `success = true` among the `N` consumed in `WAIT_CON`, and exactly
as many when fewer than `2^16` completions with `error` 0 or 1 were read or
none with `error = 1` was read: every session that became active is closed by
one close request or dropped, without one, by one fatal completion. -/
theorem close_requests_account (W N : Nat) (hN : N ≤ 65535)
    (s0 sf : ClientState) (t0 : TickInput) (ts : List TickInput)
    (h0 : s0.iperfFsmState = .IDLE) (hr : t0.runTx ≠ 0)
    (hall : ∀ t ∈ ts, t.numSessions = N)
    (hrun : runUntilIdle W s0 (t0 :: ts) = some sf) :
    sf.iperfFsmState = .IDLE ∧
    ∃ (cl : List Nat) (K R : List appTxRsp),
      sf.closeConnection = s0.closeConnection ++ cl ∧
      s0.txStatus ++ txStream (t0 :: ts) = K ++ (sf.txStatus ++ R) ∧
      cl.Sublist (okIds K) ∧
      (cl.length + fatalCount K) % 65536 =
        successCount ((s0.openConStatusBuffer ++ openStream (t0 :: ts)).take N) % 65536 ∧
      ((okIds K).length + fatalCount K ≤ 65535 ∨ (∀ r ∈ K, r.error ≠ 1) →
        cl.length + fatalCount K =
          successCount ((s0.openConStatusBuffer ++ openStream (t0 :: ts)).take N)) := by
  have hs1 := tick_idle_start W s0 t0 h0 hr
  have hinv : CloseInv N s0.closeConnection (s0.openConStatusBuffer ++ t0.openArrivals)
      (s0.txStatus ++ t0.txArrivals) (tick W s0 t0) := by
    rw [hs1]
    refine ⟨[], [], [], by simp, by simp, by simp, by simp, by simp, by simp, by simp, by simp,
      ?_, by simp, by simp⟩
    intro h
    simp [inTraffic] at h
  rw [runUntilIdle, if_neg (CloseInv_not_idle _ _ _ _ _ hinv)] at hrun
  obtain ⟨hidle, K, C, cl, R, R2, hS, hD, hCN, hcl, hsub, hmod, hex⟩ :=
    CloseInv_runUntilIdle W N s0.closeConnection (by omega) sf ts _ _ _ hinv hall hrun
  have htake : (s0.openConStatusBuffer ++ openStream (t0 :: ts)).take N = C := by
    rw [openStream_cons, ← List.append_assoc, hD, ← hCN, List.take_left']
    rfl
  refine ⟨hidle, cl, K, R2, hcl, ?_, hsub, ?_, ?_⟩
  · rw [txStream_cons, ← List.append_assoc]
    exact hS
  · rw [htake]
    exact hmod
  · rw [htake]
    intro hcond
    rcases hcond with hle | hnf
    · have h1 := hsub.length_le
      have h2 := successCount_le C
      omega
    · rw [fatalCount_eq_zero K hnf, Nat.add_zero]
      exact hex hnf

/-- C1 amended, on two sessions that both open: the seed request of session 1
fails with `error = 1` and session 2 completes its packet.  One close request,
for session 2, and one fatal completion make up the two successes. -/
theorem close_requests_account_witness :
    ∃ (cl : List Nat) (K R : List appTxRsp),
      ([2] : List Nat) = ([] : List Nat) ++ cl ∧
      ([] : List appTxRsp) ++ txStream
          (quiet 1 2 1 9 1 ::
            [quiet 1 2 1 9 1, quiet 1 2 1 9 1,
             withOpen (quiet 1 2 1 9 1) [⟨1, true⟩], withOpen (quiet 1 2 1 9 1) [⟨2, true⟩],
             quiet 1 2 1 9 1,
             withTx (quiet 1 2 1 9 1) [⟨1, 1⟩], withTx (quiet 1 2 1 9 1) [⟨2, 0⟩],
             quiet 1 2 1 9 1, quiet 1 2 1 9 1]) = K ++ (([] : List appTxRsp) ++ R) ∧
      cl.Sublist (okIds K) ∧
      (cl.length + fatalCount K) % 65536 =
        successCount
          ((([] : List openStatus) ++ openStream
            (quiet 1 2 1 9 1 ::
              [quiet 1 2 1 9 1, quiet 1 2 1 9 1,
               withOpen (quiet 1 2 1 9 1) [⟨1, true⟩], withOpen (quiet 1 2 1 9 1) [⟨2, true⟩],
               quiet 1 2 1 9 1,
               withTx (quiet 1 2 1 9 1) [⟨1, 1⟩], withTx (quiet 1 2 1 9 1) [⟨2, 0⟩],
               quiet 1 2 1 9 1, quiet 1 2 1 9 1])).take 2) % 65536 ∧
      ((okIds K).length + fatalCount K ≤ 65535 ∨ (∀ r ∈ K, r.error ≠ 1) →
        cl.length + fatalCount K =
          successCount
            ((([] : List openStatus) ++ openStream
              (quiet 1 2 1 9 1 ::
                [quiet 1 2 1 9 1, quiet 1 2 1 9 1,
                 withOpen (quiet 1 2 1 9 1) [⟨1, true⟩],
                 withOpen (quiet 1 2 1 9 1) [⟨2, true⟩],
                 quiet 1 2 1 9 1,
                 withTx (quiet 1 2 1 9 1) [⟨1, 1⟩], withTx (quiet 1 2 1 9 1) [⟨2, 0⟩],
                 quiet 1 2 1 9 1, quiet 1 2 1 9 1])).take 2)) :=
  (close_requests_account 64 2 (by decide) initState
    { iperfFsmState := .IDLE
      currentSessionID := 2
      numConnections := 0
      wordCount := 0
      totalPkgCounter := 1
      totalSendTarget := 2
      openConnection := [⟨9, 5001⟩, ⟨9, 5001⟩]
      openConStatusBuffer := []
      closeConnection := [2]
      txMetaDataBuffer := [⟨1, 8⟩, ⟨2, 8⟩, ⟨2, 8⟩]
      txDataBuffer := [payloadWord 64 true]
      txStatus := [] }
    (quiet 1 2 1 9 1)
    [quiet 1 2 1 9 1, quiet 1 2 1 9 1,
     withOpen (quiet 1 2 1 9 1) [⟨1, true⟩], withOpen (quiet 1 2 1 9 1) [⟨2, true⟩],
     quiet 1 2 1 9 1,
     withTx (quiet 1 2 1 9 1) [⟨1, 1⟩], withTx (quiet 1 2 1 9 1) [⟨2, 0⟩],
     quiet 1 2 1 9 1, quiet 1 2 1 9 1]
    rfl (by decide) (by decide) (by decide)).2

/-! ### Runs whose arrivals answer requests -/

theorem answersRequests_append (W : Nat) (xs ys : List TickInput) :
    ∀ (s : ClientState) (o : Nat) (done : List Nat),
      answersRequests W s o done (xs ++ ys) =
        (answersRequests W s o done xs &&
          answersRequests W (run W s xs) (o + (openStream xs).length)
            (done ++ completionIds (txStream xs)) ys) := by
  induction xs with
  | nil =>
    intro s o done
    simp [answersRequests, run, openStream, txStream, completionIds]
  | cons t ts ih =>
    intro s o done
    rw [List.cons_append, answersRequests, answersRequests, run, ih]
    simp only [openStream_cons, txStream_cons, List.length_append, completionIds,
      List.map_append, List.append_assoc, Nat.add_assoc, Bool.and_assoc]

theorem answersRequests_no_arrivals (W : Nat) (ts : List TickInput) :
    ∀ (s : ClientState) (o : Nat) (done : List Nat),
      (∀ t ∈ ts, t.openArrivals = [] ∧ t.txArrivals = []) →
      answersRequests W s o done ts = true := by
  induction ts with
  | nil => intro s o done _; rfl
  | cons t ts ih =>
    intro s o done h
    obtain ⟨h1, h2⟩ := h t (List.mem_cons_self _ _)
    simp only [answersRequests, h1, h2, List.isEmpty_nil, Bool.true_or, List.all_nil,
      Bool.true_and, List.length_nil, Nat.add_zero, completionIds, List.map_nil,
      List.append_nil]
    exact ih _ _ _ (fun u hu => h u (List.mem_cons_of_mem _ hu))

/-- The three ticks of a one-word packet answer a request when the session of
the completion has a send request that no earlier completion answered. -/
theorem answersRequests_packet (W a b c d e sid er : Nat) (s : ClientState) (o : Nat)
    (done : List Nat)
    (h : done.count sid + 1 ≤ (requestIds s.txMetaDataBuffer).count sid) :
    answersRequests W s o done
      [withTx (quiet a b c d e) [⟨sid, er⟩], quiet a b c d e, quiet a b c d e] = true := by
  have hq := answersRequests_no_arrivals W [quiet a b c d e, quiet a b c d e]
    (tick W s (withTx (quiet a b c d e) [⟨sid, er⟩])) o (done ++ [sid])
    (by intro t ht; simp at ht; subst ht; exact ⟨rfl, rfl⟩)
  rw [answersRequests]
  simp only [withTx, quiet, List.isEmpty_nil, Bool.true_or, Bool.true_and, List.nil_append,
    List.all_cons, List.all_nil, Bool.and_true, completionIds, List.map_cons, List.map_nil,
    List.length_nil, Nat.add_zero, Bool.and_eq_true, decide_eq_true_eq]
  refine ⟨?_, ?_⟩
  · rw [List.count_append, List.count_singleton_self]
    exact h
  · simpa [withTx, quiet] using hq

/-- A one-word packet in the middle of the quota: the completion with
`error = 0` is read, `START_PKG` issues the next send request and counts the
packet, and `CHECK_SIZE` closes nothing. -/
theorem run_issuing_packet (W sid a b d e : Nat) (hsid : sid < 65536) (s : ClientState)
    (hs : s.iperfFsmState = .CHECK_REQ) (hb : s.txStatus = []) (hw : s.wordCount = 0)
    (hq : s.totalPkgCounter + 1 + s.numConnections < s.totalSendTarget)
    (hc : s.totalPkgCounter + 1 ≤ 65535) :
    run W s [withTx (quiet a b 1 d e) [⟨sid, 0⟩], quiet a b 1 d e, quiet a b 1 d e] =
      { s with
        currentSessionID := sid
        totalPkgCounter := s.totalPkgCounter + 1
        txMetaDataBuffer := s.txMetaDataBuffer ++ [⟨sid, 1 * (W / 8)⟩]
        txDataBuffer := s.txDataBuffer ++ [payloadWord W true] } := by
  have h1 : tick W s (withTx (quiet a b 1 d e) [⟨sid, 0⟩]) =
      { s with iperfFsmState := .START_PKG, currentSessionID := sid } := by
    rw [tick_check_req_read W s _ ⟨sid, 0⟩ [] hs (by simp [hb, withTx, quiet]), if_pos rfl]
    cases s
    simp_all [quiet, withTx, Nat.mod_eq_of_lt hsid]
  have h2 : tick W { s with iperfFsmState := .START_PKG, currentSessionID := sid }
      (quiet a b 1 d e) =
      { s with
        iperfFsmState := .CHECK_SIZE
        currentSessionID := sid
        wordCount := 0
        totalPkgCounter := s.totalPkgCounter + 1
        txMetaDataBuffer := s.txMetaDataBuffer ++ [⟨sid, 1 * (W / 8)⟩]
        txDataBuffer := s.txDataBuffer ++ [payloadWord W true] } := by
    rw [tick_start_pkg W _ _ rfl, if_pos (by simp [quiet])]
    have hyes : (s.totalPkgCounter : Int) < (s.totalSendTarget : Int) - (s.numConnections : Int) := by
      omega
    simp only [if_pos hyes, quiet, List.append_nil]
    rw [Nat.mod_eq_of_lt (by omega)]
  have h3 : tick W
      { s with
        iperfFsmState := .CHECK_SIZE
        currentSessionID := sid
        wordCount := 0
        totalPkgCounter := s.totalPkgCounter + 1
        txMetaDataBuffer := s.txMetaDataBuffer ++ [⟨sid, 1 * (W / 8)⟩]
        txDataBuffer := s.txDataBuffer ++ [payloadWord W true] } (quiet a b 1 d e) =
      { s with
        currentSessionID := sid
        totalPkgCounter := s.totalPkgCounter + 1
        txMetaDataBuffer := s.txMetaDataBuffer ++ [⟨sid, 1 * (W / 8)⟩]
        txDataBuffer := s.txDataBuffer ++ [payloadWord W true] } := by
    rw [tick_check_size W _ _ rfl]
    have hno : ¬ (((s.totalPkgCounter + 1 : Nat) : Int) ≥
        (s.totalSendTarget : Int) - (s.numConnections : Int)) := by
      omega
    simp only [if_neg hno, quiet, List.append_nil]
    cases s
    simp_all
  simp only [run]
  rw [h1, h2, h3]

/-- A one-word packet that meets the threshold of `CHECK_SIZE`: `START_PKG`
still issues the next send request, and `CHECK_SIZE` writes a close request
and decrements `numConnections`. -/
theorem run_issuing_closing_packet (W sid a b d e : Nat) (hsid : sid < 65536)
    (s : ClientState)
    (hs : s.iperfFsmState = .CHECK_REQ) (hb : s.txStatus = []) (hw : s.wordCount = 0)
    (hq : s.totalPkgCounter + 1 + s.numConnections = s.totalSendTarget)
    (hc : s.totalPkgCounter + 1 ≤ 65535) (hd : dec16 s.numConnections ≠ 0) :
    run W s [withTx (quiet a b 1 d e) [⟨sid, 0⟩], quiet a b 1 d e, quiet a b 1 d e] =
      { s with
        currentSessionID := sid
        numConnections := dec16 s.numConnections
        totalPkgCounter := s.totalPkgCounter + 1
        closeConnection := s.closeConnection ++ [sid]
        txMetaDataBuffer := s.txMetaDataBuffer ++ [⟨sid, 1 * (W / 8)⟩]
        txDataBuffer := s.txDataBuffer ++ [payloadWord W true] } := by
  have h1 : tick W s (withTx (quiet a b 1 d e) [⟨sid, 0⟩]) =
      { s with iperfFsmState := .START_PKG, currentSessionID := sid } := by
    rw [tick_check_req_read W s _ ⟨sid, 0⟩ [] hs (by simp [hb, withTx, quiet]), if_pos rfl]
    cases s
    simp_all [quiet, withTx, Nat.mod_eq_of_lt hsid]
  have h2 : tick W { s with iperfFsmState := .START_PKG, currentSessionID := sid }
      (quiet a b 1 d e) =
      { s with
        iperfFsmState := .CHECK_SIZE
        currentSessionID := sid
        wordCount := 0
        totalPkgCounter := s.totalPkgCounter + 1
        txMetaDataBuffer := s.txMetaDataBuffer ++ [⟨sid, 1 * (W / 8)⟩]
        txDataBuffer := s.txDataBuffer ++ [payloadWord W true] } := by
    rw [tick_start_pkg W _ _ rfl, if_pos (by simp [quiet])]
    have hyes : (s.totalPkgCounter : Int) < (s.totalSendTarget : Int) - (s.numConnections : Int) := by
      omega
    simp only [if_pos hyes, quiet, List.append_nil]
    rw [Nat.mod_eq_of_lt (by omega)]
  have h3 : tick W
      { s with
        iperfFsmState := .CHECK_SIZE
        currentSessionID := sid
        wordCount := 0
        totalPkgCounter := s.totalPkgCounter + 1
        txMetaDataBuffer := s.txMetaDataBuffer ++ [⟨sid, 1 * (W / 8)⟩]
        txDataBuffer := s.txDataBuffer ++ [payloadWord W true] } (quiet a b 1 d e) =
      { s with
        currentSessionID := sid
        numConnections := dec16 s.numConnections
        totalPkgCounter := s.totalPkgCounter + 1
        closeConnection := s.closeConnection ++ [sid]
        txMetaDataBuffer := s.txMetaDataBuffer ++ [⟨sid, 1 * (W / 8)⟩]
        txDataBuffer := s.txDataBuffer ++ [payloadWord W true] } := by
    rw [tick_check_size W _ _ rfl]
    have hyes : ((s.totalPkgCounter + 1 : Nat) : Int) ≥
        (s.totalSendTarget : Int) - (s.numConnections : Int) := by
      omega
    simp only [if_pos hyes, if_neg hd, quiet, List.append_nil]
    cases s
    simp_all
  simp only [run]
  rw [h1, h2, h3]

/-- The loop of `m` one-word packets in the middle of the quota. -/
theorem run_issuing_packets (W sid a b d e : Nat) (hsid : sid < 65536) :
    ∀ (m : Nat) (s : ClientState),
      s.iperfFsmState = .CHECK_REQ → s.txStatus = [] → s.currentSessionID = sid →
      s.wordCount = 0 → s.totalPkgCounter + m + s.numConnections < s.totalSendTarget →
      s.totalPkgCounter + m ≤ 65535 →
      run W s
        (List.replicate m
          [withTx (quiet a b 1 d e) [⟨sid, 0⟩], quiet a b 1 d e, quiet a b 1 d e]).flatten =
        { s with
          totalPkgCounter := s.totalPkgCounter + m
          txMetaDataBuffer := s.txMetaDataBuffer ++ List.replicate m ⟨sid, 1 * (W / 8)⟩
          txDataBuffer := s.txDataBuffer ++ List.replicate m (payloadWord W true) } := by
  intro m
  induction m with
  | zero =>
    intro s _ _ _ _ _ _
    simp [run]
  | succ m ih =>
    intro s hs hb hc hw hq hp
    rw [List.replicate_succ, List.flatten_cons, run_append,
      run_issuing_packet W sid a b d e hsid s hs hb hw (by omega) (by omega)]
    refine Eq.trans (ih _ hs hb rfl hw (by simp only; omega) (by simp only; omega)) ?_
    simp only [List.replicate_succ, List.append_assoc, List.singleton_append,
      ClientState.mk.injEq, true_and, and_true]
    exact ⟨hc.symm, by omega⟩

theorem openStream_packets (m a b c d e sid er : Nat) :
    openStream
      (List.replicate m
        [withTx (quiet a b c d e) [⟨sid, er⟩], quiet a b c d e, quiet a b c d e]).flatten =
      [] := by
  induction m with
  | zero => rfl
  | succ m ih =>
    rw [List.replicate_succ, List.flatten_cons, openStream_append, ih]
    rfl

theorem txStream_packets (m a b c d e sid er : Nat) :
    completionIds (txStream
      (List.replicate m
        [withTx (quiet a b c d e) [⟨sid, er⟩], quiet a b c d e, quiet a b c d e]).flatten) =
      List.replicate m sid := by
  induction m with
  | zero => rfl
  | succ m ih =>
    rw [List.replicate_succ, List.flatten_cons, txStream_append, completionIds,
      List.map_append]
    rw [completionIds] at ih
    rw [ih]
    rfl

/-- A loop of packets for one session answers requests when, before each
packet, that session has a send request that no earlier completion
answered. -/
theorem answersRequests_packets (W a b c d e sid er : Nat) :
    ∀ (m : Nat) (s : ClientState) (o : Nat) (done : List Nat),
      (∀ j, j < m →
        done.count sid + j + 1 ≤
          (requestIds (run W s
            (List.replicate j
              [withTx (quiet a b c d e) [⟨sid, er⟩], quiet a b c d e,
                quiet a b c d e]).flatten).txMetaDataBuffer).count sid) →
      answersRequests W s o done
        (List.replicate m
          [withTx (quiet a b c d e) [⟨sid, er⟩], quiet a b c d e,
            quiet a b c d e]).flatten = true := by
  intro m
  induction m with
  | zero => intro s o done _; rfl
  | succ m ih =>
    intro s o done h
    rw [List.replicate_succ', List.flatten_append, answersRequests_append,
      ih s o done (fun j hj => h j (by omega)), Bool.true_and, List.flatten_singleton,
      openStream_packets, txStream_packets]
    apply answersRequests_packet
    rw [List.count_append, List.count_replicate_self]
    exact h m (by omega)

/-- The opening phase from the initial state on quiet ticks: after the starting
tick and `N` opening ticks the driver is in `WAIT_CON` with `N` open requests
written. -/
theorem run_opening_quiet (W N w d P : Nat) (hN1 : 1 ≤ N) (hN : N ≤ 65535) :
    run W initState (quiet 1 N w d P :: List.replicate N (quiet 1 N w d P)) =
      { iperfFsmState := .WAIT_CON
        currentSessionID := 0
        numConnections := 0
        wordCount := 0
        totalPkgCounter := 0
        totalSendTarget := 0
        openConnection := List.replicate N ⟨d, 5001⟩
        openConStatusBuffer := []
        closeConnection := []
        txMetaDataBuffer := []
        txDataBuffer := []
        txStatus := [] } := by
  have hmem : ∀ t ∈ List.replicate N (quiet 1 N w d P), t = quiet 1 N w d P :=
    fun t ht => List.eq_of_mem_replicate ht
  have hopen := (run_opening_phase W N N (by omega) (by rw [if_neg (by omega)]) initState
    (quiet 1 N w d P) (List.replicate N (quiet 1 N w d P)) rfl (by simp [quiet])
    (fun t ht => by rw [hmem t ht]; rfl) (List.length_replicate _ _)).2
  rw [List.map_replicate, openStream_cons, txStream_cons, openStream_replicate_quiet,
    txStream_replicate_quiet] at hopen
  rw [hopen]
  simp [initState, quiet]

/-- The arrivals of the opening of a run answer requests when the open results,
at most `N`, arrive on the tick after the last of the `N` open requests was
written. -/
theorem answersRequests_opening (W N w d P k : Nat) (hN1 : 1 ≤ N) (hN : N ≤ 65535)
    (R : List openStatus) (hR : R.length ≤ N) :
    answersRequests W initState 0 []
      (quiet 1 N w d P :: List.replicate N (quiet 1 N w d P) ++
        (withOpen (quiet 1 N w d P) R :: List.replicate k (quiet 1 N w d P)) ++
        [quiet 1 N w d P]) = true := by
  have hq : ∀ (m : Nat), ∀ t ∈ List.replicate m (quiet 1 N w d P),
      t.openArrivals = [] ∧ t.txArrivals = [] := by
    intro m t ht
    rw [List.eq_of_mem_replicate ht]
    exact ⟨rfl, rfl⟩
  rw [answersRequests_append, answersRequests_append,
    answersRequests_no_arrivals W (quiet 1 N w d P :: List.replicate N (quiet 1 N w d P)),
    answersRequests_no_arrivals W [quiet 1 N w d P], Bool.true_and, Bool.and_true,
    run_opening_quiet W N w d P hN1 hN, answersRequests,
    answersRequests_no_arrivals W (List.replicate k (quiet 1 N w d P)) _ _ _ (hq k)]
  · rw [openStream_cons, openStream_replicate_quiet]
    simp only [withOpen, quiet, List.nil_append, List.append_nil,
      List.length_nil, Nat.add_zero, List.length_replicate, List.all_nil, Bool.and_true,
      Bool.or_eq_true, decide_eq_true_eq]
    right
    omega
  · intro t ht
    simp only [List.mem_singleton] at ht
    subst ht
    exact ⟨rfl, rfl⟩
  · intro t ht
    simp only [List.mem_cons] at ht
    rcases ht with ht | ht
    · subst ht
      exact ⟨rfl, rfl⟩
    · exact hq N t ht

/-- A run from the initial state whose `N` open results, the first of them
successful, all arrive on the tick after the last open request was written:
after the starting tick, `N` opening ticks, `N` ticks of `WAIT_CON` and the
tick that leaves it, the driver is in `CHECK_REQ` in the state given here. -/
theorem run_to_check_req_arriving (W N w d P : Nat) (hN1 : 1 ≤ N) (hN : N ≤ 65535)
    (r : openStatus) (R : List openStatus) (hr : r.success = true) (hR : R.length + 1 = N) :
    run W initState
      (quiet 1 N w d P :: List.replicate N (quiet 1 N w d P) ++
        (withOpen (quiet 1 N w d P) (r :: R) :: List.replicate R.length (quiet 1 N w d P)) ++
        [quiet 1 N w d P]) =
      { iperfFsmState := .CHECK_REQ
        currentSessionID := N
        numConnections := 1 + successCount R
        wordCount := 0
        totalPkgCounter := 0
        totalSendTarget := ((1 + successCount R) * P) % 65536
        openConnection := List.replicate N ⟨d, 5001⟩
        openConStatusBuffer := []
        closeConnection := []
        txMetaDataBuffer := ⟨r.sessionID, w * (W / 8)⟩ :: seedRequests W w R
        txDataBuffer := []
        txStatus := [] } := by
  have hmem : ∀ t ∈ List.replicate N (quiet 1 N w d P), t = quiet 1 N w d P :=
    fun t ht => List.eq_of_mem_replicate ht
  have hmem2 : ∀ t ∈ List.replicate R.length (quiet 1 N w d P), t = quiet 1 N w d P :=
    fun t ht => List.eq_of_mem_replicate ht
  have hopen := (run_opening_phase W N N (by omega) (by rw [if_neg (by omega)]) initState
    (quiet 1 N w d P) (List.replicate N (quiet 1 N w d P)) rfl (by simp [quiet])
    (fun t ht => by rw [hmem t ht]; rfl) (List.length_replicate _ _)).2
  rw [List.map_replicate, openStream_cons, txStream_cons, openStream_replicate_quiet,
    txStream_replicate_quiet] at hopen
  have hopen2 : run W initState (quiet 1 N w d P :: List.replicate N (quiet 1 N w d P)) =
      { iperfFsmState := .WAIT_CON
        currentSessionID := 0
        numConnections := 0
        wordCount := 0
        totalPkgCounter := 0
        totalSendTarget := 0
        openConnection := List.replicate N ⟨d, 5001⟩
        openConStatusBuffer := []
        closeConnection := []
        txMetaDataBuffer := []
        txDataBuffer := []
        txStatus := [] } := by
    rw [hopen]
    simp [initState, quiet]
  have hcnt := successCount_le R
  have hread : tick W
      { iperfFsmState := .WAIT_CON
        currentSessionID := 0
        numConnections := 0
        wordCount := 0
        totalPkgCounter := 0
        totalSendTarget := 0
        openConnection := List.replicate N ⟨d, 5001⟩
        openConStatusBuffer := []
        closeConnection := []
        txMetaDataBuffer := []
        txDataBuffer := []
        txStatus := [] }
      (withOpen (quiet 1 N w d P) (r :: R)) =
      { iperfFsmState := .WAIT_CON
        currentSessionID := 1
        numConnections := 1
        wordCount := 0
        totalPkgCounter := 0
        totalSendTarget := 0
        openConnection := List.replicate N ⟨d, 5001⟩
        openConStatusBuffer := R
        closeConnection := []
        txMetaDataBuffer := [⟨r.sessionID, w * (W / 8)⟩]
        txDataBuffer := []
        txStatus := [] } := by
    rw [tick_wait_con_read W _ _ r R rfl (by simp [quiet, withOpen]; omega)
      (by simp [quiet, withOpen]), if_pos hr]
    simp [quiet, withOpen]
  have hcons := run_wait_con_consume W N w (by omega) R
    (List.replicate R.length (quiet 1 N w d P))
    { iperfFsmState := .WAIT_CON
      currentSessionID := 1
      numConnections := 1
      wordCount := 0
      totalPkgCounter := 0
      totalSendTarget := 0
      openConnection := List.replicate N ⟨d, 5001⟩
      openConStatusBuffer := R
      closeConnection := []
      txMetaDataBuffer := [⟨r.sessionID, w * (W / 8)⟩]
      txDataBuffer := []
      txStatus := [] } []
    rfl (by simp) (List.length_replicate _ _) (by simp only; omega) (by simp)
    (fun t ht => by rw [hmem2 t ht]; rfl) (fun t ht => by rw [hmem2 t ht]; rfl)
  rw [openStream_replicate_quiet, txStream_replicate_quiet] at hcons
  rw [run_append, run_append, hopen2]
  simp only [run]
  rw [hread, hcons]
  rw [tick_wait_con_leave W _ _ rfl (by simp only [quiet]; omega),
    if_pos (by simp only; omega)]
  simp [quiet, successCount]
  omega

theorem count_requestIds_append_replicate (M : List appTxMeta) (sid l j : Nat) :
    (requestIds (M ++ List.replicate j ⟨sid, l⟩)).count sid = (requestIds M).count sid + j := by
  simp only [requestIds, List.map_append, List.map_replicate, List.count_append,
    List.count_replicate_self]

theorem count_requestIds_append_le (M M2 : List appTxMeta) (x : Nat) :
    (requestIds M).count x ≤ (requestIds (M ++ M2)).count x := by
  simp only [requestIds, List.map_append, List.count_append]
  omega

theorem count_append_replicate_ne (done : List Nat) (x y m : Nat) (h : y ≠ x) :
    (done ++ List.replicate m y).count x = done.count x := by
  rw [List.count_append, List.count_replicate, if_neg (by simp [h]), Nat.add_zero]

/-- A loop of packets answers requests when each of its packets issues a send
request for the session and that session had an unanswered send request
before the loop. -/
theorem answersRequests_issuing (W a b d e sid l : Nat) (m : Nat) (s : ClientState) (o : Nat)
    (done : List Nat)
    (hrun : ∀ j, j < m →
      (run W s
        (List.replicate j
          [withTx (quiet a b 1 d e) [⟨sid, 0⟩], quiet a b 1 d e,
            quiet a b 1 d e]).flatten).txMetaDataBuffer =
        s.txMetaDataBuffer ++ List.replicate j ⟨sid, l⟩)
    (h : done.count sid + 1 ≤ (requestIds s.txMetaDataBuffer).count sid) :
    answersRequests W s o done
      (List.replicate m
        [withTx (quiet a b 1 d e) [⟨sid, 0⟩], quiet a b 1 d e,
          quiet a b 1 d e]).flatten = true := by
  apply answersRequests_packets
  intro j hj
  rw [hrun j hj, count_requestIds_append_replicate]
  omega

/-- The first packet of a session in the middle of the quota, in terms of
`AtCheckReq`. -/
theorem issuing_packet_facts (W sid a b d e : Nat) (hsid : sid < 65536) (s : ClientState)
    (cs n c T : Nat) (h : AtCheckReq s cs n c T) (hq : c + 1 + n < T) (hc : c + 1 ≤ 65535) :
    AtCheckReq
      (run W s
        (List.replicate 1
          [withTx (quiet a b 1 d e) [⟨sid, 0⟩], quiet a b 1 d e, quiet a b 1 d e]).flatten)
      sid n (c + 1) T ∧
    (run W s
      (List.replicate 1
        [withTx (quiet a b 1 d e) [⟨sid, 0⟩], quiet a b 1 d e,
          quiet a b 1 d e]).flatten).txMetaDataBuffer =
      s.txMetaDataBuffer ++ List.replicate 1 ⟨sid, 1 * (W / 8)⟩ := by
  obtain ⟨hs, hb, hw, _, hn, hcc, hT⟩ := h
  have hP : (List.replicate 1
      [withTx (quiet a b 1 d e) [⟨sid, 0⟩], quiet a b 1 d e, quiet a b 1 d e]).flatten =
      [withTx (quiet a b 1 d e) [⟨sid, 0⟩], quiet a b 1 d e, quiet a b 1 d e] := rfl
  rw [hP, run_issuing_packet W sid a b d e hsid s hs hb hw (by omega) (by omega)]
  exact ⟨⟨hs, hb, hw, rfl, hn, by simp only [hcc], hT⟩, rfl⟩

/-- The loop of packets in the middle of the quota, in terms of `AtCheckReq`. -/
theorem issuing_packets_facts (W sid a b d e : Nat) (hsid : sid < 65536) (m : Nat)
    (s : ClientState) (n c T : Nat) (h : AtCheckReq s sid n c T) (hq : c + m + n < T)
    (hc : c + m ≤ 65535) :
    AtCheckReq
      (run W s
        (List.replicate m
          [withTx (quiet a b 1 d e) [⟨sid, 0⟩], quiet a b 1 d e, quiet a b 1 d e]).flatten)
      sid n (c + m) T ∧
    (run W s
      (List.replicate m
        [withTx (quiet a b 1 d e) [⟨sid, 0⟩], quiet a b 1 d e,
          quiet a b 1 d e]).flatten).txMetaDataBuffer =
      s.txMetaDataBuffer ++ List.replicate m ⟨sid, 1 * (W / 8)⟩ := by
  obtain ⟨hs, hb, hw, hcs, hn, hcc, hT⟩ := h
  rw [run_issuing_packets W sid a b d e hsid m s hs hb hcs hw (by omega) (by omega)]
  exact ⟨⟨hs, hb, hw, hcs, hn, by simp only [hcc], hT⟩, rfl⟩

/-- One packet that meets the threshold of `CHECK_SIZE`, whatever
`numConnections` is, in terms of `AtCheckReq`. -/
theorem issuing_closing_packet_facts (W sid a b d e : Nat) (hsid : sid < 65536)
    (s : ClientState) (cs n c T : Nat) (h : AtCheckReq s cs n c T) (hq : c + 1 + n = T)
    (hc : c + 1 ≤ 65535) (hd : dec16 n ≠ 0) :
    AtCheckReq
      (run W s
        (List.replicate 1
          [withTx (quiet a b 1 d e) [⟨sid, 0⟩], quiet a b 1 d e, quiet a b 1 d e]).flatten)
      sid (dec16 n) (c + 1) T ∧
    (run W s
      (List.replicate 1
        [withTx (quiet a b 1 d e) [⟨sid, 0⟩], quiet a b 1 d e,
          quiet a b 1 d e]).flatten).txMetaDataBuffer =
      s.txMetaDataBuffer ++ List.replicate 1 ⟨sid, 1 * (W / 8)⟩ := by
  obtain ⟨hs, hb, hw, _, hn, hcc, hT⟩ := h
  have hP : (List.replicate 1
      [withTx (quiet a b 1 d e) [⟨sid, 0⟩], quiet a b 1 d e, quiet a b 1 d e]).flatten =
      [withTx (quiet a b 1 d e) [⟨sid, 0⟩], quiet a b 1 d e, quiet a b 1 d e] := rfl
  rw [hP, run_issuing_closing_packet W sid a b d e hsid s hs hb hw (by omega) (by omega)
    (by rw [hn]; exact hd)]
  exact ⟨⟨hs, hb, hw, rfl, by simp only [hn], by simp only [hcc], hT⟩, rfl⟩

/-- A completion with `error = 1` read in `CHECK_REQ`, in terms of
`AtCheckReq`. -/
theorem fatal_tick_facts (W sid a b d e : Nat) (s : ClientState) (cs n c T : Nat)
    (h : AtCheckReq s cs n c T) :
    AtCheckReq (run W s [withTx (quiet a b 1 d e) [⟨sid, 1⟩]]) cs (dec16 n) c T ∧
    (run W s [withTx (quiet a b 1 d e) [⟨sid, 1⟩]]).txMetaDataBuffer =
      s.txMetaDataBuffer := by
  obtain ⟨hs, hb, hw, hcs, hn, hcc, hT⟩ := h
  simp only [run]
  rw [tick_check_req_read W s _ ⟨sid, 1⟩ [] hs (by simp [hb, withTx, quiet]),
    if_neg (by norm_num), if_pos rfl]
  exact ⟨⟨hs, rfl, hw, hcs, by simp only [hn], hcc, hT⟩, rfl⟩

theorem answersRequests_issuing_loop (W sid a b d e : Nat) (hsid : sid < 65536) (m : Nat)
    (s : ClientState) (n c T o : Nat) (done : List Nat) (h : AtCheckReq s sid n c T)
    (hq : c + m + n < T) (hc : c + m ≤ 65535)
    (hcount : done.count sid + 1 ≤ (requestIds s.txMetaDataBuffer).count sid) :
    answersRequests W s o done
      (List.replicate m
        [withTx (quiet a b 1 d e) [⟨sid, 0⟩], quiet a b 1 d e,
          quiet a b 1 d e]).flatten = true :=
  answersRequests_issuing W a b d e sid (1 * (W / 8)) m s o done
    (fun j hj => (issuing_packets_facts W sid a b d e hsid j s n c T h (by omega)
      (by omega)).2) hcount

theorem answersRequests_one_packet (W sid a b d e : Nat) (s : ClientState) (o : Nat)
    (done : List Nat)
    (hcount : done.count sid + 1 ≤ (requestIds s.txMetaDataBuffer).count sid) :
    answersRequests W s o done
      (List.replicate 1
        [withTx (quiet a b 1 d e) [⟨sid, 0⟩], quiet a b 1 d e,
          quiet a b 1 d e]).flatten = true :=
  answersRequests_packet W a b 1 d e sid 0 s o done hcount

theorem answersRequests_one_tick (W sid er a b d e : Nat) (s : ClientState) (o : Nat)
    (done : List Nat)
    (hcount : done.count sid + 1 ≤ (requestIds s.txMetaDataBuffer).count sid) :
    answersRequests W s o done [withTx (quiet a b 1 d e) [⟨sid, er⟩]] = true := by
  simp only [answersRequests, withTx, quiet, List.isEmpty_nil, Bool.true_or, Bool.true_and,
    List.nil_append, List.all_cons, List.all_nil, Bool.and_true, completionIds, List.map_cons,
    List.map_nil, decide_eq_true_eq]
  rw [List.count_append, List.count_singleton_self]
  exact hcount

theorem answersRequests_step (W : Nat) (xs ys : List TickInput) (s : ClientState) (o : Nat)
    (done : List Nat) (hx : answersRequests W s o done xs = true)
    (hy : answersRequests W (run W s xs) (o + (openStream xs).length)
      (done ++ completionIds (txStream xs)) ys = true) :
    answersRequests W s o done (xs ++ ys) = true := by
  rw [answersRequests_append, hx, hy]
  rfl

theorem txStream_one_tick (sid er a b d e : Nat) :
    completionIds (txStream [withTx (quiet a b 1 d e) [⟨sid, er⟩]]) = [sid] := rfl

/-- After a loop of packets of which each issued a send request, a session with
an unanswered send request before the loop has one after it. -/
theorem counts_after_packets (a b d e sid m l x : Nat) (M M2 : List appTxMeta)
    (done : List Nat) (hM : M2 = M ++ List.replicate m ⟨sid, l⟩)
    (h : done.count x + 1 ≤ (requestIds M).count x) :
    (done ++ completionIds (txStream
      (List.replicate m
        [withTx (quiet a b 1 d e) [⟨sid, 0⟩], quiet a b 1 d e,
          quiet a b 1 d e]).flatten)).count x + 1 ≤ (requestIds M2).count x := by
  rw [txStream_packets, hM]
  by_cases hx : sid = x
  · subst hx
    rw [count_requestIds_append_replicate, List.count_append, List.count_replicate_self]
    omega
  · rw [count_append_replicate_ne done x sid m hx]
    have := count_requestIds_append_le M (List.replicate m ⟨sid, l⟩) x
    omega

theorem counts_after_one_tick (a b d e sid er x : Nat) (M : List appTxMeta)
    (done : List Nat) (hx : sid ≠ x) (h : done.count x + 1 ≤ (requestIds M).count x) :
    (done ++ completionIds (txStream [withTx (quiet a b 1 d e) [⟨sid, er⟩]])).count x + 1 ≤
      (requestIds M).count x := by
  rw [txStream_one_tick, List.count_append, List.count_singleton]
  simp only [beq_iff_eq, hx, if_false, Nat.add_zero]
  exact h

/-- A row of packets at the end of the quota, one for each session of `sids`:
each issues a send request for its session and closes it.  When every session
of `sids` has an unanswered send request, the arrivals answer requests, and a
session with an unanswered send request before the row has one after it. -/
theorem closing_sessions (W a b d e : Nat) :
    ∀ (sids : List Nat) (s : ClientState) (cs n c T o : Nat) (done : List Nat),
      (∀ x ∈ sids, x < 65536) → AtCheckReq s cs n c T → c + 1 + n = T →
      c + sids.length ≤ 65535 → sids.length + 1 ≤ n →
      (∀ x ∈ sids, done.count x + 1 ≤ (requestIds s.txMetaDataBuffer).count x) →
      (∃ cs2, AtCheckReq
        (run W s
          (sids.map (fun x =>
            [withTx (quiet a b 1 d e) [⟨x, 0⟩], quiet a b 1 d e, quiet a b 1 d e])).flatten)
        cs2 (n - sids.length) (c + sids.length) T) ∧
      answersRequests W s o done
        (sids.map (fun x =>
          [withTx (quiet a b 1 d e) [⟨x, 0⟩], quiet a b 1 d e, quiet a b 1 d e])).flatten =
        true ∧
      ∀ y, done.count y + 1 ≤ (requestIds s.txMetaDataBuffer).count y →
        (done ++ completionIds (txStream
          (sids.map (fun x =>
            [withTx (quiet a b 1 d e) [⟨x, 0⟩], quiet a b 1 d e,
              quiet a b 1 d e])).flatten)).count y + 1 ≤
          (requestIds (run W s
            (sids.map (fun x =>
              [withTx (quiet a b 1 d e) [⟨x, 0⟩], quiet a b 1 d e,
                quiet a b 1 d e])).flatten).txMetaDataBuffer).count y := by
  intro sids
  induction sids with
  | nil =>
    intro s cs n c T o done _ h _ _ _ _
    refine ⟨⟨cs, h⟩, rfl, ?_⟩
    intro y hy
    simpa [txStream, completionIds, run] using hy
  | cons x xs ih =>
    intro s cs n c T o done hlt h hq hc hn hcount
    have hx : x < 65536 := hlt x (List.mem_cons_self _ _)
    have hd : dec16 n = n - 1 := dec16_pos _ (by simp only [List.length_cons] at hn; omega)
    simp only [List.length_cons] at hc hn ⊢
    obtain ⟨Fa, Ma⟩ := issuing_closing_packet_facts W x a b d e hx s cs n c T h hq (by omega)
      (by rw [hd]; omega)
    rw [hd] at Fa
    have hcx := hcount x (List.mem_cons_self _ _)
    have hconf1 := answersRequests_one_packet W x a b d e s o done hcx
    have hstep : ∀ y, done.count y + 1 ≤ (requestIds s.txMetaDataBuffer).count y →
        (done ++ completionIds (txStream
          (List.replicate 1
            [withTx (quiet a b 1 d e) [⟨x, 0⟩], quiet a b 1 d e,
              quiet a b 1 d e]).flatten)).count y + 1 ≤
          (requestIds (run W s
            (List.replicate 1
              [withTx (quiet a b 1 d e) [⟨x, 0⟩], quiet a b 1 d e,
                quiet a b 1 d e]).flatten).txMetaDataBuffer).count y :=
      fun y hy => counts_after_packets a b d e x 1 (1 * (W / 8)) y _ _ done Ma hy
    obtain ⟨⟨cs2, Fb⟩, hconf2, hrest⟩ := ih
      (run W s
        (List.replicate 1
          [withTx (quiet a b 1 d e) [⟨x, 0⟩], quiet a b 1 d e, quiet a b 1 d e]).flatten)
      x (n - 1) (c + 1) T
      (o + (openStream
        (List.replicate 1
          [withTx (quiet a b 1 d e) [⟨x, 0⟩], quiet a b 1 d e, quiet a b 1 d e]).flatten).length)
      (done ++ completionIds (txStream
        (List.replicate 1
          [withTx (quiet a b 1 d e) [⟨x, 0⟩], quiet a b 1 d e, quiet a b 1 d e]).flatten))
      (fun y hy => hlt y (List.mem_cons_of_mem _ hy)) Fa (by omega) (by omega) (by omega)
      (fun y hy => hstep y (hcount y (List.mem_cons_of_mem _ hy)))
    have hP : (List.replicate 1
        [withTx (quiet a b 1 d e) [⟨x, 0⟩], quiet a b 1 d e, quiet a b 1 d e]).flatten =
        [withTx (quiet a b 1 d e) [⟨x, 0⟩], quiet a b 1 d e, quiet a b 1 d e] := rfl
    rw [hP] at Fb hconf1 hconf2 hrest hstep
    rw [List.map_cons, List.flatten_cons]
    refine ⟨⟨cs2, ?_⟩, ?_, ?_⟩
    · rw [run_append]
      have e1 : n - (xs.length + 1) = n - 1 - xs.length := by omega
      have e2 : c + (xs.length + 1) = c + 1 + xs.length := by omega
      rw [e1, e2]
      exact Fb
    · exact answersRequests_step W _ _ s o done hconf1 hconf2
    · intro y hy
      rw [run_append, txStream_append, completionIds, List.map_append, ← List.append_assoc]
      exact hrest y (hstep y hy)

/-- The traffic phase of the run that wraps `totalPkgCounter`.  From `CHECK_REQ`
with 257 connections, `totalSendTarget = 65535` and nothing counted, where each
of the sessions 1 to 257 has an unanswered send request: 65277 packets of
session 1 in the middle of the quota; one packet of each of the sessions 2 to
257, which closes it; the completion with `error = 1` for session 1, which
takes `numConnections` to 0; a packet of session 2 that counts 65534; a packet
of session 3 that counts 65535 and whose close wraps `numConnections`; and a
completion of session 4.  All arrivals answer requests; the driver is in
`START_PKG` with `totalPkgCounter = 65535`, and the next tick takes it to 0. -/
theorem wrap_from_check_req (W a b d e : Nat) (s : ClientState) (cs o : Nat)
    (done : List Nat) (h : AtCheckReq s cs 257 0 65535)
    (hI : ∀ x, 1 ≤ x → x ≤ 257 →
      done.count x + 1 ≤ (requestIds s.txMetaDataBuffer).count x) :
    answersRequests W s o done
      ((List.replicate 1
          [withTx (quiet a b 1 d e) [⟨1, 0⟩], quiet a b 1 d e, quiet a b 1 d e]).flatten ++
        ((List.replicate 65276
            [withTx (quiet a b 1 d e) [⟨1, 0⟩], quiet a b 1 d e, quiet a b 1 d e]).flatten ++
          ((((List.range 256).map (fun i => i + 2)).map (fun x =>
              [withTx (quiet a b 1 d e) [⟨x, 0⟩], quiet a b 1 d e,
                quiet a b 1 d e])).flatten ++
            ([withTx (quiet a b 1 d e) [⟨1, 1⟩]] ++
              ((List.replicate 1
                  [withTx (quiet a b 1 d e) [⟨2, 0⟩], quiet a b 1 d e,
                    quiet a b 1 d e]).flatten ++
                ((List.replicate 1
                    [withTx (quiet a b 1 d e) [⟨3, 0⟩], quiet a b 1 d e,
                      quiet a b 1 d e]).flatten ++
                  [withTx (quiet a b 1 d e) [⟨4, 0⟩]])))))) = true ∧
    (run W s
      ((List.replicate 1
          [withTx (quiet a b 1 d e) [⟨1, 0⟩], quiet a b 1 d e, quiet a b 1 d e]).flatten ++
        ((List.replicate 65276
            [withTx (quiet a b 1 d e) [⟨1, 0⟩], quiet a b 1 d e, quiet a b 1 d e]).flatten ++
          ((((List.range 256).map (fun i => i + 2)).map (fun x =>
              [withTx (quiet a b 1 d e) [⟨x, 0⟩], quiet a b 1 d e,
                quiet a b 1 d e])).flatten ++
            ([withTx (quiet a b 1 d e) [⟨1, 1⟩]] ++
              ((List.replicate 1
                  [withTx (quiet a b 1 d e) [⟨2, 0⟩], quiet a b 1 d e,
                    quiet a b 1 d e]).flatten ++
                ((List.replicate 1
                    [withTx (quiet a b 1 d e) [⟨3, 0⟩], quiet a b 1 d e,
                      quiet a b 1 d e]).flatten ++
                  [withTx (quiet a b 1 d e) [⟨4, 0⟩]]))))))).iperfFsmState = .START_PKG ∧
    (run W s
      ((List.replicate 1
          [withTx (quiet a b 1 d e) [⟨1, 0⟩], quiet a b 1 d e, quiet a b 1 d e]).flatten ++
        ((List.replicate 65276
            [withTx (quiet a b 1 d e) [⟨1, 0⟩], quiet a b 1 d e, quiet a b 1 d e]).flatten ++
          ((((List.range 256).map (fun i => i + 2)).map (fun x =>
              [withTx (quiet a b 1 d e) [⟨x, 0⟩], quiet a b 1 d e,
                quiet a b 1 d e])).flatten ++
            ([withTx (quiet a b 1 d e) [⟨1, 1⟩]] ++
              ((List.replicate 1
                  [withTx (quiet a b 1 d e) [⟨2, 0⟩], quiet a b 1 d e,
                    quiet a b 1 d e]).flatten ++
                ((List.replicate 1
                    [withTx (quiet a b 1 d e) [⟨3, 0⟩], quiet a b 1 d e,
                      quiet a b 1 d e]).flatten ++
                  [withTx (quiet a b 1 d e) [⟨4, 0⟩]]))))))).totalPkgCounter = 65535 ∧
    (tick W
      (run W s
        ((List.replicate 1
            [withTx (quiet a b 1 d e) [⟨1, 0⟩], quiet a b 1 d e, quiet a b 1 d e]).flatten ++
          ((List.replicate 65276
              [withTx (quiet a b 1 d e) [⟨1, 0⟩], quiet a b 1 d e, quiet a b 1 d e]).flatten ++
            ((((List.range 256).map (fun i => i + 2)).map (fun x =>
                [withTx (quiet a b 1 d e) [⟨x, 0⟩], quiet a b 1 d e,
                  quiet a b 1 d e])).flatten ++
              ([withTx (quiet a b 1 d e) [⟨1, 1⟩]] ++
                ((List.replicate 1
                    [withTx (quiet a b 1 d e) [⟨2, 0⟩], quiet a b 1 d e,
                      quiet a b 1 d e]).flatten ++
                  ((List.replicate 1
                      [withTx (quiet a b 1 d e) [⟨3, 0⟩], quiet a b 1 d e,
                        quiet a b 1 d e]).flatten ++
                    [withTx (quiet a b 1 d e) [⟨4, 0⟩]])))))))
      (quiet a b 1 d e)).totalPkgCounter = 0 := by
  have hlen : ((List.range 256).map (fun i => i + 2)).length = 256 := by
    rw [List.length_map, List.length_range]
  have hsids : ∀ x ∈ (List.range 256).map (fun i => i + 2), 2 ≤ x ∧ x ≤ 257 := by
    intro x hx
    obtain ⟨i, hi, rfl⟩ := List.mem_map.1 hx
    rw [List.mem_range] at hi
    omega
  obtain ⟨Fa, Ma⟩ := issuing_packet_facts W 1 a b d e (by norm_num) s cs 257 0 65535 h
    (by norm_num) (by norm_num)
  obtain ⟨Fb, Mb⟩ := issuing_packets_facts W 1 a b d e (by norm_num) 65276 _ 257 1 65535 Fa
    (by norm_num) (by norm_num)
  have ca : ∀ x, 1 ≤ x → x ≤ 257 → _ :=
    fun x h1 h2 => counts_after_packets a b d e 1 1 (1 * (W / 8)) x _ _ done Ma (hI x h1 h2)
  have cb : ∀ x, 1 ≤ x → x ≤ 257 → _ :=
    fun x h1 h2 => counts_after_packets a b d e 1 65276 (1 * (W / 8)) x _ _ _ Mb (ca x h1 h2)
  obtain ⟨⟨cs2, Fc⟩, confc, restc⟩ := closing_sessions W a b d e
    ((List.range 256).map (fun i => i + 2)) _ 1 257 65277 65535
    (o + (openStream (List.replicate 1
        [withTx (quiet a b 1 d e) [⟨1, 0⟩], quiet a b 1 d e, quiet a b 1 d e]).flatten).length +
      (openStream (List.replicate 65276
        [withTx (quiet a b 1 d e) [⟨1, 0⟩], quiet a b 1 d e,
          quiet a b 1 d e]).flatten).length) _
    (fun x hx => by have := hsids x hx; omega) Fb (by norm_num) (by rw [hlen]; omega)
    (by rw [hlen]) (fun x hx => cb x (by have := hsids x hx; omega) (hsids x hx).2)
  rw [hlen] at Fc
  have cc : ∀ x, 1 ≤ x → x ≤ 257 → _ := fun x h1 h2 => restc x (cb x h1 h2)
  obtain ⟨Fd, Md⟩ := fatal_tick_facts W 1 a b d e _ cs2 1 65533 65535 Fc
  have cd : ∀ x, 2 ≤ x → x ≤ 257 → _ :=
    fun x h1 h2 => counts_after_one_tick a b d e 1 1 x _ _ (by omega) (cc x (by omega) h2)
  rw [← Md] at cd
  obtain ⟨Fe, Me⟩ := issuing_packet_facts W 2 a b d e (by norm_num) _ cs2 0 65533 65535 Fd
    (by norm_num) (by norm_num)
  have ce : ∀ x, 2 ≤ x → x ≤ 257 → _ :=
    fun x h1 h2 => counts_after_packets a b d e 2 1 (1 * (W / 8)) x _ _ _ Me (cd x h1 h2)
  obtain ⟨Ff, Mf⟩ := issuing_closing_packet_facts W 3 a b d e (by norm_num) _ 2 0 65534 65535
    Fe (by norm_num) (by norm_num) (by decide)
  have cf : ∀ x, 2 ≤ x → x ≤ 257 → _ :=
    fun x h1 h2 => counts_after_packets a b d e 3 1 (1 * (W / 8)) x _ _ _ Mf (ce x h1 h2)
  have hfin := check_req_then_start W _ (withTx (quiet a b 1 d e) [⟨4, 0⟩]) (quiet a b 1 d e)
    ⟨4, 0⟩ [] Ff.1 (by rw [Ff.2.1]; rfl) rfl rfl
  refine ⟨?_, ?_, ?_, ?_⟩
  · refine answersRequests_step W _ _ s o done
      (answersRequests_one_packet W 1 a b d e s o done (hI 1 (by norm_num) (by norm_num))) ?_
    refine answersRequests_step W _ _ _ _ _
      (answersRequests_issuing_loop W 1 a b d e (by norm_num) 65276 _ 257 1 65535 _ _ Fa
        (by norm_num) (by norm_num) (ca 1 (by norm_num) (by norm_num))) ?_
    refine answersRequests_step W _ _ _ _ _ confc ?_
    refine answersRequests_step W _ _ _ _ _
      (answersRequests_one_tick W 1 1 a b d e _ _ _ (cc 1 (by norm_num) (by norm_num))) ?_
    refine answersRequests_step W _ _ _ _ _
      (answersRequests_one_packet W 2 a b d e _ _ _ (cd 2 (by norm_num) (by norm_num))) ?_
    refine answersRequests_step W _ _ _ _ _
      (answersRequests_one_packet W 3 a b d e _ _ _ (ce 3 (by norm_num) (by norm_num))) ?_
    exact answersRequests_one_tick W 4 0 a b d e _ _ _ (cf 4 (by norm_num) (by norm_num))
  · simp only [run_append]
    exact hfin.1
  · simp only [run_append]
    rw [hfin.2.1]
    exact Ff.2.2.2.2.2.1
  · simp only [run_append]
    rw [hfin.2.2, Ff.2.2.2.2.2.1]

theorem wrapResults_tail_length (k : Nat) :
    ((List.range k).map (fun i => (⟨i + 2, true⟩ : openStatus))).length = k := by
  rw [List.length_map, List.length_range]

theorem wrapResults_tail_success (k : Nat) :
    successCount ((List.range k).map (fun i => (⟨i + 2, true⟩ : openStatus))) = k := by
  unfold successCount
  rw [List.filter_eq_self.2 (fun a ha => by
    obtain ⟨i, _, rfl⟩ := List.mem_map.1 ha
    rfl)]
  exact wrapResults_tail_length k

theorem wrapResults_seeds (W w k x : Nat) (h1 : 1 ≤ x) (h2 : x ≤ k + 1) :
    1 ≤ (requestIds ((⟨1, w * (W / 8)⟩ : appTxMeta) :: seedRequests W w
      ((List.range k).map (fun i => (⟨i + 2, true⟩ : openStatus))))).count x := by
  apply List.count_pos_iff.2
  by_cases hx : x = 1
  · subst hx
    simp [requestIds]
  · simp only [requestIds, seedRequests, List.map_cons, List.mem_cons, List.mem_map,
      List.mem_filter, List.mem_range]
    right
    exact ⟨⟨x, w * (W / 8)⟩, ⟨⟨x - 2 + 2, true⟩, ⟨⟨x - 2, by omega, rfl⟩, rfl⟩,
      by simp only [appTxMeta.mk.injEq, and_true]; omega⟩, rfl⟩

theorem txStream_opening (N w d P k : Nat) (R : List openStatus) :
    txStream
      (quiet 1 N w d P :: List.replicate N (quiet 1 N w d P) ++
        (withOpen (quiet 1 N w d P) R :: List.replicate k (quiet 1 N w d P)) ++
        [quiet 1 N w d P]) = [] := by
  rw [txStream_append, txStream_append, txStream_cons, txStream_cons,
    txStream_replicate_quiet, txStream_replicate_quiet]
  rfl


/-- C14 at the failing input `wrapRun`.  Every open result and every send
completion of the run answers a request the driver wrote before.  All 257
sessions open, so `totalSendTarget = 65535`.  Session 1 sends 65277 packets;
each of the sessions 2 to 257 sends one packet and is closed, with the request
that `START_PKG` issued for it outstanding; this leaves `numConnections = 1`
and `totalPkgCounter = 65533`.  The outstanding request of session 1 then fails
with `error = 1`, which leaves the driver in `CHECK_REQ` with
`numConnections = 0`.  The requests outstanding for the sessions 2 and 3
complete: `totalPkgCounter` reaches 65535 and the close after the second wraps
`numConnections` to 65535.  The request outstanding for session 4 completes,
and the driver is in `START_PKG` with `totalPkgCounter = 65535`.  The next tick,
which is not the `IDLE -> INIT_CON` reset, takes `totalPkgCounter` to 0. -/
theorem totalPkgCounter_wraps_answering_requests :
    answersRequests 64 initState 0 [] wrapRun = true ∧
    (run 64 initState wrapRun).iperfFsmState = .START_PKG ∧
    (run 64 initState wrapRun).totalPkgCounter = 65535 ∧
    (tick 64 (run 64 initState wrapRun) (quiet 1 257 1 9 255)).totalPkgCounter = 0 := by
  have hpre := run_to_check_req_arriving 64 257 1 9 255 (by norm_num) (by norm_num)
    ⟨1, true⟩ ((List.range 256).map (fun i => (⟨i + 2, true⟩ : openStatus))) rfl
    (by rw [wrapResults_tail_length])
  rw [wrapResults_tail_length, wrapResults_tail_success] at hpre
  have hconf := answersRequests_opening 64 257 1 9 255 256 (by norm_num) (by norm_num)
    wrapResults (by
      unfold wrapResults
      rw [List.length_cons, wrapResults_tail_length])
  have htx := txStream_opening 257 1 9 255 256 wrapResults
  have h65277 : List.replicate 65277
      [withTx (quiet 1 257 1 9 255) [⟨1, 0⟩], quiet 1 257 1 9 255, quiet 1 257 1 9 255] =
      List.replicate 1
        [withTx (quiet 1 257 1 9 255) [⟨1, 0⟩], quiet 1 257 1 9 255, quiet 1 257 1 9 255] ++
      List.replicate 65276
        [withTx (quiet 1 257 1 9 255) [⟨1, 0⟩], quiet 1 257 1 9 255,
          quiet 1 257 1 9 255] := by
    rw [← List.replicate_add]
  have hat : AtCheckReq
      (run 64 initState
        (quiet 1 257 1 9 255 :: List.replicate 257 (quiet 1 257 1 9 255) ++
          (withOpen (quiet 1 257 1 9 255) wrapResults ::
            List.replicate 256 (quiet 1 257 1 9 255)) ++
          [quiet 1 257 1 9 255])) 257 257 0 65535 := by
    unfold wrapResults
    rw [hpre]
    exact ⟨rfl, rfl, rfl, rfl, rfl, rfl, rfl⟩
  have hm : (run 64 initState
        (quiet 1 257 1 9 255 :: List.replicate 257 (quiet 1 257 1 9 255) ++
          (withOpen (quiet 1 257 1 9 255) wrapResults ::
            List.replicate 256 (quiet 1 257 1 9 255)) ++
          [quiet 1 257 1 9 255])).txMetaDataBuffer =
      ⟨1, 1 * (64 / 8)⟩ :: seedRequests 64 1
        ((List.range 256).map (fun i => (⟨i + 2, true⟩ : openStatus))) := by
    unfold wrapResults
    rw [hpre]
  have hI : ∀ x, 1 ≤ x → x ≤ 257 →
      ([] ++ completionIds (txStream
        (quiet 1 257 1 9 255 :: List.replicate 257 (quiet 1 257 1 9 255) ++
          (withOpen (quiet 1 257 1 9 255) wrapResults ::
            List.replicate 256 (quiet 1 257 1 9 255)) ++
          [quiet 1 257 1 9 255]))).count x + 1 ≤
      (requestIds (run 64 initState
        (quiet 1 257 1 9 255 :: List.replicate 257 (quiet 1 257 1 9 255) ++
          (withOpen (quiet 1 257 1 9 255) wrapResults ::
            List.replicate 256 (quiet 1 257 1 9 255)) ++
          [quiet 1 257 1 9 255])).txMetaDataBuffer).count x := by
    intro x h1 h2
    rw [htx, hm]
    have := wrapResults_seeds 64 1 256 x h1 (by omega)
    simp only [completionIds, List.map_nil, List.append_nil, List.count_nil]
    omega
  obtain ⟨g1, g2, g3, g4⟩ := wrap_from_check_req 64 1 257 9 255 _ 257
    (0 + (openStream
      (quiet 1 257 1 9 255 :: List.replicate 257 (quiet 1 257 1 9 255) ++
        (withOpen (quiet 1 257 1 9 255) wrapResults ::
          List.replicate 256 (quiet 1 257 1 9 255)) ++
        [quiet 1 257 1 9 255])).length) _ hat hI
  have htraffic :
      (List.replicate 65277
          [withTx (quiet 1 257 1 9 255) [⟨1, 0⟩], quiet 1 257 1 9 255,
            quiet 1 257 1 9 255]).flatten ++
        ((((List.range 256).map (fun i => i + 2)).map (fun x =>
            [withTx (quiet 1 257 1 9 255) [⟨x, 0⟩], quiet 1 257 1 9 255,
              quiet 1 257 1 9 255])).flatten ++
          ([withTx (quiet 1 257 1 9 255) [⟨1, 1⟩]] ++
            ([withTx (quiet 1 257 1 9 255) [⟨2, 0⟩], quiet 1 257 1 9 255,
                quiet 1 257 1 9 255] ++
              ([withTx (quiet 1 257 1 9 255) [⟨3, 0⟩], quiet 1 257 1 9 255,
                  quiet 1 257 1 9 255] ++
                [withTx (quiet 1 257 1 9 255) [⟨4, 0⟩]])))) =
      (List.replicate 1
          [withTx (quiet 1 257 1 9 255) [⟨1, 0⟩], quiet 1 257 1 9 255,
            quiet 1 257 1 9 255]).flatten ++
        ((List.replicate 65276
            [withTx (quiet 1 257 1 9 255) [⟨1, 0⟩], quiet 1 257 1 9 255,
              quiet 1 257 1 9 255]).flatten ++
          ((((List.range 256).map (fun i => i + 2)).map (fun x =>
              [withTx (quiet 1 257 1 9 255) [⟨x, 0⟩], quiet 1 257 1 9 255,
                quiet 1 257 1 9 255])).flatten ++
            ([withTx (quiet 1 257 1 9 255) [⟨1, 1⟩]] ++
              ((List.replicate 1
                  [withTx (quiet 1 257 1 9 255) [⟨2, 0⟩], quiet 1 257 1 9 255,
                    quiet 1 257 1 9 255]).flatten ++
                ((List.replicate 1
                    [withTx (quiet 1 257 1 9 255) [⟨3, 0⟩], quiet 1 257 1 9 255,
                      quiet 1 257 1 9 255]).flatten ++
                  [withTx (quiet 1 257 1 9 255) [⟨4, 0⟩]]))))) := by
    rw [h65277, List.flatten_append, List.append_assoc]
    rfl
  unfold wrapRun
  rw [htraffic]
  refine ⟨?_, ?_, ?_, ?_⟩
  · rw [answersRequests_append, hconf, Bool.true_and]
    exact g1
  · rw [run_append]
    exact g2
  · rw [run_append]
    exact g3
  · rw [run_append]
    exact g4

/-- When the product wraps, packets pass `totalSendTarget` on arrivals that all
answer requests: 512 sessions, all opened, with `TotalPkgPerConn = 128` give
`totalSendTarget = 65536 mod 2^16 = 0`, and the first packet takes
`totalPkgCounter` to 1. -/
theorem target_overflow_answering_requests :
    answersRequests 64 initState 0 []
      ((quiet 1 512 1 9 128 :: List.replicate 512 (quiet 1 512 1 9 128) ++
          (withOpen (quiet 1 512 1 9 128)
              (⟨1, true⟩ :: (List.range 511).map (fun i => ⟨i + 2, true⟩)) ::
            List.replicate 511 (quiet 1 512 1 9 128)) ++
          [quiet 1 512 1 9 128]) ++
        [withTx (quiet 1 512 1 9 128) [⟨1, 0⟩], quiet 1 512 1 9 128]) = true ∧
    (run 64 initState
      ((quiet 1 512 1 9 128 :: List.replicate 512 (quiet 1 512 1 9 128) ++
          (withOpen (quiet 1 512 1 9 128)
              (⟨1, true⟩ :: (List.range 511).map (fun i => ⟨i + 2, true⟩)) ::
            List.replicate 511 (quiet 1 512 1 9 128)) ++
          [quiet 1 512 1 9 128]) ++
        [withTx (quiet 1 512 1 9 128) [⟨1, 0⟩], quiet 1 512 1 9 128])).iperfFsmState = .CHECK_SIZE ∧
    (run 64 initState
      ((quiet 1 512 1 9 128 :: List.replicate 512 (quiet 1 512 1 9 128) ++
          (withOpen (quiet 1 512 1 9 128)
              (⟨1, true⟩ :: (List.range 511).map (fun i => ⟨i + 2, true⟩)) ::
            List.replicate 511 (quiet 1 512 1 9 128)) ++
          [quiet 1 512 1 9 128]) ++
        [withTx (quiet 1 512 1 9 128) [⟨1, 0⟩], quiet 1 512 1 9 128])).totalSendTarget = 0 ∧
    (run 64 initState
      ((quiet 1 512 1 9 128 :: List.replicate 512 (quiet 1 512 1 9 128) ++
          (withOpen (quiet 1 512 1 9 128)
              (⟨1, true⟩ :: (List.range 511).map (fun i => ⟨i + 2, true⟩)) ::
            List.replicate 511 (quiet 1 512 1 9 128)) ++
          [quiet 1 512 1 9 128]) ++
        [withTx (quiet 1 512 1 9 128) [⟨1, 0⟩], quiet 1 512 1 9 128])).totalPkgCounter = 1 := by
  have hpre := run_to_check_req_arriving 64 512 1 9 128 (by norm_num) (by norm_num)
    ⟨1, true⟩ ((List.range 511).map (fun i => (⟨i + 2, true⟩ : openStatus))) rfl
    (by rw [wrapResults_tail_length])
  rw [wrapResults_tail_length, wrapResults_tail_success] at hpre
  have hconf := answersRequests_opening 64 512 1 9 128 511 (by norm_num) (by norm_num)
    (⟨1, true⟩ :: (List.range 511).map (fun i => (⟨i + 2, true⟩ : openStatus))) (by
      rw [List.length_cons, wrapResults_tail_length])
  have htx := txStream_opening 512 1 9 128 511
    (⟨1, true⟩ :: (List.range 511).map (fun i => (⟨i + 2, true⟩ : openStatus)))
  have hpk := one_word_packet 64 _ (withTx (quiet 1 512 1 9 128) [⟨1, 0⟩])
    (quiet 1 512 1 9 128) ⟨1, 0⟩ [] (congrArg ClientState.iperfFsmState hpre)
    (by rw [hpre]; rfl) rfl rfl
  rw [hpre] at hpk
  refine ⟨?_, ?_, ?_, ?_⟩
  · rw [answersRequests_append, hconf, Bool.true_and]
    refine answersRequests_step 64 [withTx (quiet 1 512 1 9 128) [⟨1, 0⟩]]
      [quiet 1 512 1 9 128] _ _ _ ?_ ?_
    · apply answersRequests_one_tick
      rw [htx, hpre]
      have := wrapResults_seeds 64 1 511 1 (by norm_num) (by norm_num)
      simp only [completionIds, List.map_nil, List.append_nil, List.count_nil]
      omega
    · apply answersRequests_no_arrivals
      intro t ht
      simp only [List.mem_singleton] at ht
      subst ht
      exact ⟨rfl, rfl⟩
  · rw [run_append, hpre]
    exact hpk.1
  · rw [run_append, hpre, hpk.2.1]
  · rw [run_append, hpre, hpk.2.2]
    rfl

end TcpPerfClient
